import Mathlib

/-!
# bouwerp/cam: the media-pipeline engine of `cam.c`, embedded in Lean

A shallow embedding of the parts of `src/cam.c` / `src/cam.h` that the
verified properties talk about, followed by the theorems.

Conventions of the embedding

* C `int` and `int64_t` values are `Int`; signed arithmetic is exact, `/` and
  `%` are the truncating `Int.tdiv` and `Int.tmod` of C.  Signed overflow is
  undefined behaviour in C, so the model describes the executions in which no
  signed operation overflows and every signed value fits the variable it is
  stored in.
* `uint32_t` values are `Nat`; conversions between signed and unsigned values
  that the code performs are written out (`uint32_of_int`, `int_of_uint32`),
  and where a value the code computes or stores can leave the range of a
  `uint32_t` (the macroblock rate, the bitrate and the geometry of a port
  format) the reduction modulo 2^32 is written out.  The target is the 32-bit
  ABI of the MMAL userland: `int`, `ptrdiff_t` and `uint32_t` have the same
  width, so an `int` combined with a `uint32_t` is converted to `uint32_t`.
* The MMAL / VCOS / libc calls are the environment.  A call whose result the
  code inspects takes its result from an oracle record; calls the code makes
  are recorded, in program order, in a trace.
* Loops that need not terminate take a fuel argument and report
  `Fault.out_of_fuel` when it is used up.
-/

namespace Cam

/-! ## C helpers -/

/-- Conversion of a C integer to `uint32_t` (reduction modulo 2^32). -/
def uint32_of_int (i : Int) : Nat := (i % (4294967296 : Int)).toNat

/-- Conversion of a `uint32_t` to `int` (two-s complement, as GCC defines it). -/
def int_of_uint32 (n : Nat) : Int :=
  if n % 4294967296 < 2147483648 then ((n % 4294967296 : Nat) : Int)
  else ((n % 4294967296 : Nat) : Int) - 4294967296

/-- C logical negation `!x` on an `int`. -/
def lnot (i : Int) : Int := if i = 0 then 1 else 0

/-- The VCOS macro `VCOS_ALIGN_UP(p, n)` (vcos_types.h, not part of this
repository) on a non-negative value, `n` a power of two: the smallest multiple
of `n` that is at least `p`. -/
def VCOS_ALIGN_UP (p n : Nat) : Nat := (p + (n - 1)) / n * n

/-! ## Constants of `cam.h` and of the MMAL headers -/

/-- MMAL status codes (`MMAL_STATUS_T`, mmal_types.h), in declaration order. -/
inductive MMAL_STATUS_T where
  | MMAL_SUCCESS
  | MMAL_ENOMEM
  | MMAL_ENOSPC
  | MMAL_EINVAL
  | MMAL_ENOSYS
  | MMAL_ENOENT
  | MMAL_ENXIO
  | MMAL_EIO
  | MMAL_ESPIPE
  | MMAL_ECORRUPT
  | MMAL_ENOTREADY
  | MMAL_ECONFIG
  | MMAL_EISCONN
  | MMAL_ENOTCONN
  | MMAL_EAGAIN
  | MMAL_EFAULT
  deriving DecidableEq, Repr, Inhabited

open MMAL_STATUS_T

def MAX_BITRATE_MJPEG : Int := 25000000
def MAX_BITRATE_LEVEL4 : Int := 25000000
def MAX_BITRATE_LEVEL42 : Int := 62500000
def ABORT_INTERVAL : Int := 100
def CAMERA_SETTLE_TIME : Int := 1000
def VIDEO_FRAME_RATE_NUM : Nat := 30

/-- The four-character code `MMAL_FOURCC(a,b,c,d)` of mmal_types.h. -/
def MMAL_FOURCC (a b c d : Char) : Nat :=
  a.toNat + b.toNat * 256 + c.toNat * 65536 + d.toNat * 16777216

def MMAL_ENCODING_H264 : Nat := MMAL_FOURCC 'H' '2' '6' '4'
def MMAL_ENCODING_MJPEG : Nat := MMAL_FOURCC 'M' 'J' 'P' 'G'
def MMAL_ENCODING_JPEG : Nat := MMAL_FOURCC 'J' 'P' 'E' 'G'

/-- Enumerator of `MMAL_VIDEO_LEVEL_T` (mmal_parameters_video.h).  The code only
compares levels for equality, so only the enumerators being distinct matters. -/
def MMAL_VIDEO_LEVEL_H264_4 : Nat := 29
/-- Enumerator of `MMAL_VIDEO_LEVEL_T`, distinct from `MMAL_VIDEO_LEVEL_H264_4`. -/
def MMAL_VIDEO_LEVEL_H264_42 : Nat := 31

/-- Buffer header flags (mmal_buffer.h). -/
def MMAL_BUFFER_HEADER_FLAG_EOS : Nat := 1
def MMAL_BUFFER_HEADER_FLAG_FRAME_START : Nat := 2
def MMAL_BUFFER_HEADER_FLAG_FRAME_END : Nat := 4
def MMAL_BUFFER_HEADER_FLAG_KEYFRAME : Nat := 8
def MMAL_BUFFER_HEADER_FLAG_DISCONTINUITY : Nat := 16
def MMAL_BUFFER_HEADER_FLAG_CONFIG : Nat := 32
def MMAL_BUFFER_HEADER_FLAG_ENCRYPTED : Nat := 64
def MMAL_BUFFER_HEADER_FLAG_CODECSIDEINFO : Nat := 128
def MMAL_BUFFER_HEADER_FLAG_SNAPSHOT : Nat := 256
def MMAL_BUFFER_HEADER_FLAG_CORRUPTED : Nat := 512
def MMAL_BUFFER_HEADER_FLAG_TRANSMISSION_FAILED : Nat := 1024

/-- The value `MMAL_TIME_UNKNOWN` = `INT64_C(1) << 63` (mmal_types.h). -/
def MMAL_TIME_UNKNOWN : Int := -9223372036854775808

/-- The C test `flags & mask` as a truth value. -/
def has_flag (flags mask : Nat) : Bool := (flags &&& mask) != 0

-- Capture/Pause switch method (`cam.h`)
def WAIT_METHOD_NONE : Int := 0
def WAIT_METHOD_TIMED : Int := 1
def WAIT_METHOD_KEYPRESS : Int := 2
def WAIT_METHOD_SIGNAL : Int := 3
def WAIT_METHOD_FOREVER : Int := 4

-- Frame advance method (`cam.h`)
def FRAME_NEXT_SINGLE : Int := 0
def FRAME_NEXT_TIMELAPSE : Int := 1
def FRAME_NEXT_KEYPRESS : Int := 2
def FRAME_NEXT_FOREVER : Int := 3
def FRAME_NEXT_GPIO : Int := 4
def FRAME_NEXT_SIGNAL : Int := 5
def FRAME_NEXT_IMMEDIATELY : Int := 6

/-! ## The state of a run (`CAM_STATE`, cam.h) -/

/-- A buffer pool (`MMAL_POOL_T`): the queue of free buffer headers, each header
named by a number. -/
structure MMAL_POOL_T where
  queue : List Nat
  deriving DecidableEq, Repr

/-- The fields of `CAM_STATE` (with `callback_data` and `common_settings`
flattened) that the embedded functions read or write.  Pointers to components
are kept as "is non-null". -/
structure CAM_STATE where
  -- common_settings
  width : Nat
  height : Nat
  verbose : Int
  -- preview_parameters
  previewWindow_width : Nat
  previewWindow_height : Nat
  -- video
  timeout : Int
  encoding : Nat
  bitrate : Int
  framerate : Nat
  intraperiod : Nat
  quantisationParameter : Nat
  bInlineHeaders : Int
  immutableInput : Int
  profile : Nat
  level : Nat
  waitMethod : Int
  onTime : Int
  offTime : Int
  segmentSize : Int
  segmentWrap : Int
  segmentNumber : Int
  splitNow : Int
  splitWait : Int
  roi_x : ℚ
  roi_y : ℚ
  roi_w : ℚ
  roi_h : ℚ
  camera_component : Bool
  video_encoder_component : Bool
  video_encoder_output_port : Bool
  video_encoder_connection : Bool
  video_encoder_pool : Option MMAL_POOL_T
  bCapturing : Int
  inlineMotionVectors : Int
  intra_refresh_type : Int
  frame : Int
  starttime : Int
  lasttime : Int
  addSPSTiming : Int
  slices : Int
  -- callback_data
  abort : Int
  has_still_cb : Bool
  work_image_data : Option (List Nat)
  work_image_data_length : Nat
  image_data : Option (List Nat)
  image_data_length : Nat
  -- still
  still_encoder_component : Bool
  wantRAW : Int
  timelapse : Int
  frameNextMethod : Int
  burstCaptureMode : Int
  fullResPreview : Int
  timestamp : Int
  shutter_speed : Int
  encoder_pool : Option MMAL_POOL_T
  restart_interval : Int
  still_encoder_output_port : Bool
  camera_video_port : Bool
  preview_connection : Bool
  encoder_connection : Bool
  encoder_component : Bool
  -- preview_parameters
  wantPreview : Int
  preview_component : Bool

/-- The state after `memset(state, 0, sizeof(CAM_STATE))`. -/
def zero_state : CAM_STATE :=
  { width := 0, height := 0, verbose := 0, previewWindow_width := 0,
    previewWindow_height := 0, timeout := 0, encoding := 0, bitrate := 0,
    framerate := 0, intraperiod := 0, quantisationParameter := 0, bInlineHeaders := 0,
    immutableInput := 0, profile := 0, level := 0, waitMethod := 0, onTime := 0,
    offTime := 0, segmentSize := 0, segmentWrap := 0, segmentNumber := 0, splitNow := 0,
    splitWait := 0, roi_x := 0, roi_y := 0, roi_w := 0, roi_h := 0,
    camera_component := false, video_encoder_component := false,
    video_encoder_output_port := false, video_encoder_connection := false,
    video_encoder_pool := none, bCapturing := 0, inlineMotionVectors := 0,
    intra_refresh_type := 0, frame := 0, starttime := 0, lasttime := 0,
    addSPSTiming := 0, slices := 0, abort := 0, has_still_cb := false,
    work_image_data := none, work_image_data_length := 0, image_data := none,
    image_data_length := 0, still_encoder_component := false, wantRAW := 0,
    timelapse := 0, frameNextMethod := 0, burstCaptureMode := 0, fullResPreview := 0,
    timestamp := 0,
    shutter_speed := 0, encoder_pool := none, restart_interval := 0,
    still_encoder_output_port := false, camera_video_port := false,
    preview_connection := false, encoder_connection := false, encoder_component := false,
    wantPreview := 0, preview_component := false }

/-- Source `default_state` (cam.c 1718-1759), with the region of interest that
`camcontrol_set_defaults` sets.  `profile_baseline` stands for the enumerator
`MMAL_VIDEO_PROFILE_H264_BASELINE`, which the code only passes on. -/
def default_state (profile_baseline : Nat) : CAM_STATE :=
  { zero_state with
    timeout := -1
    width := 1920
    height := 1080
    encoding := MMAL_ENCODING_H264
    bitrate := 17000000
    framerate := VIDEO_FRAME_RATE_NUM
    intraperiod := uint32_of_int (-1)
    quantisationParameter := 0
    immutableInput := 1
    profile := profile_baseline
    level := MMAL_VIDEO_LEVEL_H264_4
    waitMethod := WAIT_METHOD_NONE
    onTime := 5000
    offTime := 5000
    bCapturing := 0
    bInlineHeaders := 0
    segmentSize := 0
    segmentNumber := 1
    segmentWrap := 0
    splitNow := 0
    splitWait := 0
    inlineMotionVectors := 0
    intra_refresh_type := -1
    frame := 0
    addSPSTiming := 0
    slices := 1
    roi_x := 0
    roi_y := 0
    roi_w := 1
    roi_h := 1 }

/-! ## The video encoder component (`create_encoder_component`, cam.c 838-1106) -/

/-- The fields of the encoder output port that the code writes before the
format commit, each holding the value the code assigns.  `bitrate` is the
`uint32_t` field `format->bitrate`. -/
structure EncoderOutput where
  encoding : Nat
  bitrate : Nat
  buffer_size : Nat
  buffer_num : Nat
  frame_rate_num : Int
  frame_rate_den : Int
  deriving DecidableEq, Repr

/-- Parameters the code sets on the encoder ports. -/
inductive EncParam where
  | INTRAPERIOD
  | MB_ROWS_PER_SLICE
  | VIDEO_ENCODE_INITIAL_QUANT
  | VIDEO_ENCODE_MIN_QUANT
  | VIDEO_ENCODE_MAX_QUANT
  | VIDEO_IMMUTABLE_INPUT
  | VIDEO_ENCODE_INLINE_HEADER
  | VIDEO_ENCODE_SPS_TIMING
  | VIDEO_ENCODE_INLINE_VECTORS
  | VIDEO_INTRA_REFRESH
  deriving DecidableEq, Repr

/-- Calls `create_encoder_component` makes on the encoder, in program order. -/
inductive EncCall where
  | component_create
  | format_commit (out : EncoderOutput)
  | parameter_set (p : EncParam) (value : Int)
  | profile_set (profile level : Nat)
  | intra_refresh_get
  | component_enable
  | port_pool_create (num size : Nat)
  | component_destroy
  deriving DecidableEq, Repr

/-- What the encoder hardware answers to each call of `create_encoder_component`. -/
structure EncoderHw where
  component_create : MMAL_STATUS_T
  input_num : Nat
  output_num : Nat
  buffer_size_recommended : Nat
  buffer_size_min : Nat
  buffer_num_recommended : Nat
  buffer_num_min : Nat
  format_commit : MMAL_STATUS_T
  set_intraperiod : MMAL_STATUS_T
  set_mb_rows_per_slice : MMAL_STATUS_T
  set_initial_quant : MMAL_STATUS_T
  set_min_quant : MMAL_STATUS_T
  set_max_quant : MMAL_STATUS_T
  set_profile : MMAL_STATUS_T
  get_intra_refresh : MMAL_STATUS_T
  set_intra_refresh : MMAL_STATUS_T
  component_enable : MMAL_STATUS_T
  pool_create : Bool

/-- The local variables of `create_encoder_component` while it runs: the state it
updates, the output port it configures (`none` until the component exists), the
calls made so far, the local `status`, whether the encoder pointer is non-null,
and whether control has jumped to the label `error`. -/
structure EncCtx where
  state : CAM_STATE
  output : Option EncoderOutput
  calls : List EncCall
  status : MMAL_STATUS_T
  encoder : Bool
  failed : Bool

/-- Lines 873-890: the bitrate after the per-encoding ceiling. -/
def encoder_bitrate (state : CAM_STATE) : Int :=
  if state.encoding = MMAL_ENCODING_H264 then
    if state.level = MMAL_VIDEO_LEVEL_H264_4 then
      if state.bitrate > MAX_BITRATE_LEVEL4 then MAX_BITRATE_LEVEL4 else state.bitrate
    else
      if state.bitrate > MAX_BITRATE_LEVEL42 then MAX_BITRATE_LEVEL42 else state.bitrate
  else if state.encoding = MMAL_ENCODING_MJPEG then
    if state.bitrate > MAX_BITRATE_MJPEG then MAX_BITRATE_MJPEG else state.bitrate
  else state.bitrate

/-- Lines 844-856: create the component and check it has ports. -/
def enc_create (hw : EncoderHw) (state : CAM_STATE) : EncCtx :=
  let c : EncCtx :=
    { state := state, output := none, calls := [EncCall.component_create],
      status := hw.component_create, encoder := false, failed := false }
  if hw.component_create ≠ MMAL_SUCCESS then { c with failed := true }
  else if hw.input_num = 0 ∨ hw.output_num = 0 then
    { c with encoder := true, status := MMAL_ENOSYS, failed := true }
  else { c with encoder := true }

/-- Lines 858-921: format of the output port, bitrate ceiling, buffer size and
count, frame rate, format commit.  Line 892 stores the `int` `state->bitrate`
in the `uint32_t` `format->bitrate`. -/
def enc_format (hw : EncoderHw) (c : EncCtx) : EncCtx :=
  if c.failed then c else
  let bitrate := encoder_bitrate c.state
  let state := { c.state with bitrate := bitrate }
  let size0 := if state.encoding = MMAL_ENCODING_H264 then hw.buffer_size_recommended
               else 256 * 1024
  let size := if size0 < hw.buffer_size_min then hw.buffer_size_min else size0
  let num := if hw.buffer_num_recommended < hw.buffer_num_min then hw.buffer_num_min
             else hw.buffer_num_recommended
  let out : EncoderOutput :=
    { encoding := state.encoding, bitrate := uint32_of_int bitrate, buffer_size := size,
      buffer_num := num, frame_rate_num := 0, frame_rate_den := 1 }
  let c1 := { c with state := state, output := some out,
                     calls := c.calls ++ [EncCall.format_commit out],
                     status := hw.format_commit }
  if hw.format_commit ≠ MMAL_SUCCESS then { c1 with failed := true } else c1

/-- Lines 934-941: the intra period. -/
def enc_intraperiod (hw : EncoderHw) (c : EncCtx) : EncCtx :=
  if c.failed then c else
  if c.state.encoding = MMAL_ENCODING_H264 ∧ c.state.intraperiod ≠ uint32_of_int (-1) then
    let c1 := { c with calls := c.calls ++
                           [EncCall.parameter_set EncParam.INTRAPERIOD c.state.intraperiod],
                       status := hw.set_intraperiod }
    if hw.set_intraperiod ≠ MMAL_SUCCESS then { c1 with failed := true } else c1
  else c

/-- Lines 944-953: the number of macroblock rows per slice. -/
def slice_row_mb (height : Nat) (slices : Int) : Int :=
  let frame_mb_rows : Int := ((VCOS_ALIGN_UP height 16 / 16 : Nat) : Int)
  let slice_row_mb := Int.tdiv frame_mb_rows slices
  if frame_mb_rows - slices * slice_row_mb ≠ 0 then slice_row_mb + 1 else slice_row_mb

/-- Lines 943-961: the slice configuration.  The value sent is never negative
here, so its conversion to `uint32_t` leaves it unchanged. -/
def enc_slices (hw : EncoderHw) (c : EncCtx) : EncCtx :=
  if c.failed then c else
  if c.state.encoding = MMAL_ENCODING_H264 ∧ c.state.slices > 1 ∧ c.state.width ≤ 1280 then
    let c1 := { c with calls := c.calls ++
                           [EncCall.parameter_set EncParam.MB_ROWS_PER_SLICE
                             (slice_row_mb c.state.height c.state.slices)],
                       status := hw.set_mb_rows_per_slice }
    if hw.set_mb_rows_per_slice ≠ MMAL_SUCCESS then { c1 with failed := true } else c1
  else c

/-- Lines 963-988: the fixed quantisation parameter (initial, min, max). -/
def enc_quant (hw : EncoderHw) (c : EncCtx) : EncCtx :=
  if c.failed then c else
  if c.state.encoding = MMAL_ENCODING_H264 ∧ c.state.quantisationParameter ≠ 0 then
    let q : Int := c.state.quantisationParameter
    let c1 := { c with calls := c.calls ++
                           [EncCall.parameter_set EncParam.VIDEO_ENCODE_INITIAL_QUANT q],
                       status := hw.set_initial_quant }
    if hw.set_initial_quant ≠ MMAL_SUCCESS then { c1 with failed := true } else
    let c2 := { c1 with calls := c1.calls ++
                            [EncCall.parameter_set EncParam.VIDEO_ENCODE_MIN_QUANT q],
                        status := hw.set_min_quant }
    if hw.set_min_quant ≠ MMAL_SUCCESS then { c2 with failed := true } else
    let c3 := { c2 with calls := c2.calls ++
                            [EncCall.parameter_set EncParam.VIDEO_ENCODE_MAX_QUANT q],
                        status := hw.set_max_quant }
    if hw.set_max_quant ≠ MMAL_SUCCESS then { c3 with failed := true } else c3
  else c

/-- Lines 997-1000: the macroblock rate
`(ALIGN_UP(width,16) >> 4) * (ALIGN_UP(height,16) >> 4) * framerate`.  The
number of macroblocks per frame is a signed value, `framerate` is a `uint32_t`
(cam.h 204), so the product with the frame rate is formed in `uint32_t`
arithmetic, modulo 2^32. -/
def macroblock_rate (state : CAM_STATE) : Nat :=
  ((VCOS_ALIGN_UP state.width 16 / 16) * (VCOS_ALIGN_UP state.height 16 / 16) *
    state.framerate) % 4294967296

/-- Lines 990-1017: H264 profile and level. -/
def enc_profile (hw : EncoderHw) (c : EncCtx) : EncCtx :=
  if c.failed then c else
  if c.state.encoding = MMAL_ENCODING_H264 then
    if macroblock_rate c.state > 245760 ∧ ¬ (macroblock_rate c.state ≤ 522240) then
      { c with status := MMAL_EINVAL, failed := true }
    else
      let state :=
        if macroblock_rate c.state > 245760 then
          { c.state with level := MMAL_VIDEO_LEVEL_H264_42 }
        else c.state
      let c1 := { c with state := state,
                         calls := c.calls ++ [EncCall.profile_set state.profile state.level],
                         status := hw.set_profile }
      if hw.set_profile ≠ MMAL_SUCCESS then { c1 with failed := true } else c1
  else c

/-- Lines 1019-1071: the best-effort flags and the intra refresh type.  The
statuses of the four boolean flags are only logged. -/
def enc_flags (hw : EncoderHw) (c : EncCtx) : EncCtx :=
  if c.failed then c else
  let c1 := { c with calls := c.calls ++
                         [EncCall.parameter_set EncParam.VIDEO_IMMUTABLE_INPUT c.state.immutableInput] }
  if c1.state.encoding = MMAL_ENCODING_H264 then
    let c2 := { c1 with calls := c1.calls ++
                            [EncCall.parameter_set EncParam.VIDEO_ENCODE_INLINE_HEADER c1.state.bInlineHeaders,
                            EncCall.parameter_set EncParam.VIDEO_ENCODE_SPS_TIMING c1.state.addSPSTiming,
                            EncCall.parameter_set EncParam.VIDEO_ENCODE_INLINE_VECTORS
                            c1.state.inlineMotionVectors] }
    if c2.state.intra_refresh_type ≠ -1 then
      let c3 := { c2 with calls := c2.calls ++
                              [EncCall.intra_refresh_get,
                              EncCall.parameter_set EncParam.VIDEO_INTRA_REFRESH c2.state.intra_refresh_type],
                          status := hw.set_intra_refresh }
      if hw.set_intra_refresh ≠ MMAL_SUCCESS then { c3 with failed := true } else c3
    else c2
  else c1

/-- Lines 1073-1079: enable the component. -/
def enc_enable (hw : EncoderHw) (c : EncCtx) : EncCtx :=
  if c.failed then c else
  let c1 := { c with calls := c.calls ++ [EncCall.component_enable],
                     status := hw.component_enable }
  if hw.component_enable ≠ MMAL_SUCCESS then { c1 with failed := true } else c1

/-- The pool `mmal_port_pool_create` returns: `num` headers, all queued, or null. -/
def new_pool (created : Bool) (num : Nat) : Option MMAL_POOL_T :=
  if created then some { queue := List.range num } else none

/-- Lines 1081-1106: create the pool, publish pool and component, return; or,
after a jump to `error`, destroy the encoder and clear the component pointer. -/
def enc_finish (hw : EncoderHw) (c : EncCtx) : EncCtx :=
  if c.failed then
    { c with state := { c.state with video_encoder_component := false },
             calls := if c.encoder then c.calls ++ [EncCall.component_destroy] else c.calls }
  else
    let num := match c.output with
      | some o => o.buffer_num
      | none => 0
    let size := match c.output with
      | some o => o.buffer_size
      | none => 0
    { c with state := { c.state with video_encoder_pool := new_pool hw.pool_create num,
                                     video_encoder_component := true },
             calls := c.calls ++ [EncCall.port_pool_create num size] }

/-- Source `create_encoder_component` (cam.c 838-1106): the blocks above in
program order.  The result carries the returned `status`, the updated state,
the output port as configured and the calls made. -/
def create_encoder_component (hw : EncoderHw) (state : CAM_STATE) : EncCtx :=
  enc_finish hw (enc_enable hw (enc_flags hw (enc_profile hw (enc_quant hw
    (enc_slices hw (enc_intraperiod hw (enc_format hw (enc_create hw state))))))))

/-- A buffer header as the hardware hands it to a callback: the header `id`, and
the `flags`, `pts`, `length`, `offset` fields and the memory at `data`. -/
structure MMAL_BUFFER_HEADER_T where
  id : Nat
  flags : Nat
  pts : Int
  length : Nat
  offset : Nat
  data : List Nat
  deriving DecidableEq, Repr

/-- An output port: `is_enabled`, whether `userdata` is non-null, and the buffer
headers the port currently holds (the buffers in flight with the hardware). -/
structure MMAL_PORT_T where
  is_enabled : Bool
  userdata : Bool
  held : List Nat
  deriving DecidableEq, Repr

/-- Zoom commands (`ZOOM_COMMAND_T`, cam.h). -/
inductive ZOOM_COMMAND_T where
  | ZOOM_IN
  | ZOOM_OUT
  | ZOOM_RESET
  deriving DecidableEq, Repr

/-- The objects of a session that `CAM_STATE` points to and that the teardown
code hands to MMAL. -/
inductive Handle where
  | video_encoder_output_port
  | video_encoder_connection
  | video_encoder_component
  | video_encoder_pool
  | camera_component
  | camera_video_port
  | preview_component
  | preview_connection
  | still_encoder_component
  | still_encoder_output_port
  | encoder_component
  | encoder_connection
  | encoder_pool
  deriving DecidableEq, Repr

/-- What the code does to the outside, recorded in program order. -/
inductive Event where
  | sleep (ms : Nat)
  | video_cb (pts : Int) (data : List Nat) (length offset : Nat)
  | still_cb (data : Option (List Nat)) (length : Nat)
  | log_unable_to_return_buffer
  | log_no_still_callback
  | set_video_capture (value : Int)
  | request_i_frame
  | set_input_crop (x y width height : Int)
  | exif_disable
  | enable_raw_capture
  | set_shutter_speed (speed : Int)
  | still_port_enable
  | still_port_disable
  | burst_capture
  | set_still_capture
  | semaphore_wait
  | semaphore_post
  | port_disable (port : Handle)
  | connection_destroy (connection : Handle)
  | component_disable (component : Handle)
  | port_pool_destroy (pool : Handle)
  | component_destroy (component : Handle)
  deriving DecidableEq, Repr

/-- One completion of a buffer by the hardware: which of the buffers the port
holds is returned (`pick`, reduced modulo their number), what it was filled
with, and whether the port accepts the buffer the callback sends back. -/
structure Completion where
  pick : Nat
  flags : Nat
  pts : Int
  length : Nat
  offset : Nat
  data : List Nat
  accept : Bool
  deriving DecidableEq, Repr

/-- A rectangle `MMAL_RECT_T` (four `int32_t`). -/
structure MMAL_RECT_T where
  x : Int
  y : Int
  width : Int
  height : Int
  deriving DecidableEq, Repr

/-- The state of the program and of its environment.  The `static` variables of
the functions are kept here: `base_time` (encoder_buffer_callback),
`change_complete_time` (wait_for_next_change), `frame_complete_time` and
`next_frame_ms` (wait_for_next_frame).  `now_us` is the monotonic clock read by
`get_microseconds64`, `semaphore` the count of `complete_semaphore`.

The rest is what the environment will answer: `hw_status` are the statuses of
the coming hardware calls whose status the code acts on, in call order (calls
succeed once the list is used up); `abort_time` is the clock time at which the
callback thread raises `callback_data.abort`, if it does; `stdin` are the
characters `getchar` will return (then EOF); `signals` are the coming results
of `sigwait` as (return value, signal number); `still_fills` are, for each
coming still capture trigger, the buffers the encoder completes; `epoch_s` is
the wall-clock second at clock zero; `crop` is the input crop the camera holds. -/
structure World where
  state : CAM_STATE
  video_port : MMAL_PORT_T
  still_port : MMAL_PORT_T
  base_time : Int
  change_complete_time : Int
  frame_complete_time : Int
  next_frame_ms : Int
  now_us : Nat
  semaphore : Nat
  trace : List Event
  hw_status : List MMAL_STATUS_T
  abort_time : Option Nat
  stdin : List Int
  signals : List (Int × Int)
  still_fills : List (List Completion)
  epoch_s : Int
  crop : MMAL_RECT_T

/-- The world at program start around a given state: statics at -1, ports
disabled and empty, clock at `now_us`, full-frame crop, and an environment in
which every call succeeds, nothing aborts and no input arrives. -/
def World.start (state : CAM_STATE) (now_us : Nat) : World :=
  { state := state,
    video_port := { is_enabled := false, userdata := false, held := [] },
    still_port := { is_enabled := false, userdata := false, held := [] },
    base_time := -1, change_complete_time := -1, frame_complete_time := -1,
    next_frame_ms := -1, now_us := now_us, semaphore := 0, trace := [],
    hw_status := [], abort_time := none, stdin := [], signals := [], still_fills := [],
    epoch_s := 0, crop := { x := 0, y := 0, width := 65536, height := 65536 } }

/-- The expression `get_microseconds64()/1000`. -/
def World.now_ms (w : World) : Int := ((w.now_us / 1000 : Nat) : Int)

/-- The call `vcos_sleep(ms)`: the argument is converted to `uint32_t`, the sleep
lasts exactly that long. -/
def vcos_sleep (w : World) (ms : Int) : World :=
  { w with now_us := w.now_us + uint32_of_int ms * 1000,
           trace := w.trace ++ [Event.sleep (uint32_of_int ms)] }

/-- The call `mmal_buffer_header_release`: the header returns to the queue of
its pool. -/
def pool_release (pool : Option MMAL_POOL_T) (id : Nat) : Option MMAL_POOL_T :=
  pool.map (fun p => { queue := p.queue ++ [id] })

/-- Why a run of the model has no result. -/
inductive Fault where
  | out_of_fuel
  | null_dereference
  | blocked_forever
  deriving DecidableEq, Repr

/-- The tail shared by both callbacks (cam.c 2702-2715 and 2773-2787): if the
port is enabled, take a buffer from the pool queue and send it to the port.
`accept` is whether `mmal_port_send_buffer` returns `MMAL_SUCCESS`; only then
does the port hold the buffer.  Dereferencing a null `pData` or a null pool is a
fault. -/
def resubmit (pool : Option MMAL_POOL_T) (port : MMAL_PORT_T) (accept : Bool)
    (trace : List Event) : Except Fault (Option MMAL_POOL_T × MMAL_PORT_T × List Event) :=
  if port.is_enabled then
    if port.userdata = false then Except.error Fault.null_dereference
    else match pool with
      | none => Except.error Fault.null_dereference
      | some p =>
        match p.queue with
        | [] => Except.ok (pool, port, trace ++ [Event.log_unable_to_return_buffer])
        | new_buffer :: rest =>
          if accept then
            Except.ok (some { queue := rest }, { port with held := port.held ++ [new_buffer] },
              trace)
          else
            Except.ok (some { queue := rest }, port,
              trace ++ [Event.log_unable_to_return_buffer])
  else Except.ok (pool, port, trace)

/-! ## The video callback (`encoder_buffer_callback`, cam.c 2627-2716) -/

/-- Lines 2642-2652: the segment rotation on a codec-header buffer.  Returns the
state and the new `base_time`. -/
def segment_rotation (state : CAM_STATE) (flags : Nat) (current_time base_time : Int) :
    CAM_STATE × Int :=
  if has_flag flags MMAL_BUFFER_HEADER_FLAG_CONFIG = true ∧
      ((state.segmentSize ≠ 0 ∧ current_time > base_time + state.segmentSize) ∨
       (state.splitWait ≠ 0 ∧ state.splitNow ≠ 0)) then
    let segmentNumber := state.segmentNumber + 1
    ({ state with
        splitNow := 0
        segmentNumber :=
          if state.segmentWrap ≠ 0 ∧ segmentNumber > state.segmentWrap then 1
          else segmentNumber },
     current_time)
  else (state, base_time)

/-- Lines 2654-2694: the handling of a buffer with data. -/
def encoder_frame (state : CAM_STATE) (buffer : MMAL_BUFFER_HEADER_T) (trace : List Event) :
    CAM_STATE × List Event :=
  if buffer.length ≠ 0 then
    let bytes_written := int_of_uint32 buffer.length
    let r : CAM_STATE × List Event :=
      if has_flag buffer.flags MMAL_BUFFER_HEADER_FLAG_CODECSIDEINFO = true then
        (state, trace)
      else if (has_flag buffer.flags MMAL_BUFFER_HEADER_FLAG_FRAME_END = true ∨
                buffer.flags = 0 ∨
                has_flag buffer.flags MMAL_BUFFER_HEADER_FLAG_KEYFRAME = true) ∧
              ¬ (has_flag buffer.flags MMAL_BUFFER_HEADER_FLAG_CONFIG = true) then
        if buffer.pts ≠ MMAL_TIME_UNKNOWN ∧ buffer.pts ≠ state.lasttime then
          let starttime := if state.frame = 0 then buffer.pts else state.starttime
          let pts := buffer.pts - starttime
          ({ state with starttime := starttime, lasttime := buffer.pts,
                        frame := state.frame + 1 },
           trace ++ [Event.video_cb pts buffer.data buffer.length buffer.offset])
        else (state, trace)
      else (state, trace)
    if uint32_of_int bytes_written ≠ buffer.length % 4294967296 then
      ({ r.1 with abort := 1 }, r.2)
    else r
  else (state, trace)

/-- Source `encoder_buffer_callback`.  `accept` is the answer of the port to the
resubmitted buffer. -/
def encoder_buffer_callback (w : World) (buffer : MMAL_BUFFER_HEADER_T) (accept : Bool) :
    Except Fault World :=
  let base_time := if w.base_time = -1 then w.now_ms else w.base_time
  let w1 : World :=
    if w.video_port.userdata then
      let current_time := w.now_ms
      let rot := segment_rotation w.state buffer.flags current_time base_time
      let fr := encoder_frame rot.1 buffer w.trace
      { w with state := fr.1, base_time := rot.2, trace := fr.2 }
    else { w with base_time := base_time }
  let pool := pool_release w1.state.video_encoder_pool buffer.id
  match resubmit pool w1.video_port accept w1.trace with
  | Except.error e => Except.error e
  | Except.ok (pool2, port2, trace2) =>
    Except.ok { w1 with state := { w1.state with video_encoder_pool := pool2 },
                        video_port := port2, trace := trace2 }

/-- The guard of the segment rotation (cam.c 2642-2644) as the callback
evaluates it on entry: the buffer carries the config flag, and either the
segment interval has elapsed or a split was requested. -/
def rotation_due (w : World) (buffer : MMAL_BUFFER_HEADER_T) : Prop :=
  has_flag buffer.flags MMAL_BUFFER_HEADER_FLAG_CONFIG = true ∧
  ((w.state.segmentSize ≠ 0 ∧
      w.now_ms > (if w.base_time = -1 then w.now_ms else w.base_time) + w.state.segmentSize) ∨
   (w.state.splitWait ≠ 0 ∧ w.state.splitNow ≠ 0))

/-! ## The still callback (`still_encoder_buffer_callback`, cam.c 2725-2804) -/

/-- Lines 2730-2763: accumulate the payload and decide whether the capture is
complete. -/
def still_accumulate (state : CAM_STATE) (buffer : MMAL_BUFFER_HEADER_T) : CAM_STATE × Bool :=
  let bytes_written := int_of_uint32 buffer.length
  let payload := buffer.data.take buffer.length
  let state1 :=
    if buffer.length ≠ 0 then
      match state.work_image_data with
      | none => { state with work_image_data := some payload,
                             work_image_data_length := buffer.length }
      | some acc => { state with work_image_data := some (acc ++ payload),
                                 work_image_data_length :=
                                   buffer.length + state.work_image_data_length }
    else state
  let complete1 := decide (uint32_of_int bytes_written ≠ buffer.length % 4294967296)
  let complete2 :=
    has_flag buffer.flags
      (MMAL_BUFFER_HEADER_FLAG_FRAME_END ||| MMAL_BUFFER_HEADER_FLAG_TRANSMISSION_FAILED)
  (state1, complete1 || complete2)

/-- Lines 2789-2803: deliver the completed image and signal the semaphore. -/
def still_complete (w : World) : World :=
  if w.state.has_still_cb then
    { w with
      state := { w.state with
        image_data := some (match w.state.work_image_data with
          | some d => d.take w.state.work_image_data_length
          | none => [])
        image_data_length := w.state.work_image_data_length
        work_image_data := none
        work_image_data_length := 0 }
      trace := w.trace ++
        [Event.still_cb w.state.work_image_data w.state.work_image_data_length,
         Event.semaphore_post]
      semaphore := w.semaphore + 1 }
  else
    { w with trace := w.trace ++ [Event.log_no_still_callback, Event.semaphore_post]
             semaphore := w.semaphore + 1 }

/-- Source `still_encoder_buffer_callback`. -/
def still_encoder_buffer_callback (w : World) (buffer : MMAL_BUFFER_HEADER_T) (accept : Bool) :
    Except Fault World :=
  let acc : CAM_STATE × Bool :=
    if w.still_port.userdata then still_accumulate w.state buffer else (w.state, false)
  let pool := pool_release acc.1.encoder_pool buffer.id
  match resubmit pool w.still_port accept w.trace with
  | Except.error e => Except.error e
  | Except.ok (pool2, port2, trace2) =>
    let w1 := { w with state := { acc.1 with encoder_pool := pool2 },
                       still_port := port2, trace := trace2 }
    Except.ok (if acc.2 then still_complete w1 else w1)

/-! ## Environment: the hardware completing buffers -/

/-- The buffer a completion returns, if the port holds any. -/
def Completion.buffer (c : Completion) (held : List Nat) : Option MMAL_BUFFER_HEADER_T :=
  match held.get? (c.pick % held.length) with
  | none => none
  | some id => some { id := id, flags := c.flags, pts := c.pts, length := c.length,
                      offset := c.offset, data := c.data }

/-- The encoder output port completes a buffer: the port gives the header up and
`encoder_buffer_callback` runs.  With no buffer in flight nothing happens. -/
def video_completion (w : World) (c : Completion) : Except Fault World :=
  match c.buffer w.video_port.held with
  | none => Except.ok w
  | some b =>
    encoder_buffer_callback
      { w with video_port := { w.video_port with held := w.video_port.held.erase b.id } }
      b c.accept

/-- The still encoder output port completes a buffer and
`still_encoder_buffer_callback` runs. -/
def still_completion (w : World) (c : Completion) : Except Fault World :=
  match c.buffer w.still_port.held with
  | none => Except.ok w
  | some b =>
    still_encoder_buffer_callback
      { w with still_port := { w.still_port with held := w.still_port.held.erase b.id } }
      b c.accept

/-- A sequence of completions on the video port. -/
def video_completions : World → List Completion → Except Fault World
  | w, [] => Except.ok w
  | w, c :: rest =>
    match video_completion w c with
    | Except.error e => Except.error e
    | Except.ok w1 => video_completions w1 rest

/-- A sequence of completions on the still port. -/
def still_completions : World → List Completion → Except Fault World
  | w, [] => Except.ok w
  | w, c :: rest =>
    match still_completion w c with
    | Except.error e => Except.error e
    | Except.ok w1 => still_completions w1 rest

/-- The length of a pool queue (`mmal_queue_length`), 0 for a null pool. -/
def pool_length (pool : Option MMAL_POOL_T) : Nat :=
  match pool with
  | none => 0
  | some p => p.queue.length

/-- How often the error "Unable to return a buffer to the encoder port" was
logged. -/
def unable_count (trace : List Event) : Nat :=
  trace.count Event.log_unable_to_return_buffer

/-- A video pipe pre-filled with `N` buffers: the pool exists and is drained, the
enabled port holds the `N` headers, and its userdata is set. -/
def video_prefilled (w : World) (N : Nat) : Prop :=
  w.video_port.is_enabled = true ∧ w.video_port.userdata = true ∧
  w.video_port.held.length = N ∧ w.state.video_encoder_pool = some { queue := [] } ∧
  unable_count w.trace = 0

/-- A still pipe pre-filled with `N` buffers. -/
def still_prefilled (w : World) (N : Nat) : Prop :=
  w.still_port.is_enabled = true ∧ w.still_port.userdata = true ∧
  w.still_port.held.length = N ∧ w.state.encoder_pool = some { queue := [] } ∧
  unable_count w.trace = 0

/-! ## Environment: statuses, abort flag, keyboard, signals -/

/-- The status of the next hardware call whose status the code acts on. -/
def World.pop_status (w : World) : MMAL_STATUS_T × World :=
  match w.hw_status with
  | [] => (MMAL_SUCCESS, w)
  | st :: rest => (st, { w with hw_status := rest })

/-- The value of `state->callback_data.abort` as the control thread reads it:
set in the state, or raised by the callback thread by now. -/
def World.abort_seen (w : World) : Bool :=
  decide (w.state.abort ≠ 0) ||
    (match w.abort_time with
     | none => false
     | some t => decide (t ≤ w.now_us))

/-- The call `getchar()`: the next character of the input, or EOF (-1). -/
def World.getchar (w : World) : Int × World :=
  match w.stdin with
  | [] => (-1, w)
  | ch :: rest => (ch, { w with stdin := rest })

/-- Signal numbers (signal.h, Linux). -/
def SIGUSR1 : Int := 10
def SIGUSR2 : Int := 12

/-! ## Video capture timing (cam.c 1929-2174) -/

/-- The loop of `pause_and_test_abort` (cam.c 1945-1949) from the counter value
`wait` on. -/
def pause_loop : Nat → Int → Int → World → Int × World
  | 0, _, _, w => (0, w)
  | fuel + 1, pause, wait, w =>
    if wait < pause then
      let w1 := vcos_sleep w ABORT_INTERVAL
      if w1.abort_seen then (1, w1)
      else pause_loop fuel pause (wait + ABORT_INTERVAL) w1
    else (0, w)

/-- Source `pause_and_test_abort` (cam.c 1938-1952).  The counter grows by 100
per round, so `pause` rounds of fuel always suffice. -/
def pause_and_test_abort (w : World) (pause : Int) : Int × World :=
  if pause = 0 then (0, w) else pause_loop (pause.toNat + 1) pause 0 w

def zoom_full_16P16 : Nat := 9830
def zoom_increment_16P16 : Nat := 6553

/-- Source `zoom_in_zoom_out` (cam.c 1960-2012) on the 32-bit ABI of the MMAL
userland (`unsigned long` is 32 bits wide).  Returns `ret`. -/
def zoom_in_zoom_out (w : World) (zoom_command : ZOOM_COMMAND_T) : Except Fault (Int × World) :=
  if w.state.camera_component = false then Except.error Fault.null_dereference else
  let g := w.pop_status
  if g.1 ≠ MMAL_SUCCESS then Except.ok (0, g.2) else
  let crop := g.2.crop
  let crop1 : MMAL_RECT_T :=
    match zoom_command with
    | ZOOM_COMMAND_T.ZOOM_IN =>
      if uint32_of_int crop.width ≤ zoom_full_16P16 + zoom_increment_16P16 then
        { crop with width := zoom_full_16P16, height := zoom_full_16P16 }
      else
        { crop with
          width := int_of_uint32 (uint32_of_int (crop.width - zoom_increment_16P16))
          height := int_of_uint32 (uint32_of_int (crop.height - zoom_increment_16P16)) }
    | ZOOM_COMMAND_T.ZOOM_OUT =>
      let increased_size := (uint32_of_int crop.width + zoom_increment_16P16) % 4294967296
      if increased_size < uint32_of_int crop.width then
        { crop with width := 65536, height := 65536 }
      else
        { crop with width := int_of_uint32 increased_size,
                    height := int_of_uint32 increased_size }
    | ZOOM_COMMAND_T.ZOOM_RESET => crop
  let crop2 : MMAL_RECT_T :=
    if zoom_command = ZOOM_COMMAND_T.ZOOM_RESET then
      { x := 0, y := 0, width := 65536, height := 65536 }
    else
      let centered_top_coordinate := uint32_of_int (Int.tdiv (65536 - crop1.width) 2)
      { crop1 with x := int_of_uint32 centered_top_coordinate,
                   y := int_of_uint32 centered_top_coordinate }
  let w1 := { g.2 with trace := g.2.trace ++
                [Event.set_input_crop crop2.x crop2.y crop2.width crop2.height] }
  let st := w1.pop_status
  if st.1 = MMAL_SUCCESS then
    Except.ok (0, { st.2 with
      crop := crop2
      state := { st.2.state with
        roi_x := (crop2.x : ℚ) / 65536
        roi_y := (crop2.x : ℚ) / 65536
        roi_w := (crop2.width : ℚ) / 65536
        roi_h := (crop2.width : ℚ) / 65536 } })
  else Except.ok (1, st.2)

/-- The loop of the case `WAIT_METHOD_FOREVER` (cam.c 2040-2047). -/
def forever_loop : Nat → World → Except Fault World
  | 0, _ => Except.error Fault.out_of_fuel
  | fuel + 1, w =>
    if w.abort_seen then Except.ok w else forever_loop fuel (vcos_sleep w ABORT_INTERVAL)

/-- Source `wait_for_next_change` (cam.c 2021-2122).  Returns `keep_running`. -/
def wait_for_next_change (fuel : Nat) (w0 : World) : Except Fault (Int × World) :=
  let current_time := w0.now_ms
  let complete_time :=
    if w0.change_complete_time = -1 then current_time + w0.state.timeout
    else w0.change_complete_time
  let w := { w0 with change_complete_time := complete_time }
  let keep_running : Int :=
    if current_time ≥ complete_time ∧ w.state.timeout ≠ 0 then 0 else 1
  if w.state.waitMethod = WAIT_METHOD_NONE then
    Except.ok (0, (pause_and_test_abort w w.state.timeout).2)
  else if w.state.waitMethod = WAIT_METHOD_FOREVER then
    match forever_loop fuel w with
    | Except.error e => Except.error e
    | Except.ok w1 => Except.ok (0, w1)
  else if w.state.waitMethod = WAIT_METHOD_TIMED then
    let r :=
      if w.state.bCapturing ≠ 0 then pause_and_test_abort w w.state.onTime
      else pause_and_test_abort w w.state.offTime
    if r.1 ≠ 0 then Except.ok (0, r.2) else Except.ok (keep_running, r.2)
  else if w.state.waitMethod = WAIT_METHOD_KEYPRESS then
    let g := w.getchar
    -- `char ch = getchar()`
    let ch := if g.1 = -1 then 255 else g.1
    if ch = 120 ∨ ch = 88 then Except.ok (0, g.2)
    else if ch = 105 ∨ ch = 73 then
      match zoom_in_zoom_out g.2 ZOOM_COMMAND_T.ZOOM_IN with
      | Except.error e => Except.error e
      | Except.ok z => Except.ok (keep_running, z.2)
    else if ch = 111 ∨ ch = 79 then
      match zoom_in_zoom_out g.2 ZOOM_COMMAND_T.ZOOM_OUT with
      | Except.error e => Except.error e
      | Except.ok z => Except.ok (keep_running, z.2)
    else if ch = 114 ∨ ch = 82 then
      match zoom_in_zoom_out g.2 ZOOM_COMMAND_T.ZOOM_RESET with
      | Except.error e => Except.error e
      | Except.ok z => Except.ok (keep_running, z.2)
    else Except.ok (keep_running, g.2)
  else if w.state.waitMethod = WAIT_METHOD_SIGNAL then
    match w.signals with
    | [] => Except.error Fault.blocked_forever
    | _ :: rest => Except.ok (keep_running, { w with signals := rest })
  else Except.ok (keep_running, w)

/-- Lines 2129-2143 of `capture`: send `num` buffers of the pool to the encoder
output port.  Returns `some MMAL_ENOSPC` when the function returns early. -/
def capture_send_all : Nat → World → Option MMAL_STATUS_T × World
  | 0, w => (none, w)
  | num + 1, w =>
    match w.state.video_encoder_pool with
    | none => (some MMAL_ENOSPC, w)
    | some p =>
      match p.queue with
      | [] => (some MMAL_ENOSPC, w)
      | buffer :: rest =>
        let w1 := { w with state := { w.state with video_encoder_pool := some { queue := rest } } }
        let st := w1.pop_status
        if st.1 ≠ MMAL_SUCCESS then (some MMAL_ENOSPC, st.2)
        else
          capture_send_all num
            { st.2 with video_port := { st.2.video_port with
                                        held := st.2.video_port.held ++ [buffer] } }

/-- Lines 2147-2170 of `capture`: the body of the loop up to the wait: toggle the
capture state, tell the camera, and handle `splitWait`.  The assignment
`status = call != MMAL_SUCCESS` makes the status returned on failure the
integer 1 (`MMAL_ENOMEM`).  Yields the early return value (if any), the world
and the new value of `initialCapturing`. -/
def capture_toggle (w : World) (initialCapturing : Int) :
    Option MMAL_STATUS_T × World × Int :=
  let bCapturing := lnot w.state.bCapturing
  let w1 := { w with state := { w.state with bCapturing := bCapturing },
                     trace := w.trace ++ [Event.set_video_capture bCapturing] }
  let st := w1.pop_status
  if st.1 ≠ MMAL_SUCCESS then (some MMAL_ENOMEM, st.2, initialCapturing) else
  let w2 := st.2
  if w2.state.splitWait ≠ 0 then
    if w2.state.bCapturing ≠ 0 then
      let st2 := World.pop_status { w2 with trace := w2.trace ++ [Event.request_i_frame] }
      if st2.1 ≠ MMAL_SUCCESS then (some MMAL_ENOMEM, st2.2, initialCapturing)
      else (none, st2.2, 0)
    else
      (none,
       (if initialCapturing = 0 then
          { w2 with state := { w2.state with splitNow := 1 } }
        else w2),
       0)
  else (none, w2, initialCapturing)

/-- Lines 2145-2173 of `capture`: the loop.  Leaving the loop the function ends
without a `return` (`none`). -/
def capture_loop : Nat → World → Int → Except Fault (Option MMAL_STATUS_T × World)
  | 0, _, _ => Except.error Fault.out_of_fuel
  | fuel + 1, w, initialCapturing =>
    let r := capture_toggle w initialCapturing
    match r.1 with
    | some e => Except.ok (some e, r.2.1)
    | none =>
      match wait_for_next_change fuel r.2.1 with
      | Except.error e => Except.error e
      | Except.ok x =>
        if x.1 ≠ 0 then capture_loop fuel x.2 r.2.2 else Except.ok (none, x.2)

/-- Source `capture` (cam.c 2128-2174). -/
def capture (fuel : Nat) (w : World) : Except Fault (Option MMAL_STATUS_T × World) :=
  match w.state.video_encoder_pool with
  | none => Except.error Fault.null_dereference
  | some p =>
    let d := capture_send_all p.queue.length w
    match d.1 with
    | some e => Except.ok (some e, d.2)
    | none => capture_loop fuel d.2 d.2.state.bCapturing

/-- The capture-state changes of a trace with the milliseconds slept before
each, counted from `t`. -/
def capture_timeline : Nat → List Event → List (Nat × Int)
  | _, [] => []
  | t, Event.sleep ms :: rest => capture_timeline (t + ms) rest
  | t, Event.set_video_capture v :: rest => (t, v) :: capture_timeline t rest
  | t, _ :: rest => capture_timeline t rest

/-- The world after `n` consecutive calls `vcos_sleep(ABORT_INTERVAL)`. -/
def sleeps (w : World) (n : Nat) : World :=
  { w with now_us := w.now_us + n * 100000,
           trace := w.trace ++ List.replicate n (Event.sleep 100) }

/-- The milliseconds slept in a trace. -/
def slept : List Event → Nat
  | [] => 0
  | Event.sleep ms :: rest => ms + slept rest
  | _ :: rest => slept rest

/-- The session of the timed end-to-end run: `waitMethod = Timed`, on and off
times of 500 ms, a timeout of 1500 ms, no abort, every hardware call succeeds. -/
def timed_session (w : World) : Prop :=
  w.state.waitMethod = WAIT_METHOD_TIMED ∧ w.state.onTime = 500 ∧ w.state.offTime = 500 ∧
  w.state.timeout = 1500 ∧ w.state.abort = 0 ∧ w.abort_time = none ∧ w.hw_status = []

/-! ## Still-frame pacing (`wait_for_next_frame`, cam.c 2183-2354) -/

/-- Line 2241: `int nskip = 1 + (-this_delay_ms)/state->timelapse`. -/
def timelapse_nskip (this_delay_ms timelapse : Int) : Int :=
  1 + Int.tdiv (-this_delay_ms) timelapse

/-- The case `FRAME_NEXT_TIMELAPSE` (cam.c 2213-2264), after the unconditional
`*frame += 1`: the new frame index and the world.  `current_time` is the time
read on entry of `wait_for_next_frame`. -/
def timelapse_wait (w : World) (frame : Int) (current_time : Int) : Int × World :=
  if w.next_frame_ms = -1 then
    let w1 := vcos_sleep w CAMERA_SETTLE_TIME
    (frame, { w1 with next_frame_ms := w1.now_ms + w1.state.timelapse })
  else
    let this_delay_ms := w.next_frame_ms - current_time
    if this_delay_ms < 0 then
      if -this_delay_ms < Int.tdiv w.state.timelapse 2 then
        (frame, { w with next_frame_ms := w.next_frame_ms + w.state.timelapse })
      else
        let nskip := timelapse_nskip this_delay_ms w.state.timelapse
        let w1 := vcos_sleep w (this_delay_ms + nskip * w.state.timelapse)
        (frame + nskip,
         { w1 with next_frame_ms := w1.next_frame_ms + (nskip + 1) * w1.state.timelapse })
    else
      let w1 := vcos_sleep w this_delay_ms
      (frame, { w1 with next_frame_ms := w1.next_frame_ms + w1.state.timelapse })

/-- Source `wait_for_next_frame`.  Returns `keep_running` and the new value of
`*frame`. -/
def wait_for_next_frame (w0 : World) (frame : Int) : Except Fault (Int × Int × World) :=
  let current_time := w0.now_ms
  let complete_time :=
    if w0.frame_complete_time = -1 then current_time + w0.state.timeout
    else w0.frame_complete_time
  let w := { w0 with frame_complete_time := complete_time }
  let keep_running : Int :=
    if current_time ≥ complete_time ∧ w.state.timeout ≠ 0 then 0 else 1
  if w.state.frameNextMethod = FRAME_NEXT_SINGLE then
    Except.ok (0, frame, vcos_sleep w w.state.timeout)
  else if w.state.frameNextMethod = FRAME_NEXT_FOREVER then
    Except.ok (1, frame + 1, vcos_sleep w 1000)
  else if w.state.frameNextMethod = FRAME_NEXT_TIMELAPSE then
    let r := timelapse_wait w (frame + 1) current_time
    Except.ok (keep_running, r.1, r.2)
  else if w.state.frameNextMethod = FRAME_NEXT_KEYPRESS then
    let g := w.getchar
    if g.1 = 120 ∨ g.1 = 88 then Except.ok (0, frame + 1, g.2)
    else Except.ok (keep_running, frame + 1, g.2)
  else if w.state.frameNextMethod = FRAME_NEXT_IMMEDIATELY then
    let w1 := if frame = 0 then vcos_sleep w CAMERA_SETTLE_TIME else vcos_sleep w 30
    Except.ok (keep_running, frame + 1, w1)
  else if w.state.frameNextMethod = FRAME_NEXT_GPIO then
    Except.ok (0, frame, w)
  else if w.state.frameNextMethod = FRAME_NEXT_SIGNAL then
    match w.signals with
    | [] => Except.error Fault.blocked_forever
    | sg :: rest =>
      let keep : Int :=
        if sg.1 = 0 then
          (if sg.2 = SIGUSR1 then keep_running
           else if sg.2 = SIGUSR2 then 0 else keep_running)
        else keep_running
      Except.ok (keep, frame + 1, { w with signals := rest })
  else Except.ok (keep_running, frame, w)

/-! ## The still capture loop (`capture_still`, cam.c 2362-2472) -/

/-- Lines 2422-2435: send `num` buffers of the still encoder pool to the port.
A failed `mmal_port_send_buffer` is only logged; the port holds a buffer only
if it is enabled and accepts it. -/
def still_send_all : Nat → World → World
  | 0, w => w
  | num + 1, w =>
    match w.state.encoder_pool with
    | none => w
    | some p =>
      match p.queue with
      | [] => still_send_all num (World.pop_status w).2
      | buffer :: rest =>
        let w1 := { w with state := { w.state with encoder_pool := some { queue := rest } } }
        let st := w1.pop_status
        if st.1 = MMAL_SUCCESS ∧ st.2.still_port.is_enabled = true then
          still_send_all num
            { st.2 with still_port := { st.2.still_port with
                                        held := st.2.still_port.held ++ [buffer] } }
        else still_send_all num st.2

/-- Environment: `mmal_port_disable` hands every buffer the port still holds back
through the callback, empty, the port being disabled by then. -/
def still_flush : Nat → World → Except Fault World
  | 0, w => Except.ok w
  | n + 1, w =>
    match w.still_port.held with
    | [] => Except.ok w
    | id :: rest =>
      match still_encoder_buffer_callback
          { w with still_port := { w.still_port with held := rest } }
          { id := id, flags := 0, pts := 0, length := 0, offset := 0, data := [] } false with
      | Except.error e => Except.error e
      | Except.ok w1 => still_flush n w1

/-- Lines 2388-2441 of `capture_still`: EXIF off, RAW on request, shutter speed,
enable the encoder output port (its userdata is the callback data), send the
pool to the port, burst mode on request. -/
def still_setup (w : World) : Except Fault World :=
  if w.state.still_encoder_component = false then Except.error Fault.null_dereference else
  let w1 := { w with trace := w.trace ++ [Event.exif_disable] }
  let w2 := if w1.state.wantRAW ≠ 0 then
              { w1 with trace := w1.trace ++ [Event.enable_raw_capture] }
            else w1
  if w2.state.camera_component = false then Except.error Fault.null_dereference else
  let w3 := { w2 with trace := w2.trace ++ [Event.set_shutter_speed w2.state.shutter_speed] }
  let en := w3.pop_status
  let w4 := { en.2 with
    still_port := { en.2.still_port with userdata := true,
                                         is_enabled := decide (en.1 = MMAL_SUCCESS) }
    trace := en.2.trace ++ [Event.still_port_enable] }
  match w4.state.encoder_pool with
  | none => Except.error Fault.null_dereference
  | some p =>
    let w5 := still_send_all p.queue.length w4
    Except.ok (if w5.state.burstCaptureMode ≠ 0 then
                 { w5 with trace := w5.trace ++ [Event.burst_capture] }
               else w5)

/-- Lines 2446-2460 of `capture_still`: trigger the capture and, if the trigger
was accepted, wait on the completion semaphore.  Environment: while the control
thread waits the encoder completes the buffers of this capture; a semaphore
that is never posted blocks forever. -/
def still_trigger (w : World) : Except Fault World :=
  let w7 := { w with trace := w.trace ++ [Event.set_still_capture] }
  let tr := w7.pop_status
  if tr.1 ≠ MMAL_SUCCESS then Except.ok tr.2
  else
    let w8 := { tr.2 with trace := tr.2.trace ++ [Event.semaphore_wait],
                          still_fills := tr.2.still_fills.tail }
    match still_completions w8 (tr.2.still_fills.head?.getD []) with
    | Except.error e => Except.error e
    | Except.ok w9 =>
      if w9.semaphore = 0 then Except.error Fault.blocked_forever
      else Except.ok { w9 with semaphore := w9.semaphore - 1 }

/-- Line 2463 of `capture_still`: disable the encoder output port. -/
def still_disable (w : World) : Except Fault World :=
  still_flush w.still_port.held.length
    { w with still_port := { w.still_port with is_enabled := false },
             trace := w.trace ++ [Event.still_port_disable] }

/-- Lines 2388-2467: one pass of the capture block of `capture_still` (everything
after `wait_for_next_frame`). -/
def capture_still_once (w : World) : Except Fault World :=
  match still_setup w with
  | Except.error e => Except.error e
  | Except.ok w6 =>
    match still_trigger w6 with
    | Except.error e => Except.error e
    | Except.ok w10 => still_disable w10

/-- The loop of `capture_still` (cam.c 2378-2468). -/
def capture_still_loop : Nat → World → Int → Except Fault World
  | 0, _, _ => Except.error Fault.out_of_fuel
  | fuel + 1, w, frame =>
    match wait_for_next_frame w frame with
    | Except.error e => Except.error e
    | Except.ok r =>
      let frame1 : Int :=
        if r.2.2.state.timestamp ≠ 0 then r.2.2.epoch_s + ((r.2.2.now_us / 1000000 : Nat) : Int)
        else r.2.1
      match capture_still_once r.2.2 with
      | Except.error e => Except.error e
      | Except.ok w1 =>
        if r.1 ≠ 0 then capture_still_loop fuel w1 frame1 else Except.ok w1

/-- Source `capture_still`.  `still_cb` is whether a consumer callback is given,
`frame` the (uninitialised) initial value of the local `frame`.  The semaphore
is created with count 0. -/
def capture_still (fuel : Nat) (w : World) (still_cb : Bool) (frame : Int) :
    Except Fault World :=
  capture_still_loop fuel
    { w with state := { w.state with has_still_cb := still_cb }, semaphore := 0 } frame

/-- How often the capture was triggered, the semaphore waited on, and the still
consumer callback invoked, in a trace. -/
def trigger_count (trace : List Event) : Nat := trace.count Event.set_still_capture

def semaphore_wait_count (trace : List Event) : Nat := trace.count Event.semaphore_wait

def still_cb_count : List Event → Nat
  | [] => 0
  | Event.still_cb _ _ :: rest => still_cb_count rest + 1
  | _ :: rest => still_cb_count rest

/-! ## The camera component (cam.c 699-836 and 1116-1335) -/

def MMAL_ENCODING_OPAQUE : Nat := MMAL_FOURCC 'O' 'P' 'Q' 'V'
def MMAL_ENCODING_I420 : Nat := MMAL_FOURCC 'I' '4' '2' '0'

def MMAL_CAMERA_PREVIEW_PORT : Nat := 0
def MMAL_CAMERA_VIDEO_PORT : Nat := 1
def MMAL_CAMERA_CAPTURE_PORT : Nat := 2
def VIDEO_OUTPUT_BUFFERS_NUM : Nat := 3

/-- The C value of a status code (`MMAL_STATUS_T` is an enum counting from 0). -/
def MMAL_STATUS_T.code : MMAL_STATUS_T → Nat
  | MMAL_SUCCESS => 0
  | MMAL_ENOMEM => 1
  | MMAL_ENOSPC => 2
  | MMAL_EINVAL => 3
  | MMAL_ENOSYS => 4
  | MMAL_ENOENT => 5
  | MMAL_ENXIO => 6
  | MMAL_EIO => 7
  | MMAL_ESPIPE => 8
  | MMAL_ECORRUPT => 9
  | MMAL_ENOTREADY => 10
  | MMAL_ECONFIG => 11
  | MMAL_EISCONN => 12
  | MMAL_ENOTCONN => 13
  | MMAL_EAGAIN => 14
  | MMAL_EFAULT => 15

/-- The fields of a port format (`MMAL_ES_FORMAT_T` and its `es->video`) that
the camera set-up writes. -/
structure MMAL_ES_FORMAT_T where
  encoding : Nat
  encoding_variant : Nat
  width : Nat
  height : Nat
  crop : MMAL_RECT_T
  frame_rate_num : Int
  frame_rate_den : Int
  deriving DecidableEq, Repr

/-- Calls the camera set-up makes on the camera component, in program order.
Output ports are named by their index.  The camera number and the sensor mode
are passed through unchanged and not recorded. -/
inductive CameraCall where
  | component_create
  | set_stereo_mode (port : Nat)
  | set_camera_num
  | set_sensor_mode
  | control_port_enable
  | set_camera_config (max_stills_w max_stills_h : Nat) (one_shot_stills : Int)
      (max_preview_video_w max_preview_video_h : Nat)
  | set_all_parameters
  | set_fps_range (port : Nat) (low_num high_num : Int)
  | format_commit (port : Nat) (format : MMAL_ES_FORMAT_T)
  | component_enable
  | component_destroy
  deriving DecidableEq, Repr

/-- What the camera hardware answers: the statuses of the calls whose status the
code acts on, and the format and buffer count each output port has when the
component is created.  The component is taken to have its three output ports
whenever `output_num` is not 0. -/
structure CameraHw where
  component_create : MMAL_STATUS_T
  stereo_mode : Nat → MMAL_STATUS_T
  camera_num : MMAL_STATUS_T
  output_num : Nat
  sensor_mode : MMAL_STATUS_T
  control_enable : MMAL_STATUS_T
  format : Nat → MMAL_ES_FORMAT_T
  buffer_num : Nat → Nat
  format_commit : Nat → MMAL_STATUS_T
  component_enable : MMAL_STATUS_T

/-- The outcome of a camera set-up: the state it leaves, the calls made, the
buffer count of each output port and the returned status as a C value (the
stereo-mode statuses are added up, so it need not be an enumerator). -/
structure CameraCtx where
  state : CAM_STATE
  calls : List CameraCall
  buffer_num : Nat → Nat
  status : Nat

/-- The label `error` of both camera set-up functions, reached with a non-null
`camera`: destroy the component and return `status`. -/
def camera_error (state : CAM_STATE) (calls : List CameraCall)
    (buffer_num : Nat → Nat) (status : Nat) : CameraCtx :=
  { state := state, calls := calls ++ [CameraCall.component_destroy],
    buffer_num := buffer_num, status := status }

/-- Lines 786-797 and 1292-1300: the frame geometry written to a port format.
The fields `video.width` and `video.height` are `uint32_t`, so the aligned
values are stored modulo 2^32; the crop fields are `int32_t`. -/
def frame_geometry (format : MMAL_ES_FORMAT_T) (width height : Nat) : MMAL_ES_FORMAT_T :=
  { format with
    width := VCOS_ALIGN_UP width 32 % 4294967296
    height := VCOS_ALIGN_UP height 16 % 4294967296
    crop := { x := 0, y := 0, width := int_of_uint32 width, height := int_of_uint32 height } }

/-- The assignment `if (port->buffer_num < VIDEO_OUTPUT_BUFFERS_NUM) ...`. -/
def raise_buffer_num (buffer_num : Nat → Nat) (port : Nat) : Nat → Nat :=
  fun i => if i = port ∧ buffer_num port < VIDEO_OUTPUT_BUFFERS_NUM then VIDEO_OUTPUT_BUFFERS_NUM
           else buffer_num i

/-- Lines 705-752, shared word for word by both set-up functions (1120-1178):
create the component, set the stereo mode of the three output ports, select the
camera, check for output ports, set the sensor mode, enable the control port.
Returns the calls made and `none` on success, or the outcome after the jump to
`error`. -/
def camera_open (hw : CameraHw) (state : CAM_STATE) : List CameraCall × Option CameraCtx :=
  let calls0 := [CameraCall.component_create]
  if hw.component_create ≠ MMAL_SUCCESS then
    (calls0, some { state := state, calls := calls0, buffer_num := hw.buffer_num,
                    status := hw.component_create.code })
  else
  let calls1 := calls0 ++ [CameraCall.set_stereo_mode 0, CameraCall.set_stereo_mode 1,
                           CameraCall.set_stereo_mode 2]
  let status := (hw.stereo_mode 0).code + (hw.stereo_mode 1).code + (hw.stereo_mode 2).code
  if status ≠ 0 then (calls1, some (camera_error state calls1 hw.buffer_num status)) else
  let calls2 := calls1 ++ [CameraCall.set_camera_num]
  if hw.camera_num ≠ MMAL_SUCCESS then
    (calls2, some (camera_error state calls2 hw.buffer_num hw.camera_num.code)) else
  if hw.output_num = 0 then
    (calls2, some (camera_error state calls2 hw.buffer_num MMAL_ENOSYS.code)) else
  let calls3 := calls2 ++ [CameraCall.set_sensor_mode]
  if hw.sensor_mode ≠ MMAL_SUCCESS then
    (calls3, some (camera_error state calls3 hw.buffer_num hw.sensor_mode.code)) else
  let calls4 := calls3 ++ [CameraCall.control_port_enable]
  if hw.control_enable ≠ MMAL_SUCCESS then
    (calls4, some (camera_error state calls4 hw.buffer_num hw.control_enable.code)) else
  (calls4, none)

/-- Lines 781-829 of `create_camera_component`: the format of the capture port,
its buffer count, enabling the component, and the remaining parameters.
`calls` are the calls made so far. -/
def camera_commit (hw : CameraHw) (state : CAM_STATE) (calls : List CameraCall) : CameraCtx :=
  let format : MMAL_ES_FORMAT_T :=
    { frame_geometry (hw.format MMAL_CAMERA_CAPTURE_PORT) state.width state.height with
      encoding := MMAL_ENCODING_OPAQUE
      encoding_variant := MMAL_ENCODING_I420
      frame_rate_num := 0
      frame_rate_den := 1 }
  let calls6 := calls ++ [CameraCall.format_commit MMAL_CAMERA_CAPTURE_PORT format]
  if hw.format_commit MMAL_CAMERA_CAPTURE_PORT ≠ MMAL_SUCCESS then
    camera_error state calls6 hw.buffer_num (hw.format_commit MMAL_CAMERA_CAPTURE_PORT).code
  else
  let buffer_num := raise_buffer_num hw.buffer_num MMAL_CAMERA_CAPTURE_PORT
  let calls7 := calls6 ++ [CameraCall.component_enable]
  if hw.component_enable ≠ MMAL_SUCCESS then
    camera_error state calls7 buffer_num hw.component_enable.code
  else
  { state := { state with camera_component := true },
    calls := calls7 ++ [CameraCall.set_all_parameters],
    buffer_num := buffer_num, status := hw.component_enable.code }

/-- Source `create_camera_component` (cam.c 699-836).  The comparison of the
frame rate with `1000000. / shutter_speed` is made on exact rationals. -/
def create_camera_component (hw : CameraHw) (state : CAM_STATE) : CameraCtx :=
  match camera_open hw state with
  | (_, some r) => r
  | (calls4, none) =>
    let calls5 := calls4 ++ [CameraCall.set_camera_config state.width state.height 0 0 0]
    let state1 :=
      if state.shutter_speed ≠ 0 ∧
          ((state.framerate : Int) : ℚ) > 1000000 / (state.shutter_speed : ℚ) then
        { state with framerate := 0 }
      else state
    camera_commit hw state1 calls5

/-- Lines 1203-1216 and 1273-1286: the frame-rate range for long exposures. -/
def fps_range_calls (shutter_speed : Int) (port : Nat) (low : Int) : List CameraCall :=
  if shutter_speed > 6000000 then [CameraCall.set_fps_range port 50 166]
  else if shutter_speed > 1000000 then [CameraCall.set_fps_range port low 999]
  else []

/-- Lines 1180-1327 of `create_still_camera_component`: camera configuration,
parameters, the formats of the preview, video and stills ports, enabling the
component.  `calls` are the calls made so far. -/
def still_camera_commit (hw : CameraHw) (state : CAM_STATE) (calls : List CameraCall) :
    CameraCtx :=
  let max_preview_video_w :=
    if state.fullResPreview ≠ 0 then state.width else state.previewWindow_width
  let max_preview_video_h :=
    if state.fullResPreview ≠ 0 then state.height else state.previewWindow_height
  let calls5 := calls ++
    [CameraCall.set_camera_config state.width state.height 1
       max_preview_video_w max_preview_video_h,
     CameraCall.set_all_parameters] ++
    fps_range_calls state.shutter_speed MMAL_CAMERA_PREVIEW_PORT 166
  let preview0 : MMAL_ES_FORMAT_T :=
    { hw.format MMAL_CAMERA_PREVIEW_PORT with
      encoding := MMAL_ENCODING_OPAQUE
      encoding_variant := MMAL_ENCODING_I420 }
  let preview : MMAL_ES_FORMAT_T :=
    { (if state.fullResPreview ≠ 0 then frame_geometry preview0 state.width state.height
       else frame_geometry preview0 state.previewWindow_width state.previewWindow_height) with
      frame_rate_num := 0
      frame_rate_den := 1 }
  let calls6 := calls5 ++ [CameraCall.format_commit MMAL_CAMERA_PREVIEW_PORT preview]
  if hw.format_commit MMAL_CAMERA_PREVIEW_PORT ≠ MMAL_SUCCESS then
    camera_error state calls6 hw.buffer_num (hw.format_commit MMAL_CAMERA_PREVIEW_PORT).code
  else
  let calls7 := calls6 ++ [CameraCall.format_commit MMAL_CAMERA_VIDEO_PORT preview]
  if hw.format_commit MMAL_CAMERA_VIDEO_PORT ≠ MMAL_SUCCESS then
    camera_error state calls7 hw.buffer_num (hw.format_commit MMAL_CAMERA_VIDEO_PORT).code
  else
  let buffer_num1 := raise_buffer_num hw.buffer_num MMAL_CAMERA_VIDEO_PORT
  let calls8 := calls7 ++ fps_range_calls state.shutter_speed MMAL_CAMERA_CAPTURE_PORT 167
  let still : MMAL_ES_FORMAT_T :=
    { frame_geometry (hw.format MMAL_CAMERA_CAPTURE_PORT) state.width state.height with
      encoding := MMAL_ENCODING_OPAQUE
      frame_rate_num := 0
      frame_rate_den := 1 }
  let calls9 := calls8 ++ [CameraCall.format_commit MMAL_CAMERA_CAPTURE_PORT still]
  if hw.format_commit MMAL_CAMERA_CAPTURE_PORT ≠ MMAL_SUCCESS then
    camera_error state calls9 buffer_num1 (hw.format_commit MMAL_CAMERA_CAPTURE_PORT).code
  else
  let buffer_num2 := raise_buffer_num buffer_num1 MMAL_CAMERA_CAPTURE_PORT
  let calls10 := calls9 ++ [CameraCall.component_enable]
  if hw.component_enable ≠ MMAL_SUCCESS then
    camera_error state calls10 buffer_num2 hw.component_enable.code
  else
  { state := { state with camera_component := true, camera_video_port := true },
    calls := calls10, buffer_num := buffer_num2, status := hw.component_enable.code }

/-- Source `create_still_camera_component` (cam.c 1116-1335). -/
def create_still_camera_component (hw : CameraHw) (state : CAM_STATE) : CameraCtx :=
  match camera_open hw state with
  | (_, some r) => r
  | (calls4, none) => still_camera_commit hw state calls4

/-- Source `check_disable_port`: `non_null` is whether the pointer passed is
non-null, `port` the port it points to.  Of the effects of `mmal_port_disable`
only the cleared `is_enabled` is kept. -/
def check_disable_port (non_null : Bool) (port : MMAL_PORT_T) (name : Handle)
    (trace : List Event) : MMAL_PORT_T × List Event :=
  if non_null = true ∧ port.is_enabled = true then
    ({ port with is_enabled := false }, trace ++ [Event.port_disable name])
  else (port, trace)

/-- Source `destroy_camera_component`. -/
def destroy_camera_component (state : CAM_STATE) (trace : List Event) :
    CAM_STATE × List Event :=
  if state.camera_component then
    ({ state with camera_component := false },
     trace ++ [Event.component_destroy Handle.camera_component])
  else (state, trace)

/-- Source `destroy_encoder_component`.  With a pool the code reads
`video_encoder_component->output[0]`, a fault when the component pointer is
null.  The pool pointer is left as it is. -/
def destroy_encoder_component (state : CAM_STATE) (trace : List Event) :
    Except Fault (CAM_STATE × List Event) :=
  if state.video_encoder_pool.isSome = true ∧ state.video_encoder_component = false then
    Except.error Fault.null_dereference
  else
    let trace1 :=
      if state.video_encoder_pool.isSome then
        trace ++ [Event.port_pool_destroy Handle.video_encoder_pool]
      else trace
    if state.video_encoder_component then
      Except.ok ({ state with video_encoder_component := false },
                 trace1 ++ [Event.component_destroy Handle.video_encoder_component])
    else Except.ok (state, trace1)

/-- Lines 2604-2613 of `destroy`: disable the encoder output port, destroy the
connection, disable both components.  `video_port` is the port
`video_encoder_output_port` points to.  Returns the port and the trace. -/
def destroy_disable (w : World) : MMAL_PORT_T × List Event :=
  let p := check_disable_port w.state.video_encoder_output_port w.video_port
    Handle.video_encoder_output_port w.trace
  let trace1 :=
    if w.state.video_encoder_connection then
      p.2 ++ [Event.connection_destroy Handle.video_encoder_connection]
    else p.2
  let trace2 :=
    if w.state.video_encoder_component then
      trace1 ++ [Event.component_disable Handle.video_encoder_component]
    else trace1
  let trace3 :=
    if w.state.camera_component then
      trace2 ++ [Event.component_disable Handle.camera_component]
    else trace2
  (p.1, trace3)

/-- Source `destroy` (cam.c 2603-2617). -/
def destroy (w : World) : Except Fault World :=
  let d := destroy_disable w
  match destroy_encoder_component w.state d.2 with
  | Except.error e => Except.error e
  | Except.ok (state1, trace4) =>
    let c := destroy_camera_component state1 trace4
    Except.ok { w with state := c.1, video_port := d.1, trace := c.2 }

/-! ## Parameter setters -/

/-- Source `set_rotation` (cam.c 403-412).  `ret0` is the status the first
`mmal_port_parameter_set_int32` returns; the second component lists the calls
made, as (index of the camera output port, value sent). -/
def set_rotation (ret0 : Int) (rotation : Int) : Int × List (Nat × Int) :=
  let my_rotation := (Int.tdiv (Int.tmod rotation 360) 90) * 90
  (ret0, [(0, my_rotation), (1, my_rotation), (2, my_rotation)])

/-- The parameters of `CAM_PARAMETERS` (cam.h 154-185) that decide what the
setters do; every other value is handed to the camera as it is.  The two AWB
gains are `float` in C; the code only tests them against 0. -/
structure CAM_PARAMETERS where
  saturation : Int
  sharpness : Int
  contrast : Int
  brightness : Int
  awb_gains_r : ℚ
  awb_gains_b : ℚ
  rotation : Int
  settings : Int

/-- The camera parameters the setters write.  Rotation and mirror are written
to an output port each (the index is given), all others to the control port. -/
inductive CameraParam where
  | SATURATION
  | SHARPNESS
  | CONTRAST
  | BRIGHTNESS
  | ISO
  | VIDEO_STABILISATION
  | EXPOSURE_COMP
  | EXPOSURE_MODE
  | FLICKER_AVOID
  | EXP_METERING_MODE
  | AWB_MODE
  | CUSTOM_AWB_GAINS
  | IMAGE_EFFECT
  | COLOUR_EFFECT
  | ROTATION (port : Nat)
  | MIRROR (port : Nat)
  | INPUT_CROP
  | SHUTTER_SPEED
  | DYNAMIC_RANGE_COMPRESSION
  | CAPTURE_STATS_PASS
  | ANNOTATE
  | ANALOG_GAIN
  | DIGITAL_GAIN
  | CHANGE_EVENT_REQUEST
  deriving DecidableEq, Repr

/-- What a setter yields: the `int` it returns and the parameters it has
written, in order; or a fault when it dereferences a null `camera`. -/
abbrev SetterResult := Except Fault (Int × List CameraParam)

/-- The call `mmal_port_parameter_set...` on the camera for parameter `p`: the
status the camera answers, as the `int` the setter returns. -/
def parameter_set (hw : CameraParam → MMAL_STATUS_T) (p : CameraParam) : Int × List CameraParam :=
  (((hw p).code : Nat), [p])

/-- Source `set_saturation` (cam.c 101-117). -/
def set_saturation (hw : CameraParam → MMAL_STATUS_T) (camera : Bool) (saturation : Int) :
    SetterResult :=
  if camera = false then Except.ok (1, [])
  else if saturation ≥ -100 ∧ saturation ≤ 100 then
    Except.ok (parameter_set hw CameraParam.SATURATION)
  else Except.ok (1, [])

/-- Source `set_sharpness`. -/
def set_sharpness (hw : CameraParam → MMAL_STATUS_T) (camera : Bool) (sharpness : Int) :
    SetterResult :=
  if camera = false then Except.ok (1, [])
  else if sharpness ≥ -100 ∧ sharpness ≤ 100 then
    Except.ok (parameter_set hw CameraParam.SHARPNESS)
  else Except.ok (1, [])

/-- Source `set_contrast`. -/
def set_contrast (hw : CameraParam → MMAL_STATUS_T) (camera : Bool) (contrast : Int) :
    SetterResult :=
  if camera = false then Except.ok (1, [])
  else if contrast ≥ -100 ∧ contrast ≤ 100 then
    Except.ok (parameter_set hw CameraParam.CONTRAST)
  else Except.ok (1, [])

/-- Source `set_brightness`. -/
def set_brightness (hw : CameraParam → MMAL_STATUS_T) (camera : Bool) (brightness : Int) :
    SetterResult :=
  if camera = false then Except.ok (1, [])
  else if brightness ≥ 0 ∧ brightness ≤ 100 then
    Except.ok (parameter_set hw CameraParam.BRIGHTNESS)
  else Except.ok (1, [])

/-- The shape shared by the setters that test `camera` and then return the
status of a single write (`set_ISO`, `set_metering_mode`, ...). -/
def set_checked (hw : CameraParam → MMAL_STATUS_T) (camera : Bool) (p : CameraParam) :
    SetterResult :=
  if camera = false then Except.ok (1, []) else Except.ok (parameter_set hw p)

/-- Source `set_ISO`. -/
def set_ISO (hw : CameraParam → MMAL_STATUS_T) (camera : Bool) : SetterResult :=
  set_checked hw camera CameraParam.ISO

/-- Source `set_metering_mode`. -/
def set_metering_mode (hw : CameraParam → MMAL_STATUS_T) (camera : Bool) : SetterResult :=
  set_checked hw camera CameraParam.EXP_METERING_MODE

/-- Source `set_video_stabilisation`. -/
def set_video_stabilisation (hw : CameraParam → MMAL_STATUS_T) (camera : Bool) : SetterResult :=
  set_checked hw camera CameraParam.VIDEO_STABILISATION

/-- Source `set_exposure_compensation`. -/
def set_exposure_compensation (hw : CameraParam → MMAL_STATUS_T) (camera : Bool) :
    SetterResult :=
  set_checked hw camera CameraParam.EXPOSURE_COMP

/-- Source `set_exposure_mode`. -/
def set_exposure_mode (hw : CameraParam → MMAL_STATUS_T) (camera : Bool) : SetterResult :=
  set_checked hw camera CameraParam.EXPOSURE_MODE

/-- Source `set_flicker_avoid_mode`. -/
def set_flicker_avoid_mode (hw : CameraParam → MMAL_STATUS_T) (camera : Bool) : SetterResult :=
  set_checked hw camera CameraParam.FLICKER_AVOID

/-- Source `set_awb_mode`. -/
def set_awb_mode (hw : CameraParam → MMAL_STATUS_T) (camera : Bool) : SetterResult :=
  set_checked hw camera CameraParam.AWB_MODE

/-- Source `set_awb_gains` (cam.c 322-337). -/
def set_awb_gains (hw : CameraParam → MMAL_STATUS_T) (camera : Bool) (r_gain b_gain : ℚ) :
    SetterResult :=
  if camera = false then Except.ok (1, [])
  else if r_gain = 0 ∨ b_gain = 0 then Except.ok (0, [])
  else Except.ok (parameter_set hw CameraParam.CUSTOM_AWB_GAINS)

/-- Source `set_imageFX`. -/
def set_imageFX (hw : CameraParam → MMAL_STATUS_T) (camera : Bool) : SetterResult :=
  set_checked hw camera CameraParam.IMAGE_EFFECT

/-- Source `set_colourFX`. -/
def set_colourFX (hw : CameraParam → MMAL_STATUS_T) (camera : Bool) : SetterResult :=
  set_checked hw camera CameraParam.COLOUR_EFFECT

/-- Source `set_rotation` as `set_all_parameters` calls it: the function reads
`camera->output[0]` without testing `camera`. -/
def set_rotation_call (hw : CameraParam → MMAL_STATUS_T) (camera : Bool) (rotation : Int) :
    SetterResult :=
  if camera = false then Except.error Fault.null_dereference
  else
    let r := set_rotation ((hw (CameraParam.ROTATION 0)).code : Nat) rotation
    Except.ok (r.1, r.2.map (fun c => CameraParam.ROTATION c.1))

/-- Source `set_flips` (cam.c 422-435): the mirror is written to the three
output ports and the status of the last write returned; `camera` is not
tested. -/
def set_flips (hw : CameraParam → MMAL_STATUS_T) (camera : Bool) : SetterResult :=
  if camera = false then Except.error Fault.null_dereference
  else
    Except.ok (((hw (CameraParam.MIRROR 2)).code : Nat),
      [CameraParam.MIRROR 0, CameraParam.MIRROR 1, CameraParam.MIRROR 2])

/-- The shape shared by the setters that write one parameter without testing
`camera` (`set_ROI`, `set_annotate`). -/
def set_unchecked (hw : CameraParam → MMAL_STATUS_T) (camera : Bool) (p : CameraParam) :
    SetterResult :=
  if camera = false then Except.error Fault.null_dereference
  else Except.ok (parameter_set hw p)

/-- Source `set_ROI`. -/
def set_ROI (hw : CameraParam → MMAL_STATUS_T) (camera : Bool) : SetterResult :=
  set_unchecked hw camera CameraParam.INPUT_CROP

/-- Source `set_shutter_speed`. -/
def set_shutter_speed (hw : CameraParam → MMAL_STATUS_T) (camera : Bool) : SetterResult :=
  set_checked hw camera CameraParam.SHUTTER_SPEED

/-- Source `set_DRC`. -/
def set_DRC (hw : CameraParam → MMAL_STATUS_T) (camera : Bool) : SetterResult :=
  set_checked hw camera CameraParam.DYNAMIC_RANGE_COMPRESSION

/-- Source `set_stats_pass`. -/
def set_stats_pass (hw : CameraParam → MMAL_STATUS_T) (camera : Bool) : SetterResult :=
  set_checked hw camera CameraParam.CAPTURE_STATS_PASS

/-- Source `set_annotate` (cam.c 489-581): whatever the settings, the function
ends with one write of the annotation block. -/
def set_annotate (hw : CameraParam → MMAL_STATUS_T) (camera : Bool) : SetterResult :=
  set_unchecked hw camera CameraParam.ANNOTATE

/-- Source `set_gains` (cam.c 589-605): the digital gain is written only if the
analog gain was accepted. -/
def set_gains (hw : CameraParam → MMAL_STATUS_T) (camera : Bool) : SetterResult :=
  if camera = false then Except.ok (1, [])
  else if hw CameraParam.ANALOG_GAIN ≠ MMAL_SUCCESS then
    Except.ok (parameter_set hw CameraParam.ANALOG_GAIN)
  else
    Except.ok (((hw CameraParam.DIGITAL_GAIN).code : Nat),
      [CameraParam.ANALOG_GAIN, CameraParam.DIGITAL_GAIN])

/-- The calls of `set_all_parameters` in program order (cam.c 627-671): the 22
setters, then the request for change events when `params->settings` is set. -/
def setter_calls (hw : CameraParam → MMAL_STATUS_T) (camera : Bool) (params : CAM_PARAMETERS) :
    List SetterResult :=
  [set_saturation hw camera params.saturation,
   set_sharpness hw camera params.sharpness,
   set_contrast hw camera params.contrast,
   set_brightness hw camera params.brightness,
   set_ISO hw camera,
   set_video_stabilisation hw camera,
   set_exposure_compensation hw camera,
   set_exposure_mode hw camera,
   set_flicker_avoid_mode hw camera,
   set_metering_mode hw camera,
   set_awb_mode hw camera,
   set_awb_gains hw camera params.awb_gains_r params.awb_gains_b,
   set_imageFX hw camera,
   set_colourFX hw camera,
   set_rotation_call hw camera params.rotation,
   set_flips hw camera,
   set_ROI hw camera,
   set_shutter_speed hw camera,
   set_DRC hw camera,
   set_stats_pass hw camera,
   set_annotate hw camera,
   set_gains hw camera] ++
  (if params.settings ≠ 0 then [set_unchecked hw camera CameraParam.CHANGE_EVENT_REQUEST]
   else [])

/-- The statements `result = ...; result += ...;` over a list of calls, run in
order: the sum of the returned values and the parameters written; a fault ends
the run. -/
def accumulate : List SetterResult → SetterResult
  | [] => Except.ok (0, [])
  | r :: rest =>
    match r with
    | Except.error e => Except.error e
    | Except.ok a =>
      match accumulate rest with
      | Except.error e => Except.error e
      | Except.ok b => Except.ok (a.1 + b.1, a.2 ++ b.2)

/-- Source `set_all_parameters` (cam.c 624-674). -/
def set_all_parameters (hw : CameraParam → MMAL_STATUS_T) (camera : Bool)
    (params : CAM_PARAMETERS) : SetterResult :=
  accumulate (setter_calls hw camera params)

/-! ## Set-up of the sessions and teardown of the still session
(cam.c 1362-1478, 1608-1711, 1799-1847, 1888-1901, 2483-2596, 2810-2837) -/

/-- Source `get_sensor_defaults` (cam.c 1799-1847) on the fields it may change:
a width or height of 0 is replaced by the maximum the firmware reports for the
camera (`sensor`, when it can be read), else by the OV5647 default.  The
`camera_info` component the function creates is destroyed before it returns. -/
def get_sensor_defaults (sensor : Option (Nat × Nat)) (state : CAM_STATE) : CAM_STATE :=
  let width1 := match sensor with
    | some s => if state.width = 0 then s.1 else state.width
    | none => state.width
  let height1 := match sensor with
    | some s => if state.height = 0 then s.2 else state.height
    | none => state.height
  { state with width := if width1 = 0 then 2592 else width1,
               height := if height1 = 0 then 1944 else height1 }

/-- Calls `preview_create` makes on the preview component, in program order. -/
inductive PreviewCall where
  | component_create (null_sink : Bool)
  | set_display_region
  | component_enable
  | component_destroy
  deriving DecidableEq, Repr

/-- What the preview hardware answers. -/
structure PreviewHw where
  component_create : MMAL_STATUS_T
  input_num : Nat
  display_region : MMAL_STATUS_T
  component_enable : MMAL_STATUS_T

/-- Lines 1672-1698 of `preview_create`: enable the component and publish it, or
destroy it after a failure. -/
def preview_enable (hw : PreviewHw) (state : CAM_STATE) (calls : List PreviewCall) :
    MMAL_STATUS_T × CAM_STATE × List PreviewCall :=
  let calls2 := calls ++ [PreviewCall.component_enable]
  if hw.component_enable ≠ MMAL_SUCCESS then
    (hw.component_enable, state, calls2 ++ [PreviewCall.component_destroy])
  else (hw.component_enable, { state with preview_component := true }, calls2)

/-- Source `preview_create` (cam.c 1608-1698): a null sink when no preview is
wanted, else the video renderer with its display region.  Returns the status,
the state and the calls made. -/
def preview_create (hw : PreviewHw) (state : CAM_STATE) :
    MMAL_STATUS_T × CAM_STATE × List PreviewCall :=
  let calls0 := [PreviewCall.component_create (decide (state.wantPreview = 0))]
  if hw.component_create ≠ MMAL_SUCCESS then (hw.component_create, state, calls0)
  else if state.wantPreview = 0 then preview_enable hw state calls0
  else if hw.input_num = 0 then
    (MMAL_ENOSYS, state, calls0 ++ [PreviewCall.component_destroy])
  else
    let calls1 := calls0 ++ [PreviewCall.set_display_region]
    if hw.display_region ≠ MMAL_SUCCESS ∧ hw.display_region ≠ MMAL_ENOSYS then
      (hw.display_region, state, calls1 ++ [PreviewCall.component_destroy])
    else preview_enable hw state calls1

/-- Source `preview_destroy` (cam.c 1704-1711). -/
def preview_destroy (state : CAM_STATE) (trace : List Event) : CAM_STATE × List Event :=
  if state.preview_component then
    ({ state with preview_component := false },
     trace ++ [Event.component_destroy Handle.preview_component])
  else (state, trace)

/-- Calls `create_still_encoder_component` makes on the JPEG encoder, in program
order.  The quality, restart interval and thumbnail values are passed through
unchanged and not recorded. -/
inductive StillEncCall where
  | component_create
  | format_commit (buffer_size buffer_num : Nat)
  | set_q_factor
  | set_restart_interval
  | set_thumbnail
  | component_enable
  | port_pool_create (num size : Nat)
  | component_destroy
  deriving DecidableEq, Repr

/-- What the JPEG encoder hardware answers. -/
structure StillEncoderHw where
  component_create : MMAL_STATUS_T
  input_num : Nat
  output_num : Nat
  buffer_size_recommended : Nat
  buffer_size_min : Nat
  buffer_num_recommended : Nat
  buffer_num_min : Nat
  format_commit : MMAL_STATUS_T
  q_factor : MMAL_STATUS_T
  restart_interval : MMAL_STATUS_T
  component_enable : MMAL_STATUS_T
  pool_create : Bool

/-- Source `create_still_encoder_component` (cam.c 1362-1478).  Returns the
status, the state and the calls made.  A failed write of the restart interval
counts only when an interval is requested; the status of the thumbnail write is
overwritten; a null pool is only logged. -/
def create_still_encoder_component (hw : StillEncoderHw) (state : CAM_STATE) :
    MMAL_STATUS_T × CAM_STATE × List StillEncCall :=
  let calls0 := [StillEncCall.component_create]
  if hw.component_create ≠ MMAL_SUCCESS then (hw.component_create, state, calls0) else
  if hw.input_num = 0 ∨ hw.output_num = 0 then
    (MMAL_ENOSYS, state, calls0 ++ [StillEncCall.component_destroy]) else
  let size := if hw.buffer_size_recommended < hw.buffer_size_min then hw.buffer_size_min
              else hw.buffer_size_recommended
  let num := if hw.buffer_num_recommended < hw.buffer_num_min then hw.buffer_num_min
             else hw.buffer_num_recommended
  let calls1 := calls0 ++ [StillEncCall.format_commit size num]
  if hw.format_commit ≠ MMAL_SUCCESS then
    (hw.format_commit, state, calls1 ++ [StillEncCall.component_destroy]) else
  let calls2 := calls1 ++ [StillEncCall.set_q_factor]
  if hw.q_factor ≠ MMAL_SUCCESS then
    (hw.q_factor, state, calls2 ++ [StillEncCall.component_destroy]) else
  let calls3 := calls2 ++ [StillEncCall.set_restart_interval]
  if state.restart_interval ≠ 0 ∧ hw.restart_interval ≠ MMAL_SUCCESS then
    (hw.restart_interval, state, calls3 ++ [StillEncCall.component_destroy]) else
  let calls4 := calls3 ++ [StillEncCall.set_thumbnail, StillEncCall.component_enable]
  if hw.component_enable ≠ MMAL_SUCCESS then
    (hw.component_enable, state, calls4 ++ [StillEncCall.component_destroy]) else
  (hw.component_enable,
   { state with encoder_pool := new_pool hw.pool_create num,
                still_encoder_component := true,
                still_encoder_output_port := true },
   calls4 ++ [StillEncCall.port_pool_create num size])

/-- The calls of a session set-up, in program order: those made while creating
each component, the calls on connections and ports, and the teardown calls of a
rollback. -/
inductive SetupCall where
  | camera (call : CameraCall)
  | encoder (call : EncCall)
  | preview (call : PreviewCall)
  | still_encoder (call : StillEncCall)
  | connection_create (connection : Handle)
  | connection_enable (connection : Handle)
  | connection_destroy (connection : Handle)
  | port_enable (port : Handle)
  | teardown (event : Event)
  deriving DecidableEq, Repr

/-- Source `connect_ports` (cam.c 1888-1901).  `create` and `enable` are the
statuses of `mmal_connection_create` and `mmal_connection_enable`; `pointer` is
whether `*connection` is non-null on entry.  The pointer is assigned only by a
successful create, and it is not cleared when the connection is destroyed after
a failed enable.  Returns the status, the pointer and the calls made. -/
def connect_ports (create enable : MMAL_STATUS_T) (connection : Handle) (pointer : Bool) :
    MMAL_STATUS_T × Bool × List SetupCall :=
  if create ≠ MMAL_SUCCESS then (create, pointer, [SetupCall.connection_create connection])
  else if enable ≠ MMAL_SUCCESS then
    (enable, true, [SetupCall.connection_create connection,
                    SetupCall.connection_enable connection,
                    SetupCall.connection_destroy connection])
  else
    (enable, true, [SetupCall.connection_create connection,
                    SetupCall.connection_enable connection])

/-- The outcome of `init` or `init_still`: the value returned (`none` when the
function ends without a `return` statement), the state, the calls made, and the
encoder output port as `init` leaves it. -/
structure Setup where
  status : Option Nat
  state : CAM_STATE
  calls : List SetupCall
  video_port : MMAL_PORT_T

/-- What the hardware answers during `init`. -/
structure InitHw where
  sensor : Option (Nat × Nat)
  camera : CameraHw
  encoder : EncoderHw
  connection_create : MMAL_STATUS_T
  connection_enable : MMAL_STATUS_T
  port_enable : MMAL_STATUS_T

/-- Source `init` (cam.c 2483-2520).  `check_camera_model` only logs and is left
out. -/
def init (hw : InitHw) (state0 : CAM_STATE) : Setup :=
  let state := get_sensor_defaults hw.sensor state0
  let port0 : MMAL_PORT_T := { is_enabled := false, userdata := false, held := [] }
  let cam := create_camera_component hw.camera state
  let calls1 := cam.calls.map SetupCall.camera
  if cam.status ≠ 0 then
    { status := some cam.status, state := cam.state, calls := calls1, video_port := port0 }
  else
  let enc := create_encoder_component hw.encoder cam.state
  let calls2 := calls1 ++ enc.calls.map SetupCall.encoder
  if enc.status ≠ MMAL_SUCCESS then
    { status := some enc.status.code, state := enc.state, calls := calls2, video_port := port0 }
  else
  let state2 := { enc.state with camera_video_port := true, video_encoder_output_port := true }
  let cn := connect_ports hw.connection_create hw.connection_enable
    Handle.video_encoder_connection state2.video_encoder_connection
  let state3 := { state2 with video_encoder_connection := cn.2.1 }
  let calls3 := calls2 ++ cn.2.2
  if cn.1 ≠ MMAL_SUCCESS then
    { status := some cn.1.code, state := state3, calls := calls3, video_port := port0 }
  else
  let port1 := { port0 with userdata := true }
  let calls4 := calls3 ++ [SetupCall.port_enable Handle.video_encoder_output_port]
  if hw.port_enable ≠ MMAL_SUCCESS then
    { status := some hw.port_enable.code, state := state3, calls := calls4, video_port := port1 }
  else
    { status := some MMAL_SUCCESS.code, state := state3, calls := calls4,
      video_port := { port1 with is_enabled := true } }

/-- What the hardware answers during `init_still`. -/
structure StillInitHw where
  sensor : Option (Nat × Nat)
  camera : CameraHw
  preview : PreviewHw
  encoder : StillEncoderHw
  preview_connection_create : MMAL_STATUS_T
  preview_connection_enable : MMAL_STATUS_T
  encoder_connection_create : MMAL_STATUS_T
  encoder_connection_enable : MMAL_STATUS_T

/-- Source `init_still` (cam.c 2527-2596).  `bcm_host_init` is left out.  The
local `callback_data` the function fills is not the one of the state.  After the
second connection the function ends without a `return` statement. -/
def init_still (hw : StillInitHw) (state0 : CAM_STATE) : Setup :=
  let state := get_sensor_defaults hw.sensor state0
  let port0 : MMAL_PORT_T := { is_enabled := false, userdata := false, held := [] }
  let cam := create_still_camera_component hw.camera state
  let calls1 := cam.calls.map SetupCall.camera
  if cam.status ≠ 0 then
    { status := some cam.status, state := cam.state, calls := calls1, video_port := port0 }
  else
  let pv := preview_create hw.preview cam.state
  let calls2 := calls1 ++ pv.2.2.map SetupCall.preview
  if pv.1 ≠ MMAL_SUCCESS then
    let d := destroy_camera_component pv.2.1 []
    { status := some pv.1.code, state := d.1,
      calls := calls2 ++ d.2.map SetupCall.teardown, video_port := port0 }
  else
  let en := create_still_encoder_component hw.encoder pv.2.1
  let calls3 := calls2 ++ en.2.2.map SetupCall.still_encoder
  if en.1 ≠ MMAL_SUCCESS then
    let p := preview_destroy en.2.1 []
    let d := destroy_camera_component p.1 p.2
    { status := some en.1.code, state := d.1,
      calls := calls3 ++ d.2.map SetupCall.teardown, video_port := port0 }
  else
  let state3 := { en.2.1 with camera_video_port := true, still_encoder_output_port := true }
  let c1 := connect_ports hw.preview_connection_create hw.preview_connection_enable
    Handle.preview_connection state3.preview_connection
  let state4 := { state3 with preview_connection := c1.2.1 }
  let calls4 := calls3 ++ c1.2.2
  if c1.1 ≠ MMAL_SUCCESS then
    { status := some c1.1.code, state := state4, calls := calls4, video_port := port0 }
  else
  let c2 := connect_ports hw.encoder_connection_create hw.encoder_connection_enable
    Handle.encoder_connection state4.encoder_connection
  let state5 := { state4 with encoder_connection := c2.2.1 }
  let calls5 := calls4 ++ c2.2.2
  if c2.1 ≠ MMAL_SUCCESS then
    { status := some c2.1.code, state := state5, calls := calls5, video_port := port0 }
  else
    { status := none, state := state5, calls := calls5, video_port := port0 }

/-- Lines 2815-2830 of `destroy_still`: disable the camera video port and the
still encoder output port, destroy both connections, disable the components.
`camera_video_port` is the port the pointer of that name points to.  The
pointer `encoder_component` is tested, not `still_encoder_component`.  Returns
both ports and the trace. -/
def destroy_still_disable (w : World) (camera_video_port : MMAL_PORT_T) :
    MMAL_PORT_T × MMAL_PORT_T × List Event :=
  let p1 := check_disable_port w.state.camera_video_port camera_video_port
    Handle.camera_video_port w.trace
  let p2 := check_disable_port w.state.still_encoder_output_port w.still_port
    Handle.still_encoder_output_port p1.2
  let trace1 :=
    if w.state.preview_connection then
      p2.2 ++ [Event.connection_destroy Handle.preview_connection]
    else p2.2
  let trace2 :=
    if w.state.encoder_connection then
      trace1 ++ [Event.connection_destroy Handle.encoder_connection]
    else trace1
  let trace3 :=
    if w.state.encoder_component then
      trace2 ++ [Event.component_disable Handle.encoder_component]
    else trace2
  let trace4 :=
    if w.state.preview_component then
      trace3 ++ [Event.component_disable Handle.preview_component]
    else trace3
  let trace5 :=
    if w.state.camera_component then
      trace4 ++ [Event.component_disable Handle.camera_component]
    else trace4
  (p1.1, p2.1, trace5)

/-- Source `destroy_still` (cam.c 2810-2837).  The encoder it destroys is the
one `destroy_encoder_component` knows, the video encoder.  Returns the world and
the camera video port. -/
def destroy_still (w : World) (camera_video_port : MMAL_PORT_T) :
    Except Fault (World × MMAL_PORT_T) :=
  let d := destroy_still_disable w camera_video_port
  match destroy_encoder_component w.state d.2.2 with
  | Except.error e => Except.error e
  | Except.ok (state1, trace6) =>
    let p := preview_destroy state1 trace6
    let c := destroy_camera_component p.1 p.2
    Except.ok ({ w with state := c.1, still_port := d.2.1, trace := c.2 }, d.1)

/-! ## Predicates and sample inputs used by the theorems -/

/-- Two contexts that differ at most in the bitrate (state and port). -/
def EncCtx.agree (c c2 : EncCtx) : Prop :=
  c.status = c2.status ∧ c.failed = c2.failed ∧ c.encoder = c2.encoder ∧
  ∃ b, c2.state = { c.state with bitrate := b }

/-- The blocks after the format commit leave the bitrate alone. -/
def EncCtx.bitrate_is (c : EncCtx) (b : Int) : Prop :=
  c.state.bitrate = b ∧ c.output.map (fun o => o.bitrate) = some (uint32_of_int b)

/-- An encoder on which every call succeeds. -/
def encoder_hw_ok : EncoderHw :=
  { component_create := MMAL_SUCCESS, input_num := 1, output_num := 1,
    buffer_size_recommended := 65536, buffer_size_min := 2048,
    buffer_num_recommended := 1, buffer_num_min := 1,
    format_commit := MMAL_SUCCESS, set_intraperiod := MMAL_SUCCESS,
    set_mb_rows_per_slice := MMAL_SUCCESS, set_initial_quant := MMAL_SUCCESS,
    set_min_quant := MMAL_SUCCESS, set_max_quant := MMAL_SUCCESS,
    set_profile := MMAL_SUCCESS, get_intra_refresh := MMAL_SUCCESS,
    set_intra_refresh := MMAL_SUCCESS, component_enable := MMAL_SUCCESS,
    pool_create := true }

/-- The accounting invariant of the video pipe with capacity `N`. -/
def video_accounted (w : World) (N : Nat) : Prop :=
  w.video_port.is_enabled = true ∧ w.video_port.userdata = true ∧
  ∃ q, w.state.video_encoder_pool = some { queue := q } ∧
    q.length + w.video_port.held.length + unable_count w.trace = N

/-- The accounting invariant of the still pipe with capacity `N`. -/
def still_accounted (w : World) (N : Nat) : Prop :=
  w.still_port.is_enabled = true ∧ w.still_port.userdata = true ∧
  ∃ q, w.state.encoder_pool = some { queue := q } ∧
    q.length + w.still_port.held.length + unable_count w.trace = N

/-- A world in which both pipes are pre-filled with `N` buffers. -/
def prefilled_world (N : Nat) : World :=
  { World.start { default_state 0 with video_encoder_pool := some { queue := [] },
                                       encoder_pool := some { queue := [] } } 0 with
    video_port := { is_enabled := true, userdata := true, held := List.range N }
    still_port := { is_enabled := true, userdata := true, held := List.range N } }

/-- A frame-end buffer of three bytes; the port answers the resubmission with
`accept`. -/
def sample_completion (accept : Bool) : Completion :=
  { pick := 0, flags := MMAL_BUFFER_HEADER_FLAG_FRAME_END, pts := 1000, length := 3,
    offset := 0, data := [1, 2, 3], accept := accept }

/-- A world whose segment counter is 3 with wrap point 3 and a split requested. -/
def wrap_world : World :=
  { prefilled_world 3 with
    state := { (prefilled_world 3).state with
               segmentNumber := 3, segmentWrap := 3, splitWait := 1, splitNow := 1 } }

/-- A codec-header buffer. -/
def config_buffer : MMAL_BUFFER_HEADER_T :=
  { id := 0, flags := MMAL_BUFFER_HEADER_FLAG_CONFIG, pts := 0, length := 20, offset := 0,
    data := [] }

/-- A timelapse session with an interval of 1000 ms whose next frame was due at
10000 ms, entered at 12500 ms (2500 ms late). -/
def late_world : World :=
  { World.start { default_state 0 with frameNextMethod := FRAME_NEXT_TIMELAPSE,
                                       timelapse := 1000, timeout := 0 } 12500000 with
    next_frame_ms := 10000, frame_complete_time := 5000 }

/-- The three counts of a trace: capture triggers, semaphore waits, still
consumer callbacks. -/
def still_counts (trace : List Event) : Nat × Nat × Nat :=
  (trigger_count trace, semaphore_wait_count trace, still_cb_count trace)

/-- The number of completions whose resubmitted buffer the port rejects. -/
def rejections (cs : List Completion) : Nat := (cs.filter (fun d => !d.accept)).length

/-- A still session with `frameNextMethod = Single` and `timeout = 0`, whose
encoder answers the first trigger with two data buffers (the port rejecting the
buffer sent back after the first) followed by one frame-end buffer. -/
def single_frame_world : World :=
  { World.start { default_state 0 with
        frameNextMethod := FRAME_NEXT_SINGLE, timeout := 0, camera_component := true,
        still_encoder_component := true, encoder_pool := some { queue := [0, 1, 2] } } 0 with
    still_fills := [[{ pick := 0, flags := 0, pts := 1000, length := 2, offset := 0,
                       data := [1, 2], accept := false },
                     { pick := 1, flags := 0, pts := 1000, length := 1, offset := 0,
                       data := [3], accept := true },
                     sample_completion true]] }

/-- A video session with `waitMethod = Timed`, on and off times of 500 ms and a
timeout of 1500 ms, initially paused, with a pool of three buffers. -/
def timed_world : World :=
  World.start { default_state 0 with
    waitMethod := WAIT_METHOD_TIMED, onTime := 500, offTime := 500, timeout := 1500,
    video_encoder_pool := some { queue := [0, 1, 2] } } 0

/-- The video callback run on a sequence of buffers, each with the answer of the
port to the resubmission that follows it. -/
def encoder_buffer_callbacks :
    World → List (MMAL_BUFFER_HEADER_T × Bool) → Except Fault World
  | w, [] => Except.ok w
  | w, (b, accept) :: rest =>
    match encoder_buffer_callback w b accept with
    | Except.error e => Except.error e
    | Except.ok w1 => encoder_buffer_callbacks w1 rest

/-- The still callback run on a sequence of buffers. -/
def still_encoder_buffer_callbacks :
    World → List (MMAL_BUFFER_HEADER_T × Bool) → Except Fault World
  | w, [] => Except.ok w
  | w, (b, accept) :: rest =>
    match still_encoder_buffer_callback w b accept with
    | Except.error e => Except.error e
    | Except.ok w1 => still_encoder_buffer_callbacks w1 rest

/-- The invocations of the video consumer callback in a trace, in order, as
(timestamp, data, length, offset). -/
def delivered : List Event → List (Int × List Nat × Nat × Nat)
  | [] => []
  | Event.video_cb pts data length offset :: rest => (pts, data, length, offset) :: delivered rest
  | _ :: rest => delivered rest

/-- The invocations of the still consumer callback in a trace, in order, as
(data, length). -/
def still_delivered : List Event → List (Option (List Nat) × Nat)
  | [] => []
  | Event.still_cb data length :: rest => (data, length) :: still_delivered rest
  | _ :: rest => still_delivered rest

/-- The bytes a video buffer carries: `length` bytes of `data` from `offset`. -/
def payload (b : MMAL_BUFFER_HEADER_T) : List Nat := (b.data.drop b.offset).take b.length

/-- The bytes the still callback copies from a buffer: the first `length` bytes
of `data`. -/
def still_payload (b : MMAL_BUFFER_HEADER_T) : List Nat := b.data.take b.length

/-- A non-empty buffer that ends a logical frame (frame-end or keyframe flag, or
no flags at all) and carries neither the config flag nor codec side
information. -/
def ends_frame (b : MMAL_BUFFER_HEADER_T) : Prop :=
  b.length ≠ 0 ∧
  (has_flag b.flags MMAL_BUFFER_HEADER_FLAG_FRAME_END = true ∨
    has_flag b.flags MMAL_BUFFER_HEADER_FLAG_KEYFRAME = true ∨ b.flags = 0) ∧
  has_flag b.flags MMAL_BUFFER_HEADER_FLAG_CONFIG = false ∧
  has_flag b.flags MMAL_BUFFER_HEADER_FLAG_CODECSIDEINFO = false

/-- A buffer inside a logical frame: it carries some flag, but neither the
frame-end nor the keyframe flag. -/
def continues_frame (b : MMAL_BUFFER_HEADER_T) : Prop :=
  b.flags ≠ 0 ∧ has_flag b.flags MMAL_BUFFER_HEADER_FLAG_FRAME_END = false ∧
  has_flag b.flags MMAL_BUFFER_HEADER_FLAG_KEYFRAME = false

/-- The presentation timestamps of the buffers of a run for which the video
consumer callback was invoked, in order. -/
def delivered_pts : World → List (MMAL_BUFFER_HEADER_T × Bool) → List Int
  | _, [] => []
  | w, (b, accept) :: rest =>
    match encoder_buffer_callback w b accept with
    | Except.error _ => []
    | Except.ok w1 =>
      (if (delivered w1.trace).length = (delivered w.trace).length then [] else [b.pts]) ++
        delivered_pts w1 rest

/-- The known presentation timestamps of a sequence of buffers, in order. -/
def known_pts (bs : List (MMAL_BUFFER_HEADER_T × Bool)) : List Int :=
  (bs.map (fun x => x.1.pts)).filter (fun t => decide (t ≠ MMAL_TIME_UNKNOWN))

instance rotation_due_decidable (w : World) (buffer : MMAL_BUFFER_HEADER_T) :
    Decidable (rotation_due w buffer) := by
  unfold rotation_due
  infer_instance

/-- How many callbacks of a run found the rotation guard true on entry. -/
def rotation_count : World → List (MMAL_BUFFER_HEADER_T × Bool) → Nat
  | _, [] => 0
  | w, (b, accept) :: rest =>
    match encoder_buffer_callback w b accept with
    | Except.error _ => 0
    | Except.ok w1 => (if rotation_due w b then 1 else 0) + rotation_count w1 rest

/-- The segment number after a rotation (cam.c 2648-2651). -/
def next_segment (state : CAM_STATE) : Int :=
  if state.segmentWrap ≠ 0 ∧ state.segmentNumber + 1 > state.segmentWrap then 1
  else state.segmentNumber + 1

/-- Whether a buffer completes a still capture: it carries the frame-end or the
transmission-failed flag. -/
def completes (b : MMAL_BUFFER_HEADER_T) : Bool :=
  has_flag b.flags MMAL_BUFFER_HEADER_FLAG_FRAME_END ||
  has_flag b.flags MMAL_BUFFER_HEADER_FLAG_TRANSMISSION_FAILED

/-- The images a sequence of still buffers makes up, in the words of the
specification: the bytes of the buffers up to and including each completing
buffer, concatenated in arrival order, with the sum of their lengths.  `acc` and
`n` are the bytes and the length of the capture under way; buffers after the last
completing buffer make up no image. -/
def images (acc : List Nat) (n : Nat) : List MMAL_BUFFER_HEADER_T → List (List Nat × Nat)
  | [] => []
  | b :: rest =>
    if completes b then (acc ++ still_payload b, n + b.length) :: images [] 0 rest
    else images (acc ++ still_payload b) (n + b.length) rest

/-- A buffer holding the bytes `data`, with the given flags and timestamp. -/
def data_buffer (flags : Nat) (pts : Int) (data : List Nat) : MMAL_BUFFER_HEADER_T :=
  { id := 0, flags := flags, pts := pts, length := data.length, offset := 0, data := data }

/-- A still session whose consumer callback is registered, with an empty
accumulator. -/
def still_world : World :=
  { prefilled_world 3 with
    state := { (prefilled_world 3).state with has_still_cb := true } }

/-- A session that enters `capture` already capturing, with `splitWait` set and
a timeout of 100 ms. -/
def capturing_world : World :=
  World.start { default_state 0 with
    bCapturing := 1, splitWait := 1, timeout := 100,
    video_encoder_pool := some { queue := [0, 1, 2] } } 0

/-- A camera for which every call succeeds; its ports start with empty
formats and one buffer each. -/
def camera_hw_ok : CameraHw :=
  { component_create := MMAL_SUCCESS, stereo_mode := fun _ => MMAL_SUCCESS,
    camera_num := MMAL_SUCCESS, output_num := 3, sensor_mode := MMAL_SUCCESS,
    control_enable := MMAL_SUCCESS,
    format := fun _ => { encoding := 0, encoding_variant := 0, width := 0, height := 0,
                         crop := { x := 0, y := 0, width := 0, height := 0 },
                         frame_rate_num := 0, frame_rate_den := 0 },
    buffer_num := fun _ => 1, format_commit := fun _ => MMAL_SUCCESS,
    component_enable := MMAL_SUCCESS }

/-- A video session as `init` leaves it: both components, the connection, the
enabled output port and the pool exist. -/
def session_world : World :=
  { prefilled_world 3 with
    state := { (prefilled_world 3).state with
               camera_component := true, video_encoder_component := true,
               video_encoder_output_port := true, video_encoder_connection := true } }

/-- The guard under which `encoder_buffer_callback` hands a buffer to the video
consumer (cam.c 2654, 2657, 2665-2673), for the state the buffer meets. -/
def delivers (state : CAM_STATE) (b : MMAL_BUFFER_HEADER_T) : Prop :=
  b.length ≠ 0 ∧ has_flag b.flags MMAL_BUFFER_HEADER_FLAG_CODECSIDEINFO = false ∧
  ((has_flag b.flags MMAL_BUFFER_HEADER_FLAG_FRAME_END = true ∨ b.flags = 0 ∨
      has_flag b.flags MMAL_BUFFER_HEADER_FLAG_KEYFRAME = true) ∧
    ¬ (has_flag b.flags MMAL_BUFFER_HEADER_FLAG_CONFIG = true)) ∧
  (b.pts ≠ MMAL_TIME_UNKNOWN ∧ b.pts ≠ state.lasttime)

instance delivers_decidable (state : CAM_STATE) (b : MMAL_BUFFER_HEADER_T) :
    Decidable (delivers state b) := by
  unfold delivers
  infer_instance

/-- A world in which the video callback can run: the port has its userdata, the
pool exists, and `frame` counts the frames handed to the consumer so far. -/
def stream_ready (w : World) : Prop :=
  w.video_port.userdata = true ∧ (∃ p, w.state.video_encoder_pool = some p) ∧
  w.state.frame = ((delivered w.trace).length : Int)

/-- Whether a buffer repeats the previous delivery: its stream-relative timestamp
equals the one delivered last; before the first delivery, whether its timestamp
is 0, the value `lasttime` holds after `default_state`. -/
def repeats_last (w : World) (b : MMAL_BUFFER_HEADER_T) : Prop :=
  match (delivered w.trace).getLast? with
  | none => b.pts = 0
  | some d => b.pts - w.state.starttime = d.1

/-- The state variable `lasttime` holds the timestamp of the buffer delivered
last, or 0 before the first delivery. -/
def last_invariant (w : World) : Prop :=
  match (delivered w.trace).getLast? with
  | none => w.state.lasttime = 0
  | some d => w.state.lasttime = d.1 + w.state.starttime

/-- A still world in which the callback can run and deliver: the port has its
userdata, the pool exists, a consumer callback is registered, and a null
accumulator has length 0. -/
def still_ready (w : World) : Prop :=
  w.still_port.userdata = true ∧ (∃ p, w.state.encoder_pool = some p) ∧
  w.state.has_still_cb = true ∧
  (w.state.work_image_data = none → w.state.work_image_data_length = 0)

/-- How often the completion semaphore was posted. -/
def semaphore_post_count (trace : List Event) : Nat := trace.count Event.semaphore_post

/-- The (profile, level) pairs sent as `MMAL_PARAMETER_PROFILE` in a list of
calls. -/
def profile_sent : List EncCall → List (Nat × Nat)
  | [] => []
  | EncCall.profile_set profile level :: rest => (profile, level) :: profile_sent rest
  | _ :: rest => profile_sent rest

/-- The hardware accepts everything `create_encoder_component` asks for before
it reaches the profile block. -/
def EncoderHw.accepts_setup (hw : EncoderHw) : Prop :=
  hw.component_create = MMAL_SUCCESS ∧ hw.input_num ≠ 0 ∧ hw.output_num ≠ 0 ∧
  hw.format_commit = MMAL_SUCCESS ∧ hw.set_intraperiod = MMAL_SUCCESS ∧
  hw.set_mb_rows_per_slice = MMAL_SUCCESS ∧ hw.set_initial_quant = MMAL_SUCCESS ∧
  hw.set_min_quant = MMAL_SUCCESS ∧ hw.set_max_quant = MMAL_SUCCESS

/-- The context still holds the frame geometry, frame rate, profile and level
of `state`, has sent no profile, and owns the encoder without having failed. -/
def EncCtx.before_profile (c : EncCtx) (state : CAM_STATE) : Prop :=
  c.failed = false ∧ c.encoder = true ∧ profile_sent c.calls = [] ∧
  c.state.encoding = state.encoding ∧ c.state.width = state.width ∧
  c.state.height = state.height ∧ c.state.framerate = state.framerate ∧
  c.state.level = state.level ∧ c.state.profile = state.profile

/-- The macroblock rate in the words of the specification:
ceil(width/16) * ceil(height/16) * framerate. -/
def spec_macroblock_rate (width height framerate : Nat) : Int :=
  ⌈(width : ℚ) / 16⌉ * ⌈(height : ℚ) / 16⌉ * (framerate : Int)

/-- A video session with `waitMethod = None` (the default) and a timeout of 0;
no abort is raised and every hardware call succeeds. -/
def none_world : World :=
  World.start { default_state 0 with
    timeout := 0, video_encoder_pool := some { queue := [0, 1, 2] } } 0

/-- A still session in Immediate mode with a timeout of 500 ms. -/
def immediate_world : World :=
  World.start { default_state 0 with
    frameNextMethod := FRAME_NEXT_IMMEDIATELY, timeout := 500 } 0

/-- A session whose camera exists and holds the full-frame crop
(0, 0, 65536, 65536); every hardware call succeeds. -/
def full_frame_world : World :=
  World.start { default_state 0 with camera_component := true } 0

/-- An encoder for which every call succeeds but no buffer pool can be
created. -/
def encoder_hw_no_pool : EncoderHw := { encoder_hw_ok with pool_create := false }

/-- The local `status` agrees with the jump to `error`: non-success after a
jump, success (with the component created) otherwise. -/
def EncCtx.consistent (c : EncCtx) : Prop :=
  (c.failed = true → c.status ≠ MMAL_SUCCESS) ∧
  (c.failed = false → c.status = MMAL_SUCCESS ∧ c.encoder = true)

/-- The loop of `capture` entered at the call of `wait_for_next_change`
(cam.c 2171): what remains of an iteration after the toggle block, then the
following iterations. -/
def capture_resume (fuel : Nat) (w : World) (initialCapturing : Int) :
    Except Fault (Option MMAL_STATUS_T × World) :=
  match wait_for_next_change fuel w with
  | Except.error e => Except.error e
  | Except.ok x =>
    if x.1 ≠ 0 then capture_loop fuel x.2 initialCapturing else Except.ok (none, x.2)

/-- A video session driven by the keyboard: `waitMethod = Keypress`, a timeout
of 0 (never elapsed), a camera, and every hardware call succeeds. -/
def keypress_session (w : World) : Prop :=
  w.state.waitMethod = WAIT_METHOD_KEYPRESS ∧ w.state.timeout = 0 ∧ w.hw_status = [] ∧
  w.state.camera_component = true

/-- The characters `i I o O r R`. -/
def zoom_key (ch : Int) : Prop :=
  ch = 105 ∨ ch = 73 ∨ ch = 111 ∨ ch = 79 ∨ ch = 114 ∨ ch = 82

/-- The characters `x X`. -/
def exit_key (ch : Int) : Prop := ch = 120 ∨ ch = 88

/-- The values sent as `MMAL_PARAMETER_CAPTURE` to the camera video port, in
order. -/
def switches : List Event → List Int
  | [] => []
  | Event.set_video_capture v :: rest => v :: switches rest
  | _ :: rest => switches rest

/-- A keyboard session waiting for input in state Running, with the input
`i`, Enter, `x`. -/
def keypress_world : World :=
  { World.start { default_state 0 with
      waitMethod := WAIT_METHOD_KEYPRESS, timeout := 0, camera_component := true,
      bCapturing := 1 } 0 with
    stdin := [105, 10, 120] }

/-- Whether a set-up call creates, enables or destroys a component, a pool or a
connection. -/
def SetupCall.lifecycle : SetupCall → Bool
  | SetupCall.camera CameraCall.component_create => true
  | SetupCall.camera CameraCall.component_enable => true
  | SetupCall.camera CameraCall.component_destroy => true
  | SetupCall.encoder EncCall.component_create => true
  | SetupCall.encoder EncCall.component_enable => true
  | SetupCall.encoder (EncCall.port_pool_create _ _) => true
  | SetupCall.encoder EncCall.component_destroy => true
  | SetupCall.preview (PreviewCall.component_create _) => true
  | SetupCall.preview PreviewCall.component_enable => true
  | SetupCall.preview PreviewCall.component_destroy => true
  | SetupCall.still_encoder StillEncCall.component_create => true
  | SetupCall.still_encoder StillEncCall.component_enable => true
  | SetupCall.still_encoder (StillEncCall.port_pool_create _ _) => true
  | SetupCall.still_encoder StillEncCall.component_destroy => true
  | SetupCall.connection_create _ => true
  | SetupCall.connection_enable _ => true
  | SetupCall.connection_destroy _ => true
  | SetupCall.teardown _ => true
  | _ => false

/-- A preview for which every call succeeds. -/
def preview_hw_ok : PreviewHw :=
  { component_create := MMAL_SUCCESS, input_num := 1, display_region := MMAL_SUCCESS,
    component_enable := MMAL_SUCCESS }

/-- A JPEG encoder for which every call succeeds; its pool has one buffer. -/
def still_encoder_hw_ok : StillEncoderHw :=
  { component_create := MMAL_SUCCESS, input_num := 1, output_num := 1,
    buffer_size_recommended := 65536, buffer_size_min := 2048,
    buffer_num_recommended := 1, buffer_num_min := 1,
    format_commit := MMAL_SUCCESS, q_factor := MMAL_SUCCESS,
    restart_interval := MMAL_SUCCESS, component_enable := MMAL_SUCCESS,
    pool_create := true }

/-- Hardware on which every call of `init_still` succeeds. -/
def still_init_hw_ok : StillInitHw :=
  { sensor := none, camera := camera_hw_ok, preview := preview_hw_ok,
    encoder := still_encoder_hw_ok,
    preview_connection_create := MMAL_SUCCESS, preview_connection_enable := MMAL_SUCCESS,
    encoder_connection_create := MMAL_SUCCESS, encoder_connection_enable := MMAL_SUCCESS }

/-- Hardware on which the camera is set up but the video encoder component
cannot be created (out of memory). -/
def init_hw_no_encoder : InitHw :=
  { sensor := none, camera := camera_hw_ok,
    encoder := { encoder_hw_ok with component_create := MMAL_ENOMEM },
    connection_create := MMAL_SUCCESS, connection_enable := MMAL_SUCCESS,
    port_enable := MMAL_SUCCESS }

/-- Hardware on which the three components of a still session are set up but the
connection from the camera to the JPEG encoder cannot be created. -/
def still_init_hw_no_connection : StillInitHw :=
  { still_init_hw_ok with encoder_connection_create := MMAL_ENOMEM }

/-- The state `init_still` starts from: the defaults, with a preview wanted. -/
def still_start_state : CAM_STATE := { default_state 0 with wantPreview := 1 }

/-- The world after `init_still` has built a still session on hardware on which
every call succeeds. -/
def built_still_world : World :=
  World.start (init_still still_init_hw_ok still_start_state).state 0

/-- Hardware on which the camera is set up but the preview component cannot be
created. -/
def still_init_hw_no_preview : StillInitHw :=
  { still_init_hw_ok with preview := { preview_hw_ok with component_create := MMAL_ENOMEM } }

/-- Hardware on which camera and preview are set up but the JPEG encoder cannot
be enabled. -/
def still_init_hw_no_encoder : StillInitHw :=
  { still_init_hw_ok with
    encoder := { still_encoder_hw_ok with component_enable := MMAL_ENOMEM } }

/-! ## Theorems -/

/-- C7 at the failing input: for rotation -10 the three ports receive 0, not 270
(although 350, the same angle, gives 270); for rotation 370 they receive 0. -/
theorem set_rotation_minus10 :
    (set_rotation 0 (-10)).2 = [(0, 0), (1, 0), (2, 0)] ∧
    (set_rotation 0 (-10)).2 ≠ [(0, 270), (1, 270), (2, 270)] ∧
    (set_rotation 0 350).2 = [(0, 270), (1, 270), (2, 270)] ∧
    (set_rotation 0 370).2 = [(0, 0), (1, 0), (2, 0)] := by
  decide

/-- C8 at the failing input: for rotation -100 the three ports receive -90,
which is none of 0, 90, 180, 270. -/
theorem set_rotation_minus100 :
    (set_rotation 0 (-100)).2 = [(0, -90), (1, -90), (2, -90)] ∧
    (-90 : Int) ∉ [0, 90, 180, 270] := by
  decide

/-! ### The encoder component -/

/-- The bitrate ceiling is a minimum. -/
theorem encoder_bitrate_eq (state : CAM_STATE) :
    encoder_bitrate state =
      if state.encoding = MMAL_ENCODING_H264 then
        (if state.level = MMAL_VIDEO_LEVEL_H264_4 then min state.bitrate 25000000
         else min state.bitrate 62500000)
      else if state.encoding = MMAL_ENCODING_MJPEG then min state.bitrate 25000000
      else state.bitrate := by
  unfold encoder_bitrate MAX_BITRATE_LEVEL4 MAX_BITRATE_LEVEL42 MAX_BITRATE_MJPEG
  split_ifs <;> omega

theorem enc_intraperiod_agree (hw : EncoderHw) (c c2 : EncCtx) (h : c.agree c2) :
    (enc_intraperiod hw c).agree (enc_intraperiod hw c2) := by
  obtain ⟨hs, hf, he, b, hb⟩ := h
  obtain ⟨st, o, cl, s, e, f⟩ := c
  obtain ⟨st2, o2, cl2, s2, e2, f2⟩ := c2
  simp only at hs hf he hb
  subst hs hf he hb
  simp only [enc_intraperiod, EncCtx.agree]
  split_ifs <;> exact ⟨rfl, rfl, rfl, b, rfl⟩

theorem enc_slices_agree (hw : EncoderHw) (c c2 : EncCtx) (h : c.agree c2) :
    (enc_slices hw c).agree (enc_slices hw c2) := by
  obtain ⟨hs, hf, he, b, hb⟩ := h
  obtain ⟨st, o, cl, s, e, f⟩ := c
  obtain ⟨st2, o2, cl2, s2, e2, f2⟩ := c2
  simp only at hs hf he hb
  subst hs hf he hb
  simp only [enc_slices, EncCtx.agree]
  split_ifs <;> exact ⟨rfl, rfl, rfl, b, rfl⟩

theorem enc_quant_agree (hw : EncoderHw) (c c2 : EncCtx) (h : c.agree c2) :
    (enc_quant hw c).agree (enc_quant hw c2) := by
  obtain ⟨hs, hf, he, b, hb⟩ := h
  obtain ⟨st, o, cl, s, e, f⟩ := c
  obtain ⟨st2, o2, cl2, s2, e2, f2⟩ := c2
  simp only at hs hf he hb
  subst hs hf he hb
  simp only [enc_quant, EncCtx.agree]
  split_ifs <;> exact ⟨rfl, rfl, rfl, b, rfl⟩

theorem enc_profile_agree (hw : EncoderHw) (c c2 : EncCtx) (h : c.agree c2) :
    (enc_profile hw c).agree (enc_profile hw c2) := by
  obtain ⟨hs, hf, he, b, hb⟩ := h
  obtain ⟨st, o, cl, s, e, f⟩ := c
  obtain ⟨st2, o2, cl2, s2, e2, f2⟩ := c2
  simp only at hs hf he hb
  subst hs hf he hb
  simp only [enc_profile, EncCtx.agree, macroblock_rate]
  split_ifs <;> exact ⟨rfl, rfl, rfl, b, rfl⟩

theorem enc_flags_agree (hw : EncoderHw) (c c2 : EncCtx) (h : c.agree c2) :
    (enc_flags hw c).agree (enc_flags hw c2) := by
  obtain ⟨hs, hf, he, b, hb⟩ := h
  obtain ⟨st, o, cl, s, e, f⟩ := c
  obtain ⟨st2, o2, cl2, s2, e2, f2⟩ := c2
  simp only at hs hf he hb
  subst hs hf he hb
  simp only [enc_flags, EncCtx.agree]
  split_ifs <;> exact ⟨rfl, rfl, rfl, b, rfl⟩

theorem enc_enable_agree (hw : EncoderHw) (c c2 : EncCtx) (h : c.agree c2) :
    (enc_enable hw c).agree (enc_enable hw c2) := by
  obtain ⟨hs, hf, he, b, hb⟩ := h
  obtain ⟨st, o, cl, s, e, f⟩ := c
  obtain ⟨st2, o2, cl2, s2, e2, f2⟩ := c2
  simp only at hs hf he hb
  subst hs hf he hb
  simp only [enc_enable, EncCtx.agree]
  split_ifs <;> exact ⟨rfl, rfl, rfl, b, rfl⟩

theorem enc_finish_status (hw : EncoderHw) (c : EncCtx) :
    (enc_finish hw c).status = c.status := by
  unfold enc_finish
  split_ifs <;> rfl

theorem enc_format_agree (hw : EncoderHw) (state : CAM_STATE) (b : Int) :
    (enc_format hw (enc_create hw state)).agree
      (enc_format hw (enc_create hw { state with bitrate := b })) := by
  unfold enc_format enc_create EncCtx.agree
  by_cases h1 : hw.component_create = MMAL_SUCCESS
  · by_cases h2 : hw.input_num = 0 ∨ hw.output_num = 0
    · simp only [h1, h2, ne_eq, not_true_eq_false, if_false, if_true, true_and]
      exact ⟨b, rfl⟩
    · by_cases h3 : hw.format_commit = MMAL_SUCCESS
      · simp only [h1, h2, h3, ne_eq, not_true_eq_false, if_false, Bool.false_eq_true,
          true_and]
        exact ⟨_, rfl⟩
      · simp only [h1, h2, h3, ne_eq, not_true_eq_false, not_false_eq_true, if_false, if_true,
          Bool.false_eq_true, true_and]
        exact ⟨_, rfl⟩
  · simp only [h1, ne_eq, not_false_eq_true, if_true, true_and]
    exact ⟨b, rfl⟩

/-- The returned status does not depend on the requested bitrate. -/
theorem create_encoder_status_bitrate (hw : EncoderHw) (state : CAM_STATE) (b : Int) :
    (create_encoder_component hw { state with bitrate := b }).status =
      (create_encoder_component hw state).status := by
  unfold create_encoder_component
  rw [enc_finish_status, enc_finish_status]
  exact ((enc_enable_agree hw _ _ (enc_flags_agree hw _ _ (enc_profile_agree hw _ _
    (enc_quant_agree hw _ _ (enc_slices_agree hw _ _ (enc_intraperiod_agree hw _ _
      (enc_format_agree hw state b))))))).1).symm

theorem enc_intraperiod_bitrate (hw : EncoderHw) (c : EncCtx) (b : Int)
    (h : c.bitrate_is b) : (enc_intraperiod hw c).bitrate_is b := by
  simp only [enc_intraperiod]
  split_ifs <;> exact h

theorem enc_slices_bitrate (hw : EncoderHw) (c : EncCtx) (b : Int)
    (h : c.bitrate_is b) : (enc_slices hw c).bitrate_is b := by
  simp only [enc_slices]
  split_ifs <;> exact h

theorem enc_quant_bitrate (hw : EncoderHw) (c : EncCtx) (b : Int)
    (h : c.bitrate_is b) : (enc_quant hw c).bitrate_is b := by
  simp only [enc_quant]
  split_ifs <;> exact h

theorem enc_profile_bitrate (hw : EncoderHw) (c : EncCtx) (b : Int)
    (h : c.bitrate_is b) : (enc_profile hw c).bitrate_is b := by
  simp only [enc_profile]
  split_ifs <;> exact h

theorem enc_flags_bitrate (hw : EncoderHw) (c : EncCtx) (b : Int)
    (h : c.bitrate_is b) : (enc_flags hw c).bitrate_is b := by
  simp only [enc_flags]
  split_ifs <;> exact h

theorem enc_enable_bitrate (hw : EncoderHw) (c : EncCtx) (b : Int)
    (h : c.bitrate_is b) : (enc_enable hw c).bitrate_is b := by
  simp only [enc_enable]
  split_ifs <;> exact h

theorem enc_finish_bitrate (hw : EncoderHw) (c : EncCtx) (b : Int)
    (h : c.bitrate_is b) : (enc_finish hw c).bitrate_is b := by
  simp only [enc_finish]
  split_ifs <;> exact h

theorem enc_format_bitrate (hw : EncoderHw) (state : CAM_STATE)
    (hcreate : hw.component_create = MMAL_SUCCESS)
    (hin : hw.input_num ≠ 0) (hout : hw.output_num ≠ 0) :
    (enc_format hw (enc_create hw state)).bitrate_is (encoder_bitrate state) := by
  unfold enc_format enc_create EncCtx.bitrate_is
  simp [hcreate, hin, hout]
  split_ifs <;> simp

/-- Once the encoder exists with its ports, the bitrate stored in the state and
the bitrate of the output port are the clamped bitrate, whatever happens later. -/
theorem create_encoder_bitrate_is (hw : EncoderHw) (state : CAM_STATE)
    (hcreate : hw.component_create = MMAL_SUCCESS)
    (hin : hw.input_num ≠ 0) (hout : hw.output_num ≠ 0) :
    (create_encoder_component hw state).bitrate_is (encoder_bitrate state) := by
  unfold create_encoder_component
  exact enc_finish_bitrate hw _ _ (enc_enable_bitrate hw _ _ (enc_flags_bitrate hw _ _
    (enc_profile_bitrate hw _ _ (enc_quant_bitrate hw _ _ (enc_slices_bitrate hw _ _
      (enc_intraperiod_bitrate hw _ _ (enc_format_bitrate hw state hcreate hin hout)))))))

theorem uint32_of_int_nonneg (x : Int) (h0 : 0 ≤ x) (h1 : x < 4294967296) :
    uint32_of_int x = x.toNat := by
  unfold uint32_of_int
  rw [Int.emod_eq_of_lt h0 h1]

/-- The bitrate ceiling for a requested bitrate that is not negative: once the
encoder component exists with its ports, the bitrate stored in `state->bitrate`
and the bitrate applied to the encoder output format are `min b 25,000,000` for
MJPEG and for H264 at Level 4, and `min b 62,500,000` for H264 at Level 4.2; the
status returned does not depend on the requested bitrate, so a bitrate above the
ceiling never makes creation fail; 90,000,000 becomes 25,000,000 at Level 4 and
62,500,000 at Level 4.2. -/
theorem create_encoder_bitrate_clamp (hw : EncoderHw) (state : CAM_STATE)
    (hcreate : hw.component_create = MMAL_SUCCESS)
    (hin : hw.input_num ≠ 0) (hout : hw.output_num ≠ 0) (hb0 : 0 ≤ state.bitrate) :
    ((state.encoding = MMAL_ENCODING_MJPEG ∨
        (state.encoding = MMAL_ENCODING_H264 ∧ state.level = MMAL_VIDEO_LEVEL_H264_4)) →
      (create_encoder_component hw state).state.bitrate = min state.bitrate 25000000 ∧
      (create_encoder_component hw state).output.map (fun o => o.bitrate) =
        some (min state.bitrate 25000000).toNat) ∧
    ((state.encoding = MMAL_ENCODING_H264 ∧ state.level = MMAL_VIDEO_LEVEL_H264_42) →
      (create_encoder_component hw state).state.bitrate = min state.bitrate 62500000 ∧
      (create_encoder_component hw state).output.map (fun o => o.bitrate) =
        some (min state.bitrate 62500000).toNat) ∧
    (∀ b : Int, (create_encoder_component hw { state with bitrate := b }).status =
      (create_encoder_component hw state).status) ∧
    (state.bitrate = 90000000 → state.encoding = MMAL_ENCODING_H264 →
      (state.level = MMAL_VIDEO_LEVEL_H264_4 →
        (create_encoder_component hw state).state.bitrate = 25000000 ∧
        (create_encoder_component hw state).output.map (fun o => o.bitrate) = some 25000000) ∧
      (state.level = MMAL_VIDEO_LEVEL_H264_42 →
        (create_encoder_component hw state).state.bitrate = 62500000 ∧
        (create_encoder_component hw state).output.map (fun o => o.bitrate) = some 62500000)) := by
  have key := create_encoder_bitrate_is hw state hcreate hin hout
  rw [encoder_bitrate_eq] at key
  have hne : MMAL_ENCODING_MJPEG ≠ MMAL_ENCODING_H264 := by decide
  have hlv : MMAL_VIDEO_LEVEL_H264_42 ≠ MMAL_VIDEO_LEVEL_H264_4 := by decide
  have h25 : uint32_of_int (min state.bitrate 25000000) = (min state.bitrate 25000000).toNat :=
    uint32_of_int_nonneg _ (by omega) (by omega)
  have h62 : uint32_of_int (min state.bitrate 62500000) = (min state.bitrate 62500000).toNat :=
    uint32_of_int_nonneg _ (by omega) (by omega)
  unfold EncCtx.bitrate_is at key
  refine ⟨?_, ?_, fun b => create_encoder_status_bitrate hw state b, ?_⟩
  · rintro (h | ⟨h, hl⟩)
    · rw [h, if_neg hne, if_pos rfl, h25] at key
      exact key
    · rw [if_pos h, if_pos hl, h25] at key
      exact key
  · rintro ⟨h, hl⟩
    rw [if_pos h, hl, if_neg hlv, h62] at key
    exact key
  · intro hb h
    rw [if_pos h, hb] at key
    constructor
    · intro hl
      rw [if_pos hl] at key
      exact key
    · intro hl
      rw [hl, if_neg hlv] at key
      exact key

/-- The bitrate ceiling at the default state with a requested bitrate of
90,000,000 (H264, Level 4): the state and the port end with 25,000,000 and
creation succeeds. -/
theorem create_encoder_bitrate_clamp_witness :
    (create_encoder_component encoder_hw_ok
        { default_state 0 with bitrate := 90000000 }).state.bitrate = 25000000 ∧
    (create_encoder_component encoder_hw_ok
        { default_state 0 with bitrate := 90000000 }).output.map (fun o => o.bitrate) =
      some 25000000 ∧
    (create_encoder_component encoder_hw_ok
        { default_state 0 with bitrate := 90000000 }).status = MMAL_SUCCESS :=
  ⟨(((create_encoder_bitrate_clamp encoder_hw_ok { default_state 0 with bitrate := 90000000 }
      rfl (by decide) (by decide) (by decide)).2.2.2 rfl rfl).1 rfl).1,
   (((create_encoder_bitrate_clamp encoder_hw_ok { default_state 0 with bitrate := 90000000 }
      rfl (by decide) (by decide) (by decide)).2.2.2 rfl rfl).1 rfl).2, by decide⟩

/-- C3 fails on the code for a negative bitrate.  With `state->bitrate = -1`
(H264 at Level 4, every call of the encoder succeeding) creation succeeds and
`state->bitrate` keeps `min (-1) 25,000,000 = -1`, but the assignment of line
892 to the `uint32_t` `format->bitrate` applies 4,294,967,295 to the encoder
output format: not the clamped bitrate, and above the ceiling of 25,000,000. -/
theorem create_encoder_negative_bitrate :
    (default_state 0).encoding = MMAL_ENCODING_H264 ∧
    (default_state 0).level = MMAL_VIDEO_LEVEL_H264_4 ∧
    (create_encoder_component encoder_hw_ok
        { default_state 0 with bitrate := -1 }).status = MMAL_SUCCESS ∧
    (create_encoder_component encoder_hw_ok
        { default_state 0 with bitrate := -1 }).state.bitrate = min (-1) 25000000 ∧
    (create_encoder_component encoder_hw_ok
        { default_state 0 with bitrate := -1 }).output.map (fun o => o.bitrate) =
      some 4294967295 ∧
    ((4294967295 : Nat) : Int) ≠ min (-1) 25000000 ∧ 25000000 < (4294967295 : Nat) := by
  refine ⟨rfl, rfl, by decide, by decide, by decide, by decide, by decide⟩

theorem unable_count_append (t t2 : List Event) :
    unable_count (t ++ t2) = unable_count t + unable_count t2 := by
  unfold unable_count
  exact List.count_append _ _ _

/-- Returning a buffer to a pool and resubmitting on an enabled port: the number
of buffers queued or held, plus the number of logged failures, grows by one (the
returned buffer); without a rejection no failure is logged. -/
theorem resubmit_spec (q : List Nat) (id : Nat) (port : MMAL_PORT_T) (accept : Bool)
    (trace : List Event) (hen : port.is_enabled = true) (hud : port.userdata = true) :
    ∃ q2 port2 trace2,
      resubmit (pool_release (some { queue := q }) id) port accept trace =
        Except.ok (some { queue := q2 }, port2, trace2) ∧
      port2.is_enabled = true ∧ port2.userdata = true ∧
      q2.length + port2.held.length + unable_count trace2 =
        q.length + port.held.length + unable_count trace + 1 ∧
      (accept = true → unable_count trace2 = unable_count trace) := by
  cases q with
  | nil =>
    cases accept
    · refine ⟨[], port, trace ++ [Event.log_unable_to_return_buffer], ?_, hen, hud, ?_, ?_⟩
      · simp [resubmit, pool_release, hen, hud]
      · simp [unable_count_append, unable_count]; omega
      · intro h; cases h
    · refine ⟨[], { port with held := port.held ++ [id] }, trace, ?_, hen, hud, ?_, ?_⟩
      · simp [resubmit, pool_release, hen, hud]
      · simp; omega
      · intro _; rfl
  | cons a t =>
    cases accept
    · refine ⟨t ++ [id], port, trace ++ [Event.log_unable_to_return_buffer], ?_, hen, hud, ?_, ?_⟩
      · simp [resubmit, pool_release, hen, hud]
      · simp [unable_count_append, unable_count]; omega
      · intro h; cases h
    · refine ⟨t ++ [id], { port with held := port.held ++ [a] }, trace, ?_, hen, hud, ?_, ?_⟩
      · simp [resubmit, pool_release, hen, hud]
      · simp; omega
      · intro _; rfl

theorem segment_rotation_pool (state : CAM_STATE) (flags : Nat) (t b : Int) :
    (segment_rotation state flags t b).1.video_encoder_pool = state.video_encoder_pool := by
  simp only [segment_rotation]
  split_ifs <;> rfl

theorem encoder_frame_pool (state : CAM_STATE) (buffer : MMAL_BUFFER_HEADER_T)
    (trace : List Event) :
    (encoder_frame state buffer trace).1.video_encoder_pool = state.video_encoder_pool ∧
    unable_count (encoder_frame state buffer trace).2 = unable_count trace := by
  simp only [encoder_frame]
  split_ifs <;> simp [unable_count_append, unable_count]

theorem still_accumulate_pool (state : CAM_STATE) (buffer : MMAL_BUFFER_HEADER_T) :
    (still_accumulate state buffer).1.encoder_pool = state.encoder_pool := by
  simp only [still_accumulate]
  split_ifs
  · cases state.work_image_data <;> rfl
  · rfl

theorem still_complete_pool (w : World) :
    (still_complete w).state.encoder_pool = w.state.encoder_pool ∧
    (still_complete w).still_port = w.still_port ∧
    unable_count (still_complete w).trace = unable_count w.trace := by
  simp only [still_complete]
  split_ifs <;> simp [unable_count_append, unable_count]

theorem completion_buffer_mem (c : Completion) (held : List Nat) (b : MMAL_BUFFER_HEADER_T)
    (h : c.buffer held = some b) : b.id ∈ held := by
  unfold Completion.buffer at h
  cases hg : held.get? (c.pick % held.length) with
  | none => rw [hg] at h; cases h
  | some id =>
    rw [hg] at h
    have hb : b.id = id := by
      cases h
      rfl
    rw [hb]
    exact List.get?_mem hg

theorem erase_length_succ (held : List Nat) (id : Nat) (h : id ∈ held) :
    (held.erase id).length + 1 = held.length := by
  rw [List.length_erase_of_mem h]
  have : 0 < held.length := List.length_pos_of_mem h
  omega

theorem video_completion_accounted (w : World) (c : Completion) (N : Nat)
    (h : video_accounted w N) :
    ∃ w2, video_completion w c = Except.ok w2 ∧ video_accounted w2 N ∧
      (c.accept = true → unable_count w2.trace = unable_count w.trace) := by
  obtain ⟨hen, hud, q, hq, hsum⟩ := h
  unfold video_completion
  cases hb : c.buffer w.video_port.held with
  | none => exact ⟨w, rfl, ⟨hen, hud, q, hq, hsum⟩, fun _ => rfl⟩
  | some b =>
    have hmem := completion_buffer_mem c _ b hb
    have hlen := erase_length_succ _ _ hmem
    obtain ⟨fp, ft⟩ := encoder_frame_pool
      (segment_rotation w.state b.flags w.now_ms
        (if w.base_time = -1 then w.now_ms else w.base_time)).1 b w.trace
    rw [segment_rotation_pool, hq] at fp
    obtain ⟨q2, port2, trace2, hres, hen2, hud2, hsum2, hacc⟩ :=
      resubmit_spec q b.id { w.video_port with held := w.video_port.held.erase b.id }
        c.accept _ hen hud
    simp only [encoder_buffer_callback, hud, if_true, World.now_ms] at *
    rw [fp, hres]
    refine ⟨_, rfl, ⟨hen2, hud2, q2, rfl, ?_⟩, ?_⟩
    · simp only at hsum2 ⊢
      omega
    · intro ha
      simp only
      rw [hacc ha, ft]

theorem still_completion_accounted (w : World) (c : Completion) (N : Nat)
    (h : still_accounted w N) :
    ∃ w2, still_completion w c = Except.ok w2 ∧ still_accounted w2 N ∧
      (c.accept = true → unable_count w2.trace = unable_count w.trace) := by
  obtain ⟨hen, hud, q, hq, hsum⟩ := h
  unfold still_completion
  cases hb : c.buffer w.still_port.held with
  | none => exact ⟨w, rfl, ⟨hen, hud, q, hq, hsum⟩, fun _ => rfl⟩
  | some b =>
    have hmem := completion_buffer_mem c _ b hb
    have hlen := erase_length_succ _ _ hmem
    have fp := still_accumulate_pool w.state b
    rw [hq] at fp
    obtain ⟨q2, port2, trace2, hres, hen2, hud2, hsum2, hacc⟩ :=
      resubmit_spec q b.id { w.still_port with held := w.still_port.held.erase b.id }
        c.accept w.trace hen hud
    simp only [still_encoder_buffer_callback, hud, if_true] at *
    rw [fp, hres]
    simp only
    split_ifs
    · obtain ⟨c1, c2, c3⟩ := still_complete_pool
        { w with still_port := port2, trace := trace2,
                 state := { (still_accumulate w.state b).1 with
                            encoder_pool := some { queue := q2 } } }
      refine ⟨_, rfl, ⟨?_, ?_, q2, ?_, ?_⟩, ?_⟩
      · rw [c2]; exact hen2
      · rw [c2]; exact hud2
      · rw [c1]
      · rw [c2, c3]
        simp only at hsum2 ⊢
        omega
      · intro ha
        rw [c3]
        exact hacc ha
    · refine ⟨_, rfl, ⟨hen2, hud2, q2, rfl, ?_⟩, ?_⟩
      · simp only at hsum2 ⊢
        omega
      · intro ha
        exact hacc ha

theorem video_completions_accounted (cs : List Completion) :
    ∀ (w : World) (N : Nat), video_accounted w N →
      ∃ w2, video_completions w cs = Except.ok w2 ∧ video_accounted w2 N ∧
        ((∀ c ∈ cs, c.accept = true) → unable_count w2.trace = unable_count w.trace) := by
  induction cs with
  | nil => exact fun w N h => ⟨w, rfl, h, fun _ => rfl⟩
  | cons c rest ih =>
    intro w N h
    obtain ⟨w1, h1, a1, u1⟩ := video_completion_accounted w c N h
    obtain ⟨w2, h2, a2, u2⟩ := ih w1 N a1
    refine ⟨w2, ?_, a2, ?_⟩
    · simp only [video_completions, h1, h2]
    · intro hall
      rw [u2 (fun x hx => hall x (List.mem_cons_of_mem _ hx)),
        u1 (hall c (List.mem_cons_self _ _))]

theorem still_completions_accounted (cs : List Completion) :
    ∀ (w : World) (N : Nat), still_accounted w N →
      ∃ w2, still_completions w cs = Except.ok w2 ∧ still_accounted w2 N ∧
        ((∀ c ∈ cs, c.accept = true) → unable_count w2.trace = unable_count w.trace) := by
  induction cs with
  | nil => exact fun w N h => ⟨w, rfl, h, fun _ => rfl⟩
  | cons c rest ih =>
    intro w N h
    obtain ⟨w1, h1, a1, u1⟩ := still_completion_accounted w c N h
    obtain ⟨w2, h2, a2, u2⟩ := ih w1 N a1
    refine ⟨w2, ?_, a2, ?_⟩
    · simp only [still_completions, h1, h2]
    · intro hall
      rw [u2 (fun x hx => hall x (List.mem_cons_of_mem _ hx)),
        u1 (hall c (List.mem_cons_self _ _))]

/-- C1 as amended: for every capacity `N` and every sequence of completions on an
enabled port starting from a pre-filled pipe (hence also after each callback of
the sequence), both callbacks return, and the buffers queued in the pool plus
the buffers in flight plus the resubmissions the port has rejected (each logged
as "Unable to return a buffer") add up to `N`; as long as the port accepts
every resubmitted buffer, pool plus in flight is exactly `N`. -/
theorem pool_accounting (N : Nat) (w : World) (cs : List Completion) :
    (video_prefilled w N →
      ∃ w2, video_completions w cs = Except.ok w2 ∧
        pool_length w2.state.video_encoder_pool + w2.video_port.held.length +
          unable_count w2.trace = N ∧
        ((∀ c ∈ cs, c.accept = true) →
          pool_length w2.state.video_encoder_pool + w2.video_port.held.length = N)) ∧
    (still_prefilled w N →
      ∃ w2, still_completions w cs = Except.ok w2 ∧
        pool_length w2.state.encoder_pool + w2.still_port.held.length +
          unable_count w2.trace = N ∧
        ((∀ c ∈ cs, c.accept = true) →
          pool_length w2.state.encoder_pool + w2.still_port.held.length = N)) := by
  constructor
  · rintro ⟨hen, hud, hlen, hpool, hun⟩
    have hacc : video_accounted w N := ⟨hen, hud, [], hpool, by simp [hlen, hun]⟩
    obtain ⟨w2, h2, ⟨_, _, q, hq, hsum⟩, hu⟩ := video_completions_accounted cs w N hacc
    refine ⟨w2, h2, ?_, ?_⟩
    · rw [hq]
      exact hsum
    · intro hall
      have := hu hall
      rw [hq]
      simp only [pool_length]
      omega
  · rintro ⟨hen, hud, hlen, hpool, hun⟩
    have hacc : still_accounted w N := ⟨hen, hud, [], hpool, by simp [hlen, hun]⟩
    obtain ⟨w2, h2, ⟨_, _, q, hq, hsum⟩, hu⟩ := still_completions_accounted cs w N hacc
    refine ⟨w2, h2, ?_, ?_⟩
    · rw [hq]
      exact hsum
    · intro hall
      have := hu hall
      rw [hq]
      simp only [pool_length]
      omega

theorem prefilled_world_video (N : Nat) : video_prefilled (prefilled_world N) N := by
  simp [video_prefilled, prefilled_world, World.start, unable_count]

theorem prefilled_world_still (N : Nat) : still_prefilled (prefilled_world N) N := by
  simp [still_prefilled, prefilled_world, World.start, unable_count]

/-- C1 as amended, at a pipe of 3 buffers and two completions the port accepts:
the callbacks return and pool plus in flight is 3. -/
theorem pool_accounting_witness :
    ∃ w2, video_completions (prefilled_world 3)
        [sample_completion true, sample_completion true] = Except.ok w2 ∧
      pool_length w2.state.video_encoder_pool + w2.video_port.held.length = 3 := by
  obtain ⟨w2, h, _, hall⟩ :=
    (pool_accounting 3 (prefilled_world 3) [sample_completion true, sample_completion true]).1
      (prefilled_world_video 3)
  exact ⟨w2, h, hall (by simp [sample_completion])⟩

/-- C1 as stated fails: from a pipe pre-filled with one buffer, a single
completion whose resubmission the port rejects leaves no buffer in the pool and
none in flight, on the video port and on the still port alike. -/
theorem pool_conservation_fails_on_reject :
    video_prefilled (prefilled_world 1) 1 ∧ still_prefilled (prefilled_world 1) 1 ∧
    (∃ w2, video_completions (prefilled_world 1) [sample_completion false] = Except.ok w2 ∧
      pool_length w2.state.video_encoder_pool + w2.video_port.held.length = 0) ∧
    (∃ w2, still_completions (prefilled_world 1) [sample_completion false] = Except.ok w2 ∧
      pool_length w2.state.encoder_pool + w2.still_port.held.length = 0) := by
  refine ⟨prefilled_world_video 1, prefilled_world_still 1, ⟨_, rfl, ?_⟩, ⟨_, rfl, ?_⟩⟩
  · rfl
  · rfl

/-! ### Segment rotation -/

theorem resubmit_ok (p : MMAL_POOL_T) (port : MMAL_PORT_T) (accept : Bool)
    (trace : List Event) (hud : port.userdata = true) :
    ∃ pool2 port2 trace2,
      resubmit (some p) port accept trace = Except.ok (pool2, port2, trace2) := by
  obtain ⟨q⟩ := p
  by_cases hen : port.is_enabled = true
  · cases q with
    | nil => exact ⟨_, _, _, by simp only [resubmit, hen, hud]; rfl⟩
    | cons a t =>
      cases accept
      · exact ⟨_, _, _, by simp only [resubmit, hen, hud]; rfl⟩
      · exact ⟨_, _, _, by simp only [resubmit, hen, hud]; rfl⟩
  · exact ⟨_, _, _, by simp only [resubmit, hen]; rfl⟩

theorem encoder_frame_segment (state : CAM_STATE) (buffer : MMAL_BUFFER_HEADER_T)
    (trace : List Event) :
    (encoder_frame state buffer trace).1.segmentNumber = state.segmentNumber := by
  simp only [encoder_frame]
  split_ifs <;> rfl

/-- With userdata set and a pool present the video callback returns, and the
segment number it leaves is the one `segment_rotation` computes. -/
theorem encoder_buffer_callback_segment (w : World) (buffer : MMAL_BUFFER_HEADER_T)
    (accept : Bool) (p : MMAL_POOL_T) (hud : w.video_port.userdata = true)
    (hpool : w.state.video_encoder_pool = some p) :
    ∃ w2, encoder_buffer_callback w buffer accept = Except.ok w2 ∧
      w2.state.segmentNumber =
        (segment_rotation w.state buffer.flags w.now_ms
          (if w.base_time = -1 then w.now_ms else w.base_time)).1.segmentNumber := by
  obtain ⟨fp, _⟩ := encoder_frame_pool
    (segment_rotation w.state buffer.flags w.now_ms
      (if w.base_time = -1 then w.now_ms else w.base_time)).1 buffer w.trace
  rw [segment_rotation_pool, hpool] at fp
  obtain ⟨pool2, port2, trace2, hres⟩ :=
    resubmit_ok { queue := p.queue ++ [buffer.id] } w.video_port accept
      (encoder_frame (segment_rotation w.state buffer.flags w.now_ms
        (if w.base_time = -1 then w.now_ms else w.base_time)).1 buffer w.trace).2 hud
  simp only [encoder_buffer_callback, hud, if_true]
  rw [fp]
  simp only [pool_release, Option.map]
  rw [hres]
  exact ⟨_, rfl, encoder_frame_segment _ _ _⟩

/-- C2: when `encoder_buffer_callback` rotates the segment (the guard
`rotation_due` holds), with segmentWrap W > 0 and 1 <= segmentNumber s <= W the
new segmentNumber is s+1 if s < W and 1 if s = W, so it stays in [1, W] (after
3 with wrap 3 comes 1); with segmentWrap 0 it is always s+1. -/
theorem segment_wrap (w : World) (buffer : MMAL_BUFFER_HEADER_T) (accept : Bool)
    (p : MMAL_POOL_T) (hud : w.video_port.userdata = true)
    (hpool : w.state.video_encoder_pool = some p) (hdue : rotation_due w buffer) :
    ∃ w2, encoder_buffer_callback w buffer accept = Except.ok w2 ∧
      (0 < w.state.segmentWrap → 1 ≤ w.state.segmentNumber →
        w.state.segmentNumber ≤ w.state.segmentWrap →
          (w.state.segmentNumber < w.state.segmentWrap →
            w2.state.segmentNumber = w.state.segmentNumber + 1) ∧
          (w.state.segmentNumber = w.state.segmentWrap → w2.state.segmentNumber = 1) ∧
          1 ≤ w2.state.segmentNumber ∧ w2.state.segmentNumber ≤ w.state.segmentWrap) ∧
      (w.state.segmentWrap = 0 → w2.state.segmentNumber = w.state.segmentNumber + 1) ∧
      (w.state.segmentWrap = 3 → w.state.segmentNumber = 3 → w2.state.segmentNumber = 1) := by
  obtain ⟨w2, hret, hseg⟩ := encoder_buffer_callback_segment w buffer accept p hud hpool
  have hrot : (segment_rotation w.state buffer.flags w.now_ms
      (if w.base_time = -1 then w.now_ms else w.base_time)).1.segmentNumber =
      if w.state.segmentWrap ≠ 0 ∧ w.state.segmentNumber + 1 > w.state.segmentWrap then 1
      else w.state.segmentNumber + 1 := by
    unfold rotation_due at hdue
    simp only [segment_rotation]
    rw [if_pos hdue]
  rw [hrot] at hseg
  refine ⟨w2, hret, ?_, ?_, ?_⟩
  · intro hW h1 hle
    refine ⟨?_, ?_, ?_, ?_⟩
    · intro hlt
      rw [hseg, if_neg (by omega)]
    · intro heq
      rw [hseg, if_pos (by omega)]
    · rw [hseg]; split_ifs <;> omega
    · rw [hseg]; split_ifs <;> omega
  · intro hW
    rw [hseg, if_neg (by omega)]
  · intro hW hs
    rw [hseg, if_pos (by omega)]

/-- C2 at segmentNumber 3, wrap 3: the rotation yields 1. -/
theorem segment_wrap_witness :
    ∃ w2, encoder_buffer_callback wrap_world config_buffer true = Except.ok w2 ∧
      w2.state.segmentNumber = 1 := by
  obtain ⟨w2, h, _, _, h3⟩ :=
    segment_wrap wrap_world config_buffer true { queue := [] } rfl rfl
      (by unfold rotation_due; decide)
  exact ⟨w2, h, h3 rfl rfl⟩

/-! ### Video capture timing -/

theorem sleeps_zero (w : World) : sleeps w 0 = w := by
  simp [sleeps]

theorem vcos_sleep_sleeps (w : World) (n : Nat) :
    sleeps (vcos_sleep w ABORT_INTERVAL) n = sleeps w (n + 1) := by
  have h100 : uint32_of_int ABORT_INTERVAL = 100 := by decide
  simp only [sleeps, vcos_sleep, h100, List.replicate_succ, List.append_assoc,
    List.singleton_append]
  congr 1
  omega

/-- Without an abort the loop of `pause_and_test_abort` sleeps
ceil((pause - wait) / 100) intervals and yields 0. -/
theorem pause_loop_quiet (fuel : Nat) :
    ∀ (pause wait : Int) (w : World), w.state.abort = 0 → w.abort_time = none →
      ((pause - wait + 99) / 100).toNat < fuel →
      pause_loop fuel pause wait w = (0, sleeps w ((pause - wait + 99) / 100).toNat) := by
  induction fuel with
  | zero => intro pause wait w _ _ h; omega
  | succ fuel ih =>
    intro pause wait w ha ht hf
    have hseen : (vcos_sleep w ABORT_INTERVAL).abort_seen = false := by
      simp [World.abort_seen, vcos_sleep, ha, ht]
    by_cases hlt : wait < pause
    · have hk : ((pause - wait + 99) / 100).toNat =
          ((pause - (wait + ABORT_INTERVAL) + 99) / 100).toNat + 1 := by
        unfold ABORT_INTERVAL
        omega
      simp only [pause_loop, if_pos hlt, hseen]
      rw [ih pause (wait + ABORT_INTERVAL) (vcos_sleep w ABORT_INTERVAL) ha ht (by omega),
        vcos_sleep_sleeps, ← hk]
      rfl
    · have hk : ((pause - wait + 99) / 100).toNat = 0 := by omega
      simp only [pause_loop, if_neg hlt]
      rw [hk, sleeps_zero]

/-- Without an abort `pause_and_test_abort` returns 0 after sleeping
ceil(pause / 100) intervals of 100 ms. -/
theorem pause_and_test_abort_quiet (w : World) (pause : Int)
    (ha : w.state.abort = 0) (ht : w.abort_time = none) :
    pause_and_test_abort w pause = (0, sleeps w ((pause + 99) / 100).toNat) := by
  unfold pause_and_test_abort
  split_ifs with h0
  · rw [h0]
    simp [sleeps_zero]
  · have := pause_loop_quiet (pause.toNat + 1) pause 0 w ha ht (by omega)
    simpa using this

/-- With every call succeeding, sending `n` buffers of the pool moves the first
`n` headers of the queue to the port and changes nothing else. -/
theorem capture_send_all_ok (n : Nat) :
    ∀ (w : World) (q : List Nat), w.hw_status = [] →
      w.state.video_encoder_pool = some { queue := q } → n ≤ q.length →
      capture_send_all n w =
        (none, { w with
                 state := { w.state with video_encoder_pool := some { queue := q.drop n } }
                 video_port := { w.video_port with held := w.video_port.held ++ q.take n } }) := by
  induction n with
  | zero =>
    intro w q _ hq _
    simp only [capture_send_all, List.drop_zero, List.take_zero, List.append_nil, ← hq]
  | succ n ih =>
    intro w q hs hq hn
    cases q with
    | nil => simp at hn
    | cons b rest =>
      simp only [capture_send_all, hq, World.pop_status, hs]
      rw [ih _ rest rfl rfl (by simpa using hn)]
      simp

theorem capture_timeline_append (a b : List Event) :
    ∀ t, capture_timeline t (a ++ b) =
      capture_timeline t a ++ capture_timeline (t + slept a) b := by
  induction a with
  | nil => intro t; simp [capture_timeline, slept]
  | cons e rest ih =>
    intro t
    cases e <;> simp [capture_timeline, slept, ih, Nat.add_assoc]

theorem slept_append (a b : List Event) : slept (a ++ b) = slept a + slept b := by
  induction a with
  | nil => simp [slept]
  | cons e rest ih => cases e <;> simp [slept, ih, Nat.add_assoc]

/-- In the timed session the toggle block does not return early; it flips the
capture state, records it, and leaves clock, statics and session untouched. -/
theorem capture_toggle_timed (w : World) (ic : Int) (h : timed_session w) :
    (capture_toggle w ic).1 = none ∧
    timed_session (capture_toggle w ic).2.1 ∧
    (capture_toggle w ic).2.1.state.bCapturing = lnot w.state.bCapturing ∧
    (capture_toggle w ic).2.1.change_complete_time = w.change_complete_time ∧
    (capture_toggle w ic).2.1.now_us = w.now_us ∧
    ∃ t, (capture_toggle w ic).2.1.trace = w.trace ++ t ∧ slept t = 0 ∧
      ∀ T, capture_timeline T t = [(T, lnot w.state.bCapturing)] := by
  obtain ⟨hm, hon, hoff, hto, habort, hat, hst⟩ := h
  simp only [capture_toggle, World.pop_status, hst, timed_session]
  split_ifs <;>
    first
    | exact ⟨rfl, ⟨hm, hon, hoff, hto, habort, hat, rfl⟩, rfl, rfl, rfl,
        [Event.set_video_capture (lnot w.state.bCapturing)], rfl, rfl, fun _ => rfl⟩
    | exact ⟨rfl, ⟨hm, hon, hoff, hto, habort, hat, rfl⟩, rfl, rfl, rfl,
        [Event.set_video_capture (lnot w.state.bCapturing), Event.request_i_frame],
        by simp, rfl, fun _ => rfl⟩
    | (exfalso; simp_all)

/-- In the timed session `wait_for_next_change` fixes the completion time on its
first call, sleeps five intervals of 100 ms, and reports "continue" exactly when
the completion time had not been reached on entry. -/
theorem wait_for_next_change_timed (fuel : Nat) (w : World) (h : timed_session w) :
    wait_for_next_change fuel w =
      Except.ok
        ((if w.now_ms <
            (if w.change_complete_time = -1 then w.now_ms + 1500 else w.change_complete_time)
          then 1 else 0),
         sleeps { w with change_complete_time :=
                    (if w.change_complete_time = -1 then w.now_ms + 1500
                     else w.change_complete_time) } 5) := by
  obtain ⟨hm, hon, hoff, hto, habort, hat, hst⟩ := h
  have hk : ∀ (a c : Int), (if a ≥ c ∧ (1500 : Int) ≠ 0 then (0 : Int) else 1) =
      if a < c then 1 else 0 := by
    intro a c
    split_ifs <;> first | rfl | omega
  have h5 : (((500 : Int) + 99) / 100).toNat = 5 := by decide
  simp only [wait_for_next_change, hm, hto, hon, hoff]
  simp only [WAIT_METHOD_TIMED, WAIT_METHOD_NONE, WAIT_METHOD_FOREVER]
  simp only [if_true, ite_self]
  have hp := pause_and_test_abort_quiet
    { w with change_complete_time :=
        (if w.change_complete_time = -1 then w.now_ms + 1500 else w.change_complete_time) }
    500 habort hat
  rw [if_neg (by decide), if_neg (by decide), hp, h5, hk]
  simp

/-- One round of the capture loop in the timed session. -/
theorem capture_loop_timed (fuel : Nat) (w : World) (ic : Int) (h : timed_session w) :
    ∃ w1 ic1,
      capture_loop (fuel + 1) w ic =
        (if w.now_ms <
            (if w.change_complete_time = -1 then w.now_ms + 1500 else w.change_complete_time)
         then capture_loop fuel w1 ic1 else Except.ok (none, w1)) ∧
      timed_session w1 ∧
      w1.state.bCapturing = lnot w.state.bCapturing ∧
      w1.change_complete_time =
        (if w.change_complete_time = -1 then w.now_ms + 1500 else w.change_complete_time) ∧
      w1.now_us = w.now_us + 500000 ∧
      ∃ t, w1.trace = w.trace ++ t ∧ slept t = 500 ∧
        ∀ T, capture_timeline T t = [(T, lnot w.state.bCapturing)] := by
  obtain ⟨hnone, hsess, hcap, hcct, hnow, t, htr, hsl, htl⟩ := capture_toggle_timed w ic h
  have hms : (capture_toggle w ic).2.1.now_ms = w.now_ms := by
    unfold World.now_ms
    rw [hnow]
  refine ⟨sleeps { (capture_toggle w ic).2.1 with change_complete_time :=
      (if w.change_complete_time = -1 then w.now_ms + 1500 else w.change_complete_time) } 5,
    (capture_toggle w ic).2.2, ?_, ?_, ?_, ?_, ?_, ?_⟩
  · simp only [capture_loop, hnone]
    rw [wait_for_next_change_timed fuel _ hsess, hms, hcct]
    simp only
    split_ifs <;> simp_all
  · obtain ⟨hm, hon, hoff, hto, habort, hat, hst⟩ := hsess
    exact ⟨hm, hon, hoff, hto, habort, hat, hst⟩
  · exact hcap
  · rfl
  · simp only [sleeps, hnow]
  · refine ⟨t ++ List.replicate 5 (Event.sleep 100), ?_, ?_, ?_⟩
    · simp only [sleeps, htr, List.append_assoc]
    · rw [slept_append, hsl]
      rfl
    · intro T
      rw [capture_timeline_append, htl]
      rfl

/-- C10: in a video session with waitMethod = Timed, onTime = offTime = 500,
timeout = 1500, initially paused, never aborted, sleeps lasting exactly their
duration and every hardware call succeeding, `capture` returns; it sets the
capture state to Running at 0 ms, Paused at 500 ms and Running at 1000 ms, which
are all the changes before the timeout of 1500 ms elapses (start, then two
toggles, each phase 500 ms long).  At 1500 ms the loop toggles once more, to
Paused, sleeps a last off-time and ends at 2000 ms. -/
theorem timed_cycle (w : World) (p : MMAL_POOL_T) (fuel : Nat)
    (hsess : timed_session w) (hcap : w.state.bCapturing = 0)
    (hct : w.change_complete_time = -1)
    (hpool : w.state.video_encoder_pool = some p) (htr : w.trace = []) :
    ∃ w2, capture (fuel + 4) w = Except.ok (none, w2) ∧
      capture_timeline 0 w2.trace = [(0, 1), (500, 0), (1000, 1), (1500, 0)] ∧
      (capture_timeline 0 w2.trace).filter (fun e => decide (e.1 < 1500)) =
        [(0, 1), (500, 0), (1000, 1)] ∧
      w2.now_us = w.now_us + 2000000 := by
  obtain ⟨q⟩ := p
  have hsess0 := hsess
  obtain ⟨hm, hon, hoff, hto, habort, hat, hst⟩ := hsess
  -- the pool is sent to the port
  obtain ⟨w0, hw0⟩ : ∃ w0 : World, w0 = { w with
      state := { w.state with video_encoder_pool := some { queue := q.drop q.length } }
      video_port := { w.video_port with held := w.video_port.held ++ q.take q.length } } :=
    ⟨_, rfl⟩
  have hsend := capture_send_all_ok q.length w q hst hpool le_rfl
  rw [← hw0] at hsend
  have s0 : timed_session w0 := by
    rw [hw0]
    exact ⟨hm, hon, hoff, hto, habort, hat, hst⟩
  have b0 : w0.state.bCapturing = 0 := by rw [hw0]; exact hcap
  have c0 : w0.change_complete_time = -1 := by rw [hw0]; exact hct
  have n0 : w0.now_us = w.now_us := by rw [hw0]
  have tr0 : w0.trace = [] := by rw [hw0]; exact htr
  clear hw0
  simp only [capture, hpool]
  rw [hsend]
  simp only
  -- round 1
  obtain ⟨w1, ic1, e1, s1, b1, c1, n1, t1, tr1, sl1, tl1⟩ :=
    capture_loop_timed (fuel + 3) w0 w0.state.bCapturing s0
  simp only [World.now_ms, c0, if_true, b0, tr0, n0, List.nil_append] at e1 b1 c1 n1 tr1 tl1
  rw [show fuel + 4 = fuel + 3 + 1 from rfl, b0, e1, if_pos (by omega)]
  -- round 2
  have hC : ((w.now_us / 1000 : Nat) : Int) + 1500 ≠ -1 := by omega
  obtain ⟨w2, ic2, e2, s2, b2, c2, n2, t2, tr2, sl2, tl2⟩ := capture_loop_timed (fuel + 2) w1 ic1 s1
  simp only [World.now_ms, c1, n1, b1, if_neg hC] at e2 b2 c2 n2 tl2
  rw [show fuel + 3 = fuel + 2 + 1 from rfl, e2, if_pos (by omega)]
  -- round 3
  obtain ⟨w3, ic3, e3, s3, b3, c3, n3, t3, tr3, sl3, tl3⟩ := capture_loop_timed (fuel + 1) w2 ic2 s2
  simp only [World.now_ms, c2, n2, b2, if_neg hC] at e3 b3 c3 n3 tl3
  rw [show fuel + 2 = fuel + 1 + 1 from rfl, e3, if_pos (by omega)]
  -- round 4
  obtain ⟨w4, ic4, e4, s4, b4, c4, n4, t4, tr4, sl4, tl4⟩ := capture_loop_timed fuel w3 ic3 s3
  simp only [World.now_ms, c3, n3, b3, if_neg hC] at e4 b4 c4 n4 tl4
  rw [e4, if_neg (by omega)]
  have htrace : w4.trace = t1 ++ (t2 ++ (t3 ++ t4)) := by
    rw [tr4, tr3, tr2, tr1]
    simp only [List.append_assoc]
  have htl : capture_timeline 0 w4.trace = [(0, 1), (500, 0), (1000, 1), (1500, 0)] := by
    rw [htrace, capture_timeline_append, capture_timeline_append, capture_timeline_append,
      tl1, tl2, tl3, tl4, sl1, sl2, sl3]
    rfl
  refine ⟨w4, rfl, htl, ?_, ?_⟩
  · rw [htl]
    rfl
  · omega

/-! ### Timelapse pacing -/

/-- For a non-negative lateness and a positive interval the C quotient is the
floor of the rational quotient. -/
theorem tdiv_eq_floor (L T : Int) (hL : 0 ≤ L) (hT : 0 < T) :
    Int.tdiv L T = ⌊(L : ℚ) / (T : ℚ)⌋ := by
  rw [Int.tdiv_eq_ediv hL (by omega)]
  symm
  rw [Int.floor_eq_iff]
  have hpos : (0 : ℚ) < (T : ℚ) := by exact_mod_cast hT
  have hmod := Int.emod_add_ediv L T
  have hlt := Int.emod_lt_of_pos L hT
  have hnn := Int.emod_nonneg L (by omega : T ≠ 0)
  have hLq : (L : ℚ) = ((L % T : Int) : ℚ) + (T : ℚ) * ((L / T : Int) : ℚ) := by
    exact_mod_cast hmod.symm
  have hm0 : (0 : ℚ) ≤ ((L % T : Int) : ℚ) := by exact_mod_cast hnn
  have hm1 : ((L % T : Int) : ℚ) < (T : ℚ) := by exact_mod_cast hlt
  constructor
  · rw [le_div_iff₀ hpos]
    nlinarith
  · rw [div_lt_iff₀ hpos]
    nlinarith

/-- The late-skip branch of the timelapse case, for a lateness of at least half
an interval (the guard of the code), in terms of the C expressions. -/
theorem wait_for_next_frame_late (w : World) (frame : Int)
    (hm : w.state.frameNextMethod = FRAME_NEXT_TIMELAPSE)
    (hnf : w.next_frame_ms ≠ -1) (hlate : w.next_frame_ms - w.now_ms < 0)
    (hhalf : ¬ (-(w.next_frame_ms - w.now_ms) < Int.tdiv w.state.timelapse 2)) :
    ∃ keep w2,
      wait_for_next_frame w frame =
        Except.ok (keep,
          frame + 1 + timelapse_nskip (w.next_frame_ms - w.now_ms) w.state.timelapse, w2) ∧
      w2.next_frame_ms = w.next_frame_ms +
        (timelapse_nskip (w.next_frame_ms - w.now_ms) w.state.timelapse + 1) * w.state.timelapse ∧
      w2.trace = w.trace ++
        [Event.sleep (uint32_of_int (w.next_frame_ms - w.now_ms +
          timelapse_nskip (w.next_frame_ms - w.now_ms) w.state.timelapse * w.state.timelapse))] := by
  simp only [wait_for_next_frame, hm]
  rw [if_neg (by decide), if_neg (by decide), if_pos trivial]
  simp only [timelapse_wait, if_neg hnf, if_pos hlate, if_neg hhalf, vcos_sleep]
  exact ⟨_, _, rfl, rfl, rfl⟩

/-- C4: in Timelapse mode with interval T > 0, for every lateness L (current
time minus scheduled next-frame time) of more than half an interval, the skip
count `nskip` that `wait_for_next_frame` computes is exactly 1 + floor(L / T);
the function returns, having added it to the frame index (on top of the
unconditional increment), slept `nskip * T - L` and moved the schedule by
`(nskip + 1) * T`. -/
theorem timelapse_skip_count (w : World) (frame : Int)
    (hm : w.state.frameNextMethod = FRAME_NEXT_TIMELAPSE)
    (hT : 0 < w.state.timelapse) (hnf : w.next_frame_ms ≠ -1)
    (hlate : w.state.timelapse < 2 * (w.now_ms - w.next_frame_ms)) :
    timelapse_nskip (w.next_frame_ms - w.now_ms) w.state.timelapse =
      1 + ⌊((w.now_ms - w.next_frame_ms : Int) : ℚ) / (w.state.timelapse : ℚ)⌋ ∧
    ∃ keep w2,
      wait_for_next_frame w frame =
        Except.ok (keep, frame + 1 +
          (1 + ⌊((w.now_ms - w.next_frame_ms : Int) : ℚ) / (w.state.timelapse : ℚ)⌋), w2) ∧
      w2.next_frame_ms = w.next_frame_ms +
        ((1 + ⌊((w.now_ms - w.next_frame_ms : Int) : ℚ) / (w.state.timelapse : ℚ)⌋) + 1) *
          w.state.timelapse ∧
      w2.trace = w.trace ++
        [Event.sleep (uint32_of_int
          ((1 + ⌊((w.now_ms - w.next_frame_ms : Int) : ℚ) / (w.state.timelapse : ℚ)⌋) *
            w.state.timelapse - (w.now_ms - w.next_frame_ms)))] := by
  have hL : 0 ≤ w.now_ms - w.next_frame_ms := by omega
  have hn : timelapse_nskip (w.next_frame_ms - w.now_ms) w.state.timelapse =
      1 + ⌊((w.now_ms - w.next_frame_ms : Int) : ℚ) / (w.state.timelapse : ℚ)⌋ := by
    unfold timelapse_nskip
    rw [neg_sub, tdiv_eq_floor _ _ hL hT]
  have hhalf : ¬ (-(w.next_frame_ms - w.now_ms) < Int.tdiv w.state.timelapse 2) := by
    rw [Int.tdiv_eq_ediv (by omega) (by omega)]
    omega
  obtain ⟨keep, w2, hret, hsched, htrace⟩ :=
    wait_for_next_frame_late w frame hm hnf (by omega) hhalf
  rw [hn] at hret hsched htrace
  refine ⟨hn, keep, w2, hret, hsched, ?_⟩
  have harg : w.next_frame_ms - w.now_ms +
      (1 + ⌊((w.now_ms - w.next_frame_ms : Int) : ℚ) / (w.state.timelapse : ℚ)⌋) *
        w.state.timelapse =
      (1 + ⌊((w.now_ms - w.next_frame_ms : Int) : ℚ) / (w.state.timelapse : ℚ)⌋) *
        w.state.timelapse - (w.now_ms - w.next_frame_ms) := by
    ring
  rw [htrace, harg]

/-- C4 at interval 1000 and lateness 2500: the skip count is 3. -/
theorem timelapse_skip_count_witness :
    timelapse_nskip (late_world.next_frame_ms - late_world.now_ms) late_world.state.timelapse =
      1 + ⌊((late_world.now_ms - late_world.next_frame_ms : Int) : ℚ) /
            (late_world.state.timelapse : ℚ)⌋ :=
  (timelapse_skip_count late_world 7 rfl (by decide) (by decide) (by decide)).1

/-- C5 as amended: in the late-skip case of Timelapse mode (interval T > 0,
lateness L of more than half an interval) `wait_for_next_frame` returns with the
frame index advanced by 2 + floor(L / T): the unconditional increment plus the
skip count 1 + floor(L / T).  For interval 1000 and lateness 2500 that is 4. -/
theorem timelapse_frame_advance (w : World) (frame : Int)
    (hm : w.state.frameNextMethod = FRAME_NEXT_TIMELAPSE)
    (hT : 0 < w.state.timelapse) (hnf : w.next_frame_ms ≠ -1)
    (hlate : w.state.timelapse < 2 * (w.now_ms - w.next_frame_ms)) :
    (∃ keep w2, wait_for_next_frame w frame =
      Except.ok (keep,
        frame + (2 + ⌊((w.now_ms - w.next_frame_ms : Int) : ℚ) / (w.state.timelapse : ℚ)⌋),
        w2)) ∧
    (w.state.timelapse = 1000 → w.now_ms - w.next_frame_ms = 2500 →
      ∃ keep w2, wait_for_next_frame w frame = Except.ok (keep, frame + 4, w2)) := by
  have hL : 0 ≤ w.now_ms - w.next_frame_ms := by omega
  have hhalf : ¬ (-(w.next_frame_ms - w.now_ms) < Int.tdiv w.state.timelapse 2) := by
    rw [Int.tdiv_eq_ediv (by omega) (by omega)]
    omega
  obtain ⟨keep, w2, hret, _, _⟩ := wait_for_next_frame_late w frame hm hnf (by omega) hhalf
  have hadd : frame + 1 + timelapse_nskip (w.next_frame_ms - w.now_ms) w.state.timelapse =
      frame + (2 + ⌊((w.now_ms - w.next_frame_ms : Int) : ℚ) / (w.state.timelapse : ℚ)⌋) := by
    unfold timelapse_nskip
    rw [neg_sub, tdiv_eq_floor _ _ hL hT]
    ring
  rw [hadd] at hret
  refine ⟨⟨keep, w2, hret⟩, ?_⟩
  intro h1000 h2500
  refine ⟨keep, w2, ?_⟩
  rw [hret, h1000, h2500]
  have hfl : ⌊(((2500 : Int) : ℚ)) / (((1000 : Int) : ℚ))⌋ = 2 := by
    rw [Int.floor_eq_iff]
    norm_num
  rw [hfl]
  rfl

/-- C5 as amended, at interval 1000, lateness 2500 and frame index 7: the call
returns frame index 11. -/
theorem timelapse_frame_advance_witness :
    ∃ keep w2, wait_for_next_frame late_world 7 = Except.ok (keep, 7 + 4, w2) :=
  (timelapse_frame_advance late_world 7 rfl (by decide) (by decide) (by decide)).2 rfl
    (by decide)

/-- C5 as stated fails: with interval 1000 and lateness 2500 the frame index 7
comes back as 11, an advance of 4 and not of 3. -/
theorem timelapse_frame_advance_not_3 :
    late_world.state.timelapse = 1000 ∧ late_world.now_ms - late_world.next_frame_ms = 2500 ∧
    (∃ keep w2, wait_for_next_frame late_world 7 = Except.ok (keep, 11, w2)) ∧
    (11 : Int) ≠ 7 + 3 := by
  refine ⟨rfl, by decide, ⟨_, _, rfl⟩, by decide⟩

/-! ### The single still capture -/

theorem frame_end_completes (flags : Nat)
    (h : has_flag flags MMAL_BUFFER_HEADER_FLAG_FRAME_END = true) :
    has_flag flags
      (MMAL_BUFFER_HEADER_FLAG_FRAME_END ||| MMAL_BUFFER_HEADER_FLAG_TRANSMISSION_FAILED) =
      true := by
  simp only [has_flag, bne_iff_ne, ne_eq] at h ⊢
  intro h0
  apply h
  have h4 : MMAL_BUFFER_HEADER_FLAG_FRAME_END =
      (MMAL_BUFFER_HEADER_FLAG_FRAME_END ||| MMAL_BUFFER_HEADER_FLAG_TRANSMISSION_FAILED) &&&
        MMAL_BUFFER_HEADER_FLAG_FRAME_END := by decide
  rw [h4, ← Nat.and_assoc, h0]
  simp

theorem trigger_count_append (a b : List Event) :
    trigger_count (a ++ b) = trigger_count a + trigger_count b := by
  unfold trigger_count
  exact List.count_append _ _ _

theorem semaphore_wait_count_append (a b : List Event) :
    semaphore_wait_count (a ++ b) = semaphore_wait_count a + semaphore_wait_count b := by
  unfold semaphore_wait_count
  exact List.count_append _ _ _

theorem still_cb_count_append (a b : List Event) :
    still_cb_count (a ++ b) = still_cb_count a + still_cb_count b := by
  induction a with
  | nil => simp [still_cb_count]
  | cons e rest ih => cases e <;> simp [still_cb_count, ih]; omega

theorem still_counts_append (a b : List Event) :
    still_counts (a ++ b) =
      ((still_counts a).1 + (still_counts b).1,
       (still_counts a).2.1 + (still_counts b).2.1,
       (still_counts a).2.2 + (still_counts b).2.2) := by
  simp only [still_counts, trigger_count_append, semaphore_wait_count_append,
    still_cb_count_append]

/-- What `resubmit` does to the trace: nothing, or one logged failure. -/
theorem resubmit_trace (pool : Option MMAL_POOL_T) (port : MMAL_PORT_T) (accept : Bool)
    (trace : List Event) (r : Option MMAL_POOL_T × MMAL_PORT_T × List Event)
    (h : resubmit pool port accept trace = Except.ok r) :
    (r.2.2 = trace ∨ r.2.2 = trace ++ [Event.log_unable_to_return_buffer]) ∧
    r.2.1.is_enabled = port.is_enabled ∧ r.2.1.userdata = port.userdata := by
  unfold resubmit at h
  split at h
  · split at h
    · cases h
    · split at h
      · cases h
      · split at h
        · cases h
          exact ⟨Or.inr rfl, rfl, rfl⟩
        · split at h
          · cases h
            exact ⟨Or.inl rfl, rfl, rfl⟩
          · cases h
            exact ⟨Or.inr rfl, rfl, rfl⟩
  · cases h
    exact ⟨Or.inl rfl, rfl, rfl⟩

theorem still_accumulate_complete (state : CAM_STATE) (buffer : MMAL_BUFFER_HEADER_T)
    (hend : has_flag buffer.flags MMAL_BUFFER_HEADER_FLAG_FRAME_END = true) :
    (still_accumulate state buffer).2 = true ∧
    (still_accumulate state buffer).1.has_still_cb = state.has_still_cb := by
  constructor
  · simp only [still_accumulate, frame_end_completes buffer.flags hend, Bool.or_true]
  · simp only [still_accumulate]
    split_ifs
    · cases state.work_image_data <;> rfl
    · rfl

/-- A frame-end buffer handed to the still callback (userdata set, pool present,
consumer callback given): the callback returns, the consumer callback is
invoked once and the semaphore is posted once. -/
theorem still_callback_completes (w : World) (buffer : MMAL_BUFFER_HEADER_T) (accept : Bool)
    (p : MMAL_POOL_T) (hud : w.still_port.userdata = true)
    (hpool : w.state.encoder_pool = some p) (hcb : w.state.has_still_cb = true)
    (hend : has_flag buffer.flags MMAL_BUFFER_HEADER_FLAG_FRAME_END = true) :
    ∃ w2, still_encoder_buffer_callback w buffer accept = Except.ok w2 ∧
      w2.semaphore = w.semaphore + 1 ∧
      still_counts w2.trace =
        ((still_counts w.trace).1, (still_counts w.trace).2.1, (still_counts w.trace).2.2 + 1) := by
  obtain ⟨hc, hcb2⟩ := still_accumulate_complete w.state buffer hend
  have fp := still_accumulate_pool w.state buffer
  rw [hpool] at fp
  obtain ⟨pool2, port2, trace2, hres⟩ :=
    resubmit_ok { queue := p.queue ++ [buffer.id] } w.still_port accept w.trace hud
  obtain ⟨htr, _, _⟩ := resubmit_trace _ _ _ _ _ hres
  simp only [still_encoder_buffer_callback, hud, if_true, hc, fp, pool_release, Option.map, hres]
  refine ⟨_, rfl, ?_, ?_⟩
  · simp only [still_complete, hcb2, hcb, if_true]
  · simp only [still_complete, hcb2, hcb, if_true]
    rcases htr with h | h
    · simp only at h
      rw [h, still_counts_append]
      rfl
    · simp only at h
      rw [h, still_counts_append, still_counts_append]
      rfl

/-- An empty buffer returned on a disabled port: the callback releases it and
does nothing else. -/
theorem still_callback_flush (w : World) (id : Nat) (hdis : w.still_port.is_enabled = false) :
    ∃ w2, still_encoder_buffer_callback w
        { id := id, flags := 0, pts := 0, length := 0, offset := 0, data := [] } false =
          Except.ok w2 ∧
      w2.trace = w.trace ∧ w2.semaphore = w.semaphore ∧ w2.still_port = w.still_port := by
  have hz : (if w.still_port.userdata = true then
      still_accumulate w.state
        { id := id, flags := 0, pts := 0, length := 0, offset := 0, data := [] }
      else (w.state, false)).2 = false := by
    split_ifs
    · simp only [still_accumulate]
      rfl
    · rfl
  simp only [still_encoder_buffer_callback, resubmit, hdis, hz]
  exact ⟨_, rfl, rfl, rfl, rfl⟩

/-- Disabling the port flushes the held buffers through the callback without
any delivery: trace and semaphore stay as they are. -/
theorem still_flush_quiet (n : Nat) :
    ∀ w : World, w.still_port.is_enabled = false →
      ∃ w2, still_flush n w = Except.ok w2 ∧ w2.trace = w.trace ∧
        w2.semaphore = w.semaphore := by
  induction n with
  | zero => exact fun w _ => ⟨w, rfl, rfl, rfl⟩
  | succ n ih =>
    intro w hdis
    unfold still_flush
    cases hheld : w.still_port.held with
    | nil => exact ⟨w, rfl, rfl, rfl⟩
    | cons id rest =>
      obtain ⟨w1, h1, t1, s1, p1⟩ :=
        still_callback_flush { w with still_port := { w.still_port with held := rest } } id hdis
      obtain ⟨w2, h2, t2, s2⟩ := ih w1 (by rw [p1]; exact hdis)
      simp only [h1]
      exact ⟨w2, h2, by rw [t2, t1], by rw [s2, s1]⟩

/-- With every call succeeding on an enabled port, sending `n` buffers of the
still pool moves the first `n` headers of the queue to the port. -/
theorem still_send_all_ok (n : Nat) :
    ∀ (w : World) (q : List Nat), w.hw_status = [] → w.still_port.is_enabled = true →
      w.state.encoder_pool = some { queue := q } → n ≤ q.length →
      still_send_all n w =
        { w with
          state := { w.state with encoder_pool := some { queue := q.drop n } }
          still_port := { w.still_port with held := w.still_port.held ++ q.take n } } := by
  induction n with
  | zero =>
    intro w q _ _ hq _
    simp only [still_send_all, List.drop_zero, List.take_zero, List.append_nil, ← hq]
  | succ n ih =>
    intro w q hs hen hq hn
    cases q with
    | nil => simp at hn
    | cons b rest =>
      simp only [still_send_all, hq, World.pop_status, hs, hen, and_self, if_true]
      rw [ih _ rest]
      · simp
      · rfl
      · rfl
      · rfl
      · simpa using hn

/-- The setup block when every call succeeds: it returns with the port enabled,
its userdata set, the whole pool sent to the port, and no trigger, wait or
delivery recorded. -/
theorem still_setup_ok (v : World) (p : MMAL_POOL_T)
    (henc : v.state.still_encoder_component = true) (hcam : v.state.camera_component = true)
    (hst : v.hw_status = []) (hpool : v.state.encoder_pool = some p)
    (hheld : v.still_port.held = []) :
    ∃ v6, still_setup v = Except.ok v6 ∧
      v6.still_port.is_enabled = true ∧ v6.still_port.userdata = true ∧
      v6.still_port.held = p.queue ∧ v6.state.encoder_pool = some { queue := [] } ∧
      v6.state.has_still_cb = v.state.has_still_cb ∧ v6.hw_status = [] ∧
      v6.still_fills = v.still_fills ∧ v6.semaphore = v.semaphore ∧
      still_counts v6.trace = still_counts v.trace := by
  obtain ⟨q⟩ := p
  by_cases hraw : v.state.wantRAW = 0 <;> by_cases hburst : v.state.burstCaptureMode = 0
  all_goals
    simp only [still_setup, henc, hcam, hraw, hburst, World.pop_status, hst, hpool, ne_eq,
      not_true_eq_false, not_false_eq_true, if_true, if_false, Bool.true_eq_false]
    rw [still_send_all_ok q.length _ q]
    · simp only [hburst, ne_eq, not_true_eq_false, not_false_eq_true, if_true, if_false]
      refine ⟨_, rfl, by simp, rfl, ?_, ?_, rfl, rfl, rfl, rfl, ?_⟩
      · simp [hheld]
      · simp
      · simp only [still_counts_append]
        simp [still_counts, trigger_count, semaphore_wait_count, still_cb_count]
    · rfl
    · simp
    · exact hpool
    · exact le_rfl

theorem completion_buffer_some (c : Completion) (held : List Nat) (h : held ≠ []) :
    ∃ b, c.buffer held = some b ∧ b.flags = c.flags := by
  have hlen : 0 < held.length := List.length_pos.mpr h
  have hlt : c.pick % held.length < held.length := Nat.mod_lt _ hlen
  unfold Completion.buffer
  rw [List.get?_eq_get hlt]
  exact ⟨_, rfl, rfl⟩

/-- Disabling the port adds no trigger, wait or delivery. -/
theorem still_disable_ok (v : World) :
    ∃ v2, still_disable v = Except.ok v2 ∧ still_counts v2.trace = still_counts v.trace := by
  obtain ⟨v2, h2, t2, _⟩ := still_flush_quiet v.still_port.held.length
    { v with still_port := { v.still_port with is_enabled := false },
             trace := v.trace ++ [Event.still_port_disable] } rfl
  refine ⟨v2, h2, ?_⟩
  rw [t2, still_counts_append]
  simp [still_counts, trigger_count, semaphore_wait_count, still_cb_count]

/-- The case `FRAME_NEXT_SINGLE` of `wait_for_next_frame`: sleep for the timeout
and report "stop", the frame index untouched. -/
theorem wait_for_next_frame_single (v : World) (frame : Int)
    (hm : v.state.frameNextMethod = FRAME_NEXT_SINGLE) :
    wait_for_next_frame v frame =
      Except.ok (0, frame,
        vcos_sleep { v with frame_complete_time :=
          (if v.frame_complete_time = -1 then v.now_ms + v.state.timeout
           else v.frame_complete_time) } v.state.timeout) := by
  simp only [wait_for_next_frame, hm, if_true]

/-! ### Witnesses at concrete inputs -/

/-- C10 at a concrete Timed session starting at clock zero. -/
theorem timed_cycle_witness :
    ∃ w2, capture (0 + 4) timed_world = Except.ok (none, w2) ∧
      capture_timeline 0 w2.trace = [(0, 1), (500, 0), (1000, 1), (1500, 0)] ∧
      (capture_timeline 0 w2.trace).filter (fun e => decide (e.1 < 1500)) =
        [(0, 1), (500, 0), (1000, 1)] ∧
      w2.now_us = timed_world.now_us + 2000000 :=
  timed_cycle timed_world { queue := [0, 1, 2] } 0 ⟨rfl, rfl, rfl, rfl, rfl, rfl, rfl⟩
    rfl rfl rfl rfl

/-! ### The video callback: delivery and timestamps -/

theorem bytes_written_eq (n : Nat) :
    uint32_of_int (int_of_uint32 n) = n % 4294967296 := by
  unfold uint32_of_int int_of_uint32
  split_ifs <;> omega

/-- What `encoder_frame` does, with the test of `bytes_written` resolved. -/
theorem encoder_frame_eq (state : CAM_STATE) (b : MMAL_BUFFER_HEADER_T) (trace : List Event) :
    encoder_frame state b trace =
      if b.length ≠ 0 ∧ has_flag b.flags MMAL_BUFFER_HEADER_FLAG_CODECSIDEINFO = false ∧
          ((has_flag b.flags MMAL_BUFFER_HEADER_FLAG_FRAME_END = true ∨ b.flags = 0 ∨
              has_flag b.flags MMAL_BUFFER_HEADER_FLAG_KEYFRAME = true) ∧
            ¬ (has_flag b.flags MMAL_BUFFER_HEADER_FLAG_CONFIG = true)) ∧
          (b.pts ≠ MMAL_TIME_UNKNOWN ∧ b.pts ≠ state.lasttime) then
        ({ state with starttime := if state.frame = 0 then b.pts else state.starttime,
                      lasttime := b.pts, frame := state.frame + 1 },
         trace ++ [Event.video_cb (b.pts - (if state.frame = 0 then b.pts else state.starttime))
                     b.data b.length b.offset])
      else (state, trace) := by
  simp only [encoder_frame, bytes_written_eq, ne_eq, not_true_eq_false, if_false]
  by_cases h0 : b.length = 0
  · simp [h0]
  · by_cases h1 : has_flag b.flags MMAL_BUFFER_HEADER_FLAG_CODECSIDEINFO = true
    · simp [h0, h1]
    · simp only [h0, not_false_eq_true, if_true, h1, if_false, true_and]
      have h1f : has_flag b.flags MMAL_BUFFER_HEADER_FLAG_CODECSIDEINFO = false := by
        simpa using h1
      split_ifs <;> first | rfl | (exfalso; simp_all)


/-- With userdata set and a pool present the resubmission returns, the pool is
still present, and at most the error line is added to the trace. -/
theorem resubmit_some (p : MMAL_POOL_T) (port : MMAL_PORT_T) (accept : Bool)
    (trace : List Event) (hud : port.userdata = true) :
    ∃ p2 port2 trace2,
      resubmit (some p) port accept trace = Except.ok (some p2, port2, trace2) ∧
      port2.userdata = true ∧ port2.is_enabled = port.is_enabled ∧
      (trace2 = trace ∨ trace2 = trace ++ [Event.log_unable_to_return_buffer]) := by
  obtain ⟨q⟩ := p
  by_cases hen : port.is_enabled = true
  · cases q with
    | nil =>
      refine ⟨{ queue := [] }, port, trace ++ [Event.log_unable_to_return_buffer], ?_, hud, rfl,
        Or.inr rfl⟩
      simp only [resubmit, hen, hud]; rfl
    | cons a t =>
      cases accept
      · refine ⟨{ queue := t }, port, trace ++ [Event.log_unable_to_return_buffer], ?_, hud,
          rfl, Or.inr rfl⟩
        simp only [resubmit, hen, hud]; rfl
      · refine ⟨{ queue := t }, { port with held := port.held ++ [a] }, trace, ?_, hud, rfl,
          Or.inl rfl⟩
        simp only [resubmit, hen, hud]; rfl
  · refine ⟨{ queue := q }, port, trace, ?_, hud, rfl, Or.inl rfl⟩
    simp only [resubmit, hen]; rfl

/-- What the video callback computes before it recycles the buffer, for a port
with userdata: the state, `base_time` and the trace. -/
theorem encoder_buffer_callback_view (w : World) (b : MMAL_BUFFER_HEADER_T) (accept : Bool)
    (p : MMAL_POOL_T) (hud : w.video_port.userdata = true)
    (hpool : w.state.video_encoder_pool = some p) :
    ∃ p2 port2 t2,
      encoder_buffer_callback w b accept =
        Except.ok { w with
          state := { (encoder_frame (segment_rotation w.state b.flags w.now_ms
                        (if w.base_time = -1 then w.now_ms else w.base_time)).1 b w.trace).1 with
                     video_encoder_pool := some p2 }
          base_time := (segment_rotation w.state b.flags w.now_ms
                        (if w.base_time = -1 then w.now_ms else w.base_time)).2
          video_port := port2
          trace := t2 } ∧
      port2.userdata = true ∧
      (t2 = (encoder_frame (segment_rotation w.state b.flags w.now_ms
              (if w.base_time = -1 then w.now_ms else w.base_time)).1 b w.trace).2 ∨
       t2 = (encoder_frame (segment_rotation w.state b.flags w.now_ms
              (if w.base_time = -1 then w.now_ms else w.base_time)).1 b w.trace).2 ++
            [Event.log_unable_to_return_buffer]) := by
  obtain ⟨fp, _⟩ := encoder_frame_pool
    (segment_rotation w.state b.flags w.now_ms
      (if w.base_time = -1 then w.now_ms else w.base_time)).1 b w.trace
  rw [segment_rotation_pool, hpool] at fp
  obtain ⟨p2, port2, trace2, hres, hu, _, ht⟩ :=
    resubmit_some { queue := p.queue ++ [b.id] } w.video_port accept
      (encoder_frame (segment_rotation w.state b.flags w.now_ms
        (if w.base_time = -1 then w.now_ms else w.base_time)).1 b w.trace).2 hud
  refine ⟨p2, port2, trace2, ?_, hu, ht⟩
  simp only [encoder_buffer_callback, hud, if_true]
  rw [fp]
  simp only [pool_release, Option.map]
  rw [hres]

theorem delivered_append (a b : List Event) :
    delivered (a ++ b) = delivered a ++ delivered b := by
  induction a with
  | nil => rfl
  | cons e t ih => cases e <;> simp [delivered, ih]

theorem delivered_log (t : List Event) :
    delivered (t ++ [Event.log_unable_to_return_buffer]) = delivered t := by
  rw [delivered_append]; simp [delivered]

/-- Whether the video callback hands the buffer to the consumer, given the
timestamp `lasttime` of the state. -/
theorem encoder_frame_delivered (state : CAM_STATE) (b : MMAL_BUFFER_HEADER_T)
    (trace : List Event) :
    delivered (encoder_frame state b trace).2 =
      delivered trace ++
        (if b.length ≠ 0 ∧ has_flag b.flags MMAL_BUFFER_HEADER_FLAG_CODECSIDEINFO = false ∧
            ((has_flag b.flags MMAL_BUFFER_HEADER_FLAG_FRAME_END = true ∨ b.flags = 0 ∨
                has_flag b.flags MMAL_BUFFER_HEADER_FLAG_KEYFRAME = true) ∧
              ¬ (has_flag b.flags MMAL_BUFFER_HEADER_FLAG_CONFIG = true)) ∧
            (b.pts ≠ MMAL_TIME_UNKNOWN ∧ b.pts ≠ state.lasttime) then
          [(b.pts - (if state.frame = 0 then b.pts else state.starttime),
            b.data, b.length, b.offset)]
        else []) := by
  rw [encoder_frame_eq]
  split_ifs <;> simp [delivered_append, delivered]

theorem segment_rotation_times (state : CAM_STATE) (flags : Nat) (t b : Int) :
    (segment_rotation state flags t b).1.frame = state.frame ∧
    (segment_rotation state flags t b).1.starttime = state.starttime ∧
    (segment_rotation state flags t b).1.lasttime = state.lasttime := by
  simp only [segment_rotation]
  split_ifs <;> exact ⟨rfl, rfl, rfl⟩

/-- One run of the video callback on a ready world: it returns, the world stays
ready, and the consumer is invoked exactly when `delivers` holds. -/
theorem encoder_buffer_callback_step (w : World) (b : MMAL_BUFFER_HEADER_T) (accept : Bool)
    (h : stream_ready w) :
    ∃ w2, encoder_buffer_callback w b accept = Except.ok w2 ∧ stream_ready w2 ∧
      delivered w2.trace = delivered w.trace ++
        (if delivers w.state b then
          [(b.pts - (if w.state.frame = 0 then b.pts else w.state.starttime),
            b.data, b.length, b.offset)]
         else []) ∧
      w2.state.starttime =
        (if delivers w.state b ∧ w.state.frame = 0 then b.pts else w.state.starttime) ∧
      w2.state.lasttime = (if delivers w.state b then b.pts else w.state.lasttime) := by
  obtain ⟨hud, ⟨p, hpool⟩, hframe⟩ := h
  obtain ⟨p2, port2, t2, hret, hu2, ht2⟩ := encoder_buffer_callback_view w b accept p hud hpool
  obtain ⟨r1, r2, r3⟩ := segment_rotation_times w.state b.flags w.now_ms
    (if w.base_time = -1 then w.now_ms else w.base_time)
  have hd := encoder_frame_delivered (segment_rotation w.state b.flags w.now_ms
    (if w.base_time = -1 then w.now_ms else w.base_time)).1 b w.trace
  have he := encoder_frame_eq (segment_rotation w.state b.flags w.now_ms
    (if w.base_time = -1 then w.now_ms else w.base_time)).1 b w.trace
  rw [r1, r2, r3] at hd he
  by_cases hdv : delivers w.state b
  · have hc := hdv
    unfold delivers at hc
    rw [if_pos hc] at hd he
    have hdel : delivered t2 = delivered w.trace ++
        [(b.pts - (if w.state.frame = 0 then b.pts else w.state.starttime),
          b.data, b.length, b.offset)] := by
      rcases ht2 with ht | ht
      · rw [ht, hd]
      · rw [ht, delivered_log, hd]
    refine ⟨_, hret, ⟨hu2, ⟨p2, rfl⟩, ?_⟩, ?_, ?_, ?_⟩
    · show (encoder_frame _ b w.trace).1.frame = ((delivered t2).length : Int)
      rw [hdel, he]
      simp only [List.length_append, List.length_singleton, Nat.cast_add, Nat.cast_one, r1]
      omega
    · rw [if_pos hdv]; exact hdel
    · show (encoder_frame _ b w.trace).1.starttime = _
      rw [he]
      by_cases hf : w.state.frame = 0
      · rw [if_pos (show delivers w.state b ∧ w.state.frame = 0 from ⟨hdv, hf⟩)]; simp only [r1, hf, if_true]
      · rw [if_neg (show ¬ (delivers w.state b ∧ w.state.frame = 0) from fun h => hf h.2)]; simp only [r1, r2, hf, if_false]
    · show (encoder_frame _ b w.trace).1.lasttime = _
      rw [he, if_pos hdv]
  · have hc := hdv
    unfold delivers at hc
    rw [if_neg hc] at hd he
    have hdel : delivered t2 = delivered w.trace := by
      rcases ht2 with ht | ht
      · rw [ht, hd]; simp
      · rw [ht, delivered_log, hd]; simp
    refine ⟨_, hret, ⟨hu2, ⟨p2, rfl⟩, ?_⟩, ?_, ?_, ?_⟩
    · show (encoder_frame _ b w.trace).1.frame = ((delivered t2).length : Int)
      rw [hdel, he, r1]; exact hframe
    · rw [if_neg hdv, List.append_nil]; exact hdel
    · show (encoder_frame _ b w.trace).1.starttime = _
      rw [he, if_neg (show ¬ (delivers w.state b ∧ w.state.frame = 0) from fun h => hdv h.1), r2]
    · show (encoder_frame _ b w.trace).1.lasttime = _
      rw [he, if_neg hdv, r3]

theorem encoder_buffer_callbacks_append (xs ys : List (MMAL_BUFFER_HEADER_T × Bool)) :
    ∀ w : World, encoder_buffer_callbacks w (xs ++ ys) =
      match encoder_buffer_callbacks w xs with
      | Except.error e => Except.error e
      | Except.ok w1 => encoder_buffer_callbacks w1 ys := by
  induction xs with
  | nil => intro w; rfl
  | cons x t ih =>
    intro w
    obtain ⟨b, a⟩ := x
    simp only [List.cons_append, encoder_buffer_callbacks]
    cases encoder_buffer_callback w b a with
    | error e => rfl
    | ok w1 => exact ih w1

/-- A buffer inside a frame is not handed to the consumer. -/
theorem continues_not_delivers (state : CAM_STATE) (b : MMAL_BUFFER_HEADER_T)
    (h : continues_frame b) : ¬ delivers state b := by
  obtain ⟨h0, hfe, hkf⟩ := h
  intro hd
  obtain ⟨_, _, ⟨hor, _⟩, _⟩ := hd
  rcases hor with h1 | h1 | h1
  · rw [hfe] at h1; exact Bool.noConfusion h1
  · exact h0 h1
  · rw [hkf] at h1; exact Bool.noConfusion h1

/-- A frame-ending buffer is handed to the consumer exactly when its timestamp
is known and differs from `lasttime`. -/
theorem ends_frame_delivers (state : CAM_STATE) (b : MMAL_BUFFER_HEADER_T)
    (h : ends_frame b) :
    delivers state b ↔ (b.pts ≠ MMAL_TIME_UNKNOWN ∧ b.pts ≠ state.lasttime) := by
  obtain ⟨h0, hor, hcfg, hside⟩ := h
  constructor
  · intro hd; exact hd.2.2.2
  · intro hp
    refine ⟨h0, hside, ⟨?_, by rw [hcfg]; exact Bool.noConfusion⟩, hp⟩
    rcases hor with h1 | h1 | h1
    · exact Or.inl h1
    · exact Or.inr (Or.inr h1)
    · exact Or.inr (Or.inl h1)

/-- Buffers inside a frame pass through the callback without an invocation of
the consumer and without a change to the timestamps kept in the state. -/
theorem continues_run (pre : List (MMAL_BUFFER_HEADER_T × Bool)) :
    ∀ w : World, stream_ready w → (∀ x ∈ pre, continues_frame x.1) →
      ∃ w1, encoder_buffer_callbacks w pre = Except.ok w1 ∧ stream_ready w1 ∧
        delivered w1.trace = delivered w.trace ∧ w1.state.frame = w.state.frame ∧
        w1.state.starttime = w.state.starttime ∧ w1.state.lasttime = w.state.lasttime := by
  induction pre with
  | nil => intro w h _; exact ⟨w, rfl, h, rfl, rfl, rfl, rfl⟩
  | cons x t ih =>
    intro w h hpre
    obtain ⟨b, a⟩ := x
    have hnd : ¬ delivers w.state b :=
      continues_not_delivers w.state b (hpre (b, a) (List.mem_cons_self _ _))
    obtain ⟨w1, hret, hr1, hd1, hs1, hl1⟩ := encoder_buffer_callback_step w b a h
    rw [if_neg hnd, List.append_nil] at hd1
    rw [if_neg (show ¬ (delivers w.state b ∧ w.state.frame = 0) from fun h => hnd h.1)] at hs1
    rw [if_neg hnd] at hl1
    obtain ⟨w2, hret2, hr2, hd2, hf2, hs2, hl2⟩ :=
      ih w1 hr1 (fun y hy => hpre y (List.mem_cons_of_mem _ hy))
    have hf1 : w1.state.frame = w.state.frame := by
      rw [hr1.2.2, h.2.2, hd1]
    refine ⟨w2, ?_, hr2, by rw [hd2, hd1], by rw [hf2, hf1], by rw [hs2, hs1], by rw [hl2, hl1]⟩
    simp only [encoder_buffer_callbacks, hret]
    exact hret2

/-- What the video callback hands over for a logical frame b1..bn in which
b1..b(n-1) carry some flag but neither frame-end nor keyframe, and bn ends the
frame with a known timestamp that differs from the last delivered one:
`encoder_buffer_callback` invokes the video consumer exactly once, with the
data, length and offset of bn alone; the payloads of b1..b(n-1) are lost. -/
theorem frame_delivery_last_buffer (w : World) (pre : List (MMAL_BUFFER_HEADER_T × Bool))
    (b : MMAL_BUFFER_HEADER_T) (accept : Bool) (hready : stream_ready w)
    (hpre : ∀ x ∈ pre, continues_frame x.1) (hb : ends_frame b)
    (hpts : b.pts ≠ MMAL_TIME_UNKNOWN) (hnew : b.pts ≠ w.state.lasttime) :
    ∃ w2, encoder_buffer_callbacks w (pre ++ [(b, accept)]) = Except.ok w2 ∧
      delivered w2.trace = delivered w.trace ++
        [(b.pts - (if w.state.frame = 0 then b.pts else w.state.starttime),
          b.data, b.length, b.offset)] := by
  obtain ⟨w1, hret1, hr1, hd1, hf1, hs1, hl1⟩ := continues_run pre w hready hpre
  have hdv : delivers w1.state b :=
    (ends_frame_delivers w1.state b hb).2 ⟨hpts, by rw [hl1]; exact hnew⟩
  obtain ⟨w2, hret2, _, hd2, _, _⟩ := encoder_buffer_callback_step w1 b accept hr1
  rw [if_pos hdv, hd1, hf1, hs1] at hd2
  refine ⟨w2, ?_, hd2⟩
  rw [encoder_buffer_callbacks_append, hret1]
  simp only [encoder_buffer_callbacks, hret2]

theorem prefilled_world_ready (N : Nat) : stream_ready (prefilled_world N) :=
  ⟨rfl, ⟨_, rfl⟩, rfl⟩

/-- The delivery for a frame of two buffers. -/
theorem frame_delivery_last_buffer_witness :
    ∃ w2, encoder_buffer_callbacks (prefilled_world 3)
        ([(data_buffer MMAL_BUFFER_HEADER_FLAG_FRAME_START 1000 [1, 2], true)] ++
          [(data_buffer MMAL_BUFFER_HEADER_FLAG_FRAME_END 1000 [3, 4], true)]) = Except.ok w2 ∧
      delivered w2.trace = delivered (prefilled_world 3).trace ++
        [((1000 : Int) - (if (prefilled_world 3).state.frame = 0 then 1000
            else (prefilled_world 3).state.starttime), [3, 4], 2, 0)] :=
  frame_delivery_last_buffer (prefilled_world 3)
    [(data_buffer MMAL_BUFFER_HEADER_FLAG_FRAME_START 1000 [1, 2], true)]
    (data_buffer MMAL_BUFFER_HEADER_FLAG_FRAME_END 1000 [3, 4]) true
    (prefilled_world_ready 3) (by simp [continues_frame, data_buffer]; decide)
    (by unfold ends_frame; decide) (by decide) (by decide)

/-- C11 fails on the code: of a logical frame made of the buffers [1, 2] (frame
start) and [3, 4] (frame end) the video consumer is invoked once and receives
[3, 4] with length 2, not the concatenation [1, 2, 3, 4] with length 4 that the
claim and the comment above the callback ("call provided state callbacks with
each frame of buffer data", cam.c 2622) promise; the bytes [1, 2] are lost.  The
still callback, next to it, accumulates the buffers of a frame. -/
theorem frame_reassembly_fails :
    continues_frame (data_buffer MMAL_BUFFER_HEADER_FLAG_FRAME_START 1000 [1, 2]) ∧
    ends_frame (data_buffer MMAL_BUFFER_HEADER_FLAG_FRAME_END 1000 [3, 4]) ∧
    (∃ w2, encoder_buffer_callbacks (prefilled_world 3)
        [(data_buffer MMAL_BUFFER_HEADER_FLAG_FRAME_START 1000 [1, 2], true),
         (data_buffer MMAL_BUFFER_HEADER_FLAG_FRAME_END 1000 [3, 4], true)] = Except.ok w2 ∧
      delivered w2.trace = [(0, [3, 4], 2, 0)]) ∧
    payload (data_buffer MMAL_BUFFER_HEADER_FLAG_FRAME_START 1000 [1, 2]) ++
      payload (data_buffer MMAL_BUFFER_HEADER_FLAG_FRAME_END 1000 [3, 4]) = [1, 2, 3, 4] := by
  refine ⟨by unfold continues_frame; decide, by unfold ends_frame; decide, ⟨_, rfl, rfl⟩, rfl⟩

theorem encoder_buffer_callbacks_ready (bs : List (MMAL_BUFFER_HEADER_T × Bool)) :
    ∀ w : World, stream_ready w →
      ∃ w2, encoder_buffer_callbacks w bs = Except.ok w2 ∧ stream_ready w2 := by
  induction bs with
  | nil => intro w h; exact ⟨w, rfl, h⟩
  | cons x t ih =>
    intro w h
    obtain ⟨b, a⟩ := x
    obtain ⟨w1, hret, hr1, _⟩ := encoder_buffer_callback_step w b a h
    obtain ⟨w2, hret2, hr2⟩ := ih w1 hr1
    exact ⟨w2, by simp only [encoder_buffer_callbacks, hret]; exact hret2, hr2⟩

theorem last_invariant_step (w w2 : World) (b : MMAL_BUFFER_HEADER_T) (accept : Bool)
    (h : stream_ready w) (hl : last_invariant w)
    (hret : encoder_buffer_callback w b accept = Except.ok w2) : last_invariant w2 := by
  obtain ⟨w3, hret3, _, hd, hs, hlt⟩ := encoder_buffer_callback_step w b accept h
  rw [hret] at hret3
  cases hret3
  unfold last_invariant at hl ⊢
  by_cases hdv : delivers w.state b
  · rw [if_pos hdv] at hd hlt
    rw [hd, List.getLast?_concat]
    simp only
    rw [hlt, hs]
    by_cases hf : w.state.frame = 0
    · rw [if_pos hf, if_pos (show delivers w.state b ∧ w.state.frame = 0 from ⟨hdv, hf⟩)]
      omega
    · rw [if_neg hf,
        if_neg (show ¬ (delivers w.state b ∧ w.state.frame = 0) from fun h => hf h.2)]
      omega
  · rw [if_neg hdv] at hlt
    rw [if_neg hdv, List.append_nil] at hd
    rw [if_neg (show ¬ (delivers w.state b ∧ w.state.frame = 0) from fun h => hdv h.1)] at hs
    rw [hd, hlt, hs]
    exact hl

theorem last_invariant_run (bs : List (MMAL_BUFFER_HEADER_T × Bool)) :
    ∀ w : World, stream_ready w → last_invariant w →
      ∃ w2, encoder_buffer_callbacks w bs = Except.ok w2 ∧ stream_ready w2 ∧
        last_invariant w2 := by
  induction bs with
  | nil => intro w h hl; exact ⟨w, rfl, h, hl⟩
  | cons x t ih =>
    intro w h hl
    obtain ⟨b, a⟩ := x
    obtain ⟨w1, hret, hr1, _⟩ := encoder_buffer_callback_step w b a h
    obtain ⟨w2, hret2, hr2, hl2⟩ := ih w1 hr1 (last_invariant_step w w1 b a h hl hret)
    exact ⟨w2, by simp only [encoder_buffer_callbacks, hret]; exact hret2, hr2, hl2⟩

/-- C12, corrected: in a session that starts from `lasttime` 0 with nothing
delivered (as `default_state` leaves it), after any sequence of callbacks, a
non-empty buffer that ends a logical frame and is neither config nor codec side
information is skipped when its timestamp is unknown, or repeats the timestamp
delivered last, or - before the first delivery - is 0; otherwise the consumer is
invoked exactly once with (timestamp, data, length, offset). -/
theorem video_delivery (w0 : World) (bs : List (MMAL_BUFFER_HEADER_T × Bool))
    (b : MMAL_BUFFER_HEADER_T) (accept : Bool) (hready : stream_ready w0)
    (hstart : delivered w0.trace = []) (hlast : w0.state.lasttime = 0) (hb : ends_frame b) :
    ∃ w w2, encoder_buffer_callbacks w0 bs = Except.ok w ∧
      encoder_buffer_callback w b accept = Except.ok w2 ∧
      ((b.pts = MMAL_TIME_UNKNOWN ∨ repeats_last w b) →
        delivered w2.trace = delivered w.trace) ∧
      (¬ (b.pts = MMAL_TIME_UNKNOWN ∨ repeats_last w b) →
        delivered w2.trace = delivered w.trace ++
          [(b.pts - w2.state.starttime, b.data, b.length, b.offset)]) := by
  have hl0 : last_invariant w0 := by
    unfold last_invariant; rw [hstart]; exact hlast
  obtain ⟨w, hret, hr, hl⟩ := last_invariant_run bs w0 hready hl0
  obtain ⟨w2, hret2, _, hd, hs, _⟩ := encoder_buffer_callback_step w b accept hr
  have hiff := ends_frame_delivers w.state b hb
  have hrep : repeats_last w b ↔ b.pts = w.state.lasttime := by
    unfold repeats_last
    unfold last_invariant at hl
    cases hg : (delivered w.trace).getLast? with
    | none => rw [hg] at hl; simp only; rw [hl]
    | some d => rw [hg] at hl; simp only; rw [hl]; omega
  refine ⟨w, w2, hret, hret2, ?_, ?_⟩
  · intro hskip
    have hnd : ¬ delivers w.state b := by
      rw [hiff]
      rintro ⟨h1, h2⟩
      rcases hskip with h | h
      · exact h1 h
      · exact h2 (hrep.1 h)
    rw [if_neg hnd, List.append_nil] at hd
    exact hd
  · intro hskip
    have hdv : delivers w.state b := by
      rw [hiff]
      exact ⟨fun h => hskip (Or.inl h), fun h => hskip (Or.inr (hrep.2 h))⟩
    rw [if_pos hdv] at hd
    rw [hd, hs]
    by_cases hf : w.state.frame = 0
    · rw [if_pos hf, if_pos (show delivers w.state b ∧ w.state.frame = 0 from ⟨hdv, hf⟩)]
    · rw [if_neg hf,
        if_neg (show ¬ (delivers w.state b ∧ w.state.frame = 0) from fun h => hf h.2)]

/-- C12 at the second frame of a stream. -/
theorem video_delivery_witness :
    ∃ w w2, encoder_buffer_callbacks (prefilled_world 3)
        [(data_buffer MMAL_BUFFER_HEADER_FLAG_FRAME_END 1000 [1, 2], true)] = Except.ok w ∧
      encoder_buffer_callback w (data_buffer MMAL_BUFFER_HEADER_FLAG_FRAME_END 1040 [3, 4])
        true = Except.ok w2 ∧
      ((1040 = MMAL_TIME_UNKNOWN ∨
          repeats_last w (data_buffer MMAL_BUFFER_HEADER_FLAG_FRAME_END 1040 [3, 4])) →
        delivered w2.trace = delivered w.trace) ∧
      (¬ (1040 = MMAL_TIME_UNKNOWN ∨
          repeats_last w (data_buffer MMAL_BUFFER_HEADER_FLAG_FRAME_END 1040 [3, 4])) →
        delivered w2.trace = delivered w.trace ++ [(1040 - w2.state.starttime, [3, 4], 2, 0)]) :=
  video_delivery (prefilled_world 3)
    [(data_buffer MMAL_BUFFER_HEADER_FLAG_FRAME_END 1000 [1, 2], true)]
    (data_buffer MMAL_BUFFER_HEADER_FLAG_FRAME_END 1040 [3, 4]) true
    (prefilled_world_ready 3) rfl rfl (by unfold ends_frame; decide)

/-- C12 as stated fails: in a fresh session (`default_state`, nothing delivered
yet) a frame-end buffer with the known timestamp 0 is not handed to the
consumer, although no frame was delivered before it. -/
theorem first_frame_pts_zero_skipped :
    ends_frame (data_buffer MMAL_BUFFER_HEADER_FLAG_FRAME_END 0 [7]) ∧
    (data_buffer MMAL_BUFFER_HEADER_FLAG_FRAME_END 0 [7]).pts ≠ MMAL_TIME_UNKNOWN ∧
    (prefilled_world 3).state.lasttime = (default_state 0).lasttime ∧
    delivered (prefilled_world 3).trace = [] ∧
    ∃ w2, encoder_buffer_callback (prefilled_world 3)
        (data_buffer MMAL_BUFFER_HEADER_FLAG_FRAME_END 0 [7]) true = Except.ok w2 ∧
      delivered w2.trace = [] := by
  refine ⟨by unfold ends_frame; decide, by decide, rfl, rfl, ⟨_, rfl, rfl⟩⟩

theorem delivered_pts_cons (w w1 : World) (b : MMAL_BUFFER_HEADER_T) (a : Bool)
    (rest : List (MMAL_BUFFER_HEADER_T × Bool)) (h : stream_ready w)
    (hret : encoder_buffer_callback w b a = Except.ok w1) :
    delivered_pts w ((b, a) :: rest) =
      (if delivers w.state b then [b.pts] else []) ++ delivered_pts w1 rest := by
  obtain ⟨w3, hret3, _, hd, _, _⟩ := encoder_buffer_callback_step w b a h
  rw [hret] at hret3
  cases hret3
  simp only [delivered_pts, hret]
  by_cases hdv : delivers w.state b
  · rw [if_pos hdv] at hd
    rw [if_pos hdv, if_neg (by rw [hd]; simp)]
  · rw [if_neg hdv, List.append_nil] at hd
    rw [if_neg hdv, if_pos (by rw [hd])]

/-- The timestamps handed to the consumer over a run are the timestamps of the
delivered buffers minus the start time: the one the state holds if a frame was
delivered before the run, else the timestamp of the first buffer delivered. -/
theorem delivered_run (bs : List (MMAL_BUFFER_HEADER_T × Bool)) :
    ∀ w : World, stream_ready w →
      ∃ w2, encoder_buffer_callbacks w bs = Except.ok w2 ∧
        (delivered w2.trace).map (fun d => d.1) =
          (delivered w.trace).map (fun d => d.1) ++
            (delivered_pts w bs).map (fun t => t -
              (if w.state.frame = 0 then (delivered_pts w bs).headD 0
               else w.state.starttime)) := by
  induction bs with
  | nil => intro w _; exact ⟨w, rfl, by simp [delivered_pts]⟩
  | cons x t ih =>
    intro w h
    obtain ⟨b, a⟩ := x
    obtain ⟨w1, hret, hr1, hd1, hs1, _⟩ := encoder_buffer_callback_step w b a h
    obtain ⟨w2, hret2, hts⟩ := ih w1 hr1
    refine ⟨w2, by simp only [encoder_buffer_callbacks, hret]; exact hret2, ?_⟩
    rw [hts, delivered_pts_cons w w1 b a t h hret, hd1]
    by_cases hdv : delivers w.state b
    · have hf1 : w1.state.frame ≠ 0 := by
        rw [hr1.2.2, hd1, if_pos hdv]
        simp only [List.length_append, List.length_singleton, Nat.cast_add, Nat.cast_one]
        omega
      simp only [hdv, if_true, true_and] at hs1 ⊢
      rw [if_neg hf1, hs1]
      by_cases hf : w.state.frame = 0
      · simp [hf]
      · simp [hf]
    · have hf1 : w1.state.frame = w.state.frame := by
        rw [hr1.2.2, h.2.2, hd1, if_neg hdv, List.append_nil]
      simp only [hdv, if_false, false_and] at hs1 ⊢
      rw [hf1, hs1]
      simp

theorem delivered_pts_sublist (bs : List (MMAL_BUFFER_HEADER_T × Bool)) :
    ∀ w : World, stream_ready w → (delivered_pts w bs).Sublist (known_pts bs) := by
  induction bs with
  | nil => intro w _; exact List.Sublist.refl _
  | cons x t ih =>
    intro w h
    obtain ⟨b, a⟩ := x
    obtain ⟨w1, hret, hr1, _⟩ := encoder_buffer_callback_step w b a h
    rw [delivered_pts_cons w w1 b a t h hret]
    have ih1 := ih w1 hr1
    unfold known_pts at ih1 ⊢
    by_cases hdv : delivers w.state b
    · have hk : b.pts ≠ MMAL_TIME_UNKNOWN := hdv.2.2.2.1
      rw [if_pos hdv]
      simp only [List.map_cons, List.filter_cons, hk, ne_eq, not_false_eq_true, decide_True,
        if_true, List.singleton_append]
      exact List.Sublist.cons₂ _ ih1
    · rw [if_neg hdv, List.nil_append]
      simp only [List.map_cons, List.filter_cons]
      split_ifs
      · exact List.Sublist.cons _ ih1
      · exact ih1

/-- C13, corrected: over any run of the callback from the start of a session,
every timestamp handed to the consumer is the timestamp of its buffer minus the
timestamp of the first buffer delivered (not of the first buffer seen); so the
first delivered frame carries timestamp 0, and when the known timestamps of the
buffers do not decrease no delivered timestamp is negative. -/
theorem stream_relative_timestamp (w0 : World) (bs : List (MMAL_BUFFER_HEADER_T × Bool))
    (hready : stream_ready w0) (hstart : delivered w0.trace = []) :
    ∃ w, encoder_buffer_callbacks w0 bs = Except.ok w ∧
      (delivered w.trace).map (fun d => d.1) =
        (delivered_pts w0 bs).map (fun t => t - (delivered_pts w0 bs).headD 0) ∧
      (∀ d ∈ (delivered w.trace).head?, d.1 = 0) ∧
      ((known_pts bs).Pairwise (fun s t => s ≤ t) → ∀ d ∈ delivered w.trace, 0 ≤ d.1) := by
  obtain ⟨w, hret, hts⟩ := delivered_run bs w0 hready
  have hf0 : w0.state.frame = 0 := by rw [hready.2.2, hstart]; rfl
  rw [hstart, if_pos hf0, List.map_nil, List.nil_append] at hts
  refine ⟨w, hret, hts, ?_, ?_⟩
  · intro d hd
    have h1 : ((delivered w.trace).map (fun d => d.1)).head? = some d.1 := by
      rw [List.head?_map]
      rw [Option.mem_def] at hd
      rw [hd]; rfl
    rw [hts] at h1
    cases hp : delivered_pts w0 bs with
    | nil => rw [hp] at h1; simp at h1
    | cons s rest =>
      rw [hp] at h1
      simp only [List.map_cons, List.headD_cons, List.head?_cons, Option.some.injEq] at h1
      omega
  · intro hmono d hd
    have hsub := delivered_pts_sublist bs w0 hready
    have hpw := hmono.sublist hsub
    have h1 : d.1 ∈ (delivered w.trace).map (fun d => d.1) := List.mem_map_of_mem _ hd
    rw [hts] at h1
    cases hp : delivered_pts w0 bs with
    | nil => rw [hp] at h1; simp at h1
    | cons s rest =>
      rw [hp] at h1 hpw
      simp only [List.map_cons, List.headD_cons, List.mem_cons, List.mem_map] at h1
      rw [List.pairwise_cons] at hpw
      rcases h1 with h1 | ⟨t, ht, h1⟩
      · omega
      · have := hpw.1 t ht
        omega

/-- C13 at a stream of three buffers: a codec header, then two frames. -/
theorem stream_relative_timestamp_witness :
    ∃ w, encoder_buffer_callbacks (prefilled_world 3)
        [(data_buffer MMAL_BUFFER_HEADER_FLAG_CONFIG 100 [9], true),
         (data_buffer MMAL_BUFFER_HEADER_FLAG_FRAME_END 200 [1, 2], true),
         (data_buffer MMAL_BUFFER_HEADER_FLAG_FRAME_END 240 [3, 4], true)] = Except.ok w ∧
      (delivered w.trace).map (fun d => d.1) = [0, 40] := by
  obtain ⟨w, h, hts, _⟩ := stream_relative_timestamp (prefilled_world 3)
    [(data_buffer MMAL_BUFFER_HEADER_FLAG_CONFIG 100 [9], true),
     (data_buffer MMAL_BUFFER_HEADER_FLAG_FRAME_END 200 [1, 2], true),
     (data_buffer MMAL_BUFFER_HEADER_FLAG_FRAME_END 240 [3, 4], true)]
    (prefilled_world_ready 3) rfl
  exact ⟨w, h, by rw [hts]; rfl⟩

/-- C13 as stated fails: the callback first sees a codec-header buffer with the
known timestamp 100 and then a frame with timestamp 200; the frame is delivered
with timestamp 0, not 200 - 100. -/
theorem start_pts_not_first_seen :
    (data_buffer MMAL_BUFFER_HEADER_FLAG_CONFIG 100 [9]).pts ≠ MMAL_TIME_UNKNOWN ∧
    (∃ w, encoder_buffer_callbacks (prefilled_world 3)
        [(data_buffer MMAL_BUFFER_HEADER_FLAG_CONFIG 100 [9], true),
         (data_buffer MMAL_BUFFER_HEADER_FLAG_FRAME_END 200 [1, 2], true)] = Except.ok w ∧
      delivered w.trace = [(0, [1, 2], 2, 0)]) ∧
    (0 : Int) ≠ 200 - 100 := by
  refine ⟨by decide, ⟨_, rfl, rfl⟩, by decide⟩

/-! ### The video callback: rotation trigger -/

theorem encoder_frame_split (state : CAM_STATE) (b : MMAL_BUFFER_HEADER_T)
    (trace : List Event) :
    (encoder_frame state b trace).1.segmentNumber = state.segmentNumber ∧
    (encoder_frame state b trace).1.splitNow = state.splitNow ∧
    (encoder_frame state b trace).1.splitWait = state.splitWait ∧
    (encoder_frame state b trace).1.segmentSize = state.segmentSize ∧
    (encoder_frame state b trace).1.segmentWrap = state.segmentWrap := by
  simp only [encoder_frame]
  split_ifs <;> exact ⟨rfl, rfl, rfl, rfl, rfl⟩

/-- What `segment_rotation` leaves, in terms of the guard `rotation_due`. -/
theorem segment_rotation_due (w : World) (b : MMAL_BUFFER_HEADER_T) :
    (segment_rotation w.state b.flags w.now_ms
        (if w.base_time = -1 then w.now_ms else w.base_time)).1.segmentNumber =
      (if rotation_due w b then next_segment w.state else w.state.segmentNumber) ∧
    (segment_rotation w.state b.flags w.now_ms
        (if w.base_time = -1 then w.now_ms else w.base_time)).1.splitNow =
      (if rotation_due w b then 0 else w.state.splitNow) ∧
    (segment_rotation w.state b.flags w.now_ms
        (if w.base_time = -1 then w.now_ms else w.base_time)).2 =
      (if rotation_due w b then w.now_ms
       else if w.base_time = -1 then w.now_ms else w.base_time) ∧
    (segment_rotation w.state b.flags w.now_ms
        (if w.base_time = -1 then w.now_ms else w.base_time)).1.splitWait = w.state.splitWait ∧
    (segment_rotation w.state b.flags w.now_ms
        (if w.base_time = -1 then w.now_ms else w.base_time)).1.segmentSize =
      w.state.segmentSize ∧
    (segment_rotation w.state b.flags w.now_ms
        (if w.base_time = -1 then w.now_ms else w.base_time)).1.segmentWrap =
      w.state.segmentWrap := by
  by_cases hdue : rotation_due w b
  · have hc := hdue
    unfold rotation_due at hc
    simp only [segment_rotation, if_pos hc, if_pos hdue, next_segment, and_self]
  · have hc := hdue
    unfold rotation_due at hc
    simp only [segment_rotation, if_neg hc, if_neg hdue, and_self]

/-- One run of the video callback, as far as the segment variables go. -/
theorem rotation_step (w : World) (b : MMAL_BUFFER_HEADER_T) (accept : Bool)
    (p : MMAL_POOL_T) (hud : w.video_port.userdata = true)
    (hpool : w.state.video_encoder_pool = some p) :
    ∃ w2 p2, encoder_buffer_callback w b accept = Except.ok w2 ∧
      w2.video_port.userdata = true ∧ w2.state.video_encoder_pool = some p2 ∧
      w2.state.segmentNumber =
        (if rotation_due w b then next_segment w.state else w.state.segmentNumber) ∧
      w2.state.splitNow = (if rotation_due w b then 0 else w.state.splitNow) ∧
      w2.base_time =
        (if rotation_due w b then w.now_ms
         else if w.base_time = -1 then w.now_ms else w.base_time) ∧
      w2.state.splitWait = w.state.splitWait ∧ w2.state.segmentSize = w.state.segmentSize ∧
      w2.state.segmentWrap = w.state.segmentWrap := by
  obtain ⟨p2, port2, t2, hret, hu2, _⟩ := encoder_buffer_callback_view w b accept p hud hpool
  obtain ⟨f1, f2, f3, f4, f5⟩ := encoder_frame_split
    (segment_rotation w.state b.flags w.now_ms
      (if w.base_time = -1 then w.now_ms else w.base_time)).1 b w.trace
  obtain ⟨s1, s2, s3, s4, s5, s6⟩ := segment_rotation_due w b
  exact ⟨_, p2, hret, hu2, rfl, f1.trans s1, f2.trans s2, s3, f3.trans s4, f4.trans s5,
    f5.trans s6⟩

theorem not_config_not_due (w : World) (b : MMAL_BUFFER_HEADER_T)
    (h : has_flag b.flags MMAL_BUFFER_HEADER_FLAG_CONFIG = false) : ¬ rotation_due w b := by
  intro hd
  have := hd.1
  rw [h] at this
  exact Bool.noConfusion this

/-- Without a segment interval and without an armed split no callback of a run
rotates. -/
theorem rotation_count_unarmed (bs : List (MMAL_BUFFER_HEADER_T × Bool)) :
    ∀ (w : World) (p : MMAL_POOL_T), w.video_port.userdata = true →
      w.state.video_encoder_pool = some p → w.state.segmentSize = 0 →
      (w.state.splitWait = 0 ∨ w.state.splitNow = 0) →
      ∃ w2, encoder_buffer_callbacks w bs = Except.ok w2 ∧ rotation_count w bs = 0 ∧
        w2.state.segmentNumber = w.state.segmentNumber ∧
        w2.state.splitNow = w.state.splitNow := by
  induction bs with
  | nil => intro w p _ _ _ _; exact ⟨w, rfl, rfl, rfl, rfl⟩
  | cons x t ih =>
    intro w p hud hpool hsize harm
    obtain ⟨b, a⟩ := x
    have hnd : ¬ rotation_due w b := by
      rintro ⟨_, h | h⟩
      · exact h.1 hsize
      · rcases harm with h0 | h0
        · exact h.1 h0
        · exact h.2 h0
    obtain ⟨w1, p1, hret, hu1, hp1, hseg, hnow, _, hwait, hsz, _⟩ :=
      rotation_step w b a p hud hpool
    rw [if_neg hnd] at hseg hnow
    obtain ⟨w2, hret2, hc2, hseg2, hnow2⟩ := ih w1 p1 hu1 hp1 (by rw [hsz, hsize])
      (by rw [hwait, hnow]; exact harm)
    refine ⟨w2, by simp only [encoder_buffer_callbacks, hret]; exact hret2, ?_,
      by rw [hseg2, hseg], by rw [hnow2, hnow]⟩
    simp only [rotation_count, hret, if_neg hnd, hc2]

/-- With an armed split and no segment interval, a run rotates at its first
codec-header buffer and at no other. -/
theorem rotation_count_armed (bs : List (MMAL_BUFFER_HEADER_T × Bool)) :
    ∀ (w : World) (p : MMAL_POOL_T), w.video_port.userdata = true →
      w.state.video_encoder_pool = some p → w.state.segmentSize = 0 →
      w.state.splitWait ≠ 0 → w.state.splitNow ≠ 0 →
      ∃ w2, encoder_buffer_callbacks w bs = Except.ok w2 ∧
        rotation_count w bs =
          (if bs.any (fun x => has_flag x.1.flags MMAL_BUFFER_HEADER_FLAG_CONFIG) = true then 1
           else 0) ∧
        w2.state.segmentNumber =
          (if bs.any (fun x => has_flag x.1.flags MMAL_BUFFER_HEADER_FLAG_CONFIG) = true then
            next_segment w.state
           else w.state.segmentNumber) ∧
        w2.state.splitNow =
          (if bs.any (fun x => has_flag x.1.flags MMAL_BUFFER_HEADER_FLAG_CONFIG) = true then 0
           else w.state.splitNow) := by
  induction bs with
  | nil => intro w p _ _ _ _ _; exact ⟨w, rfl, rfl, rfl, rfl⟩
  | cons x t ih =>
    intro w p hud hpool hsize hwait hnow
    obtain ⟨b, a⟩ := x
    obtain ⟨w1, p1, hret, hu1, hp1, hseg, hsn, _, hsw, hsz, hwr⟩ :=
      rotation_step w b a p hud hpool
    by_cases hcfg : has_flag b.flags MMAL_BUFFER_HEADER_FLAG_CONFIG = true
    · have hdue : rotation_due w b := ⟨hcfg, Or.inr ⟨hwait, hnow⟩⟩
      rw [if_pos hdue] at hseg hsn
      obtain ⟨w2, hret2, hc2, hseg2, hsn2⟩ := rotation_count_unarmed t w1 p1 hu1 hp1
        (by rw [hsz, hsize]) (Or.inr hsn)
      refine ⟨w2, by simp only [encoder_buffer_callbacks, hret]; exact hret2, ?_, ?_, ?_⟩
      · simp only [rotation_count, hret, if_pos hdue, hc2, List.any_cons, hcfg, Bool.true_or,
          if_true]
      · simp only [List.any_cons, hcfg, Bool.true_or, if_true]; rw [hseg2, hseg]
      · simp only [List.any_cons, hcfg, Bool.true_or, if_true]; rw [hsn2, hsn]
    · have hcf : has_flag b.flags MMAL_BUFFER_HEADER_FLAG_CONFIG = false := by
        simpa using hcfg
      have hnd : ¬ rotation_due w b := not_config_not_due w b hcf
      rw [if_neg hnd] at hseg hsn
      obtain ⟨w2, hret2, hc2, hseg2, hsn2⟩ := ih w1 p1 hu1 hp1 (by rw [hsz, hsize])
        (by rw [hsw]; exact hwait) (by rw [hsn]; exact hnow)
      refine ⟨w2, by simp only [encoder_buffer_callbacks, hret]; exact hret2, ?_, ?_, ?_⟩
      · simp only [rotation_count, hret, if_neg hnd, hc2, List.any_cons, hcf, Bool.false_or,
          zero_add]
      · simp only [List.any_cons, hcf, Bool.false_or]
        have hns : next_segment w1.state = next_segment w.state := by
          unfold next_segment; rw [hseg, hwr]
        rw [hseg2, hseg, hns]
      · simp only [List.any_cons, hcf, Bool.false_or]; rw [hsn2, hsn]

/-- C18: with userdata and pool present, `encoder_buffer_callback` rotates the
segment (segmentNumber becomes the next segment number, splitNow 0, `base_time`
the current time) exactly when the guard `rotation_due` holds on entry: the
buffer carries the config flag and either segmentSize is non-zero and the
interval has elapsed, or splitWait and splitNow are both set; otherwise, and so
for every buffer without the config flag, segmentNumber and splitNow are
unchanged; and with no segment interval an armed splitNow makes exactly one
callback of any run rotate, the one for the first config buffer. -/
theorem rotation_trigger (w : World) (b : MMAL_BUFFER_HEADER_T) (accept : Bool)
    (bs : List (MMAL_BUFFER_HEADER_T × Bool)) (p : MMAL_POOL_T)
    (hud : w.video_port.userdata = true) (hpool : w.state.video_encoder_pool = some p) :
    (∃ w2, encoder_buffer_callback w b accept = Except.ok w2 ∧
      (rotation_due w b →
        w2.state.segmentNumber = next_segment w.state ∧ w2.state.splitNow = 0 ∧
        w2.base_time = w.now_ms) ∧
      (¬ rotation_due w b →
        w2.state.segmentNumber = w.state.segmentNumber ∧
        w2.state.splitNow = w.state.splitNow) ∧
      (has_flag b.flags MMAL_BUFFER_HEADER_FLAG_CONFIG = false →
        w2.state.segmentNumber = w.state.segmentNumber ∧
        w2.state.splitNow = w.state.splitNow)) ∧
    (w.state.segmentSize = 0 → w.state.splitWait ≠ 0 → w.state.splitNow ≠ 0 →
      ∃ w3, encoder_buffer_callbacks w bs = Except.ok w3 ∧
        rotation_count w bs =
          (if bs.any (fun x => has_flag x.1.flags MMAL_BUFFER_HEADER_FLAG_CONFIG) = true then 1
           else 0) ∧
        (bs.any (fun x => has_flag x.1.flags MMAL_BUFFER_HEADER_FLAG_CONFIG) = true →
          w3.state.segmentNumber = next_segment w.state ∧ w3.state.splitNow = 0)) := by
  refine ⟨?_, ?_⟩
  · obtain ⟨w2, _, hret, _, _, hseg, hsn, hbt, _⟩ := rotation_step w b accept p hud hpool
    refine ⟨w2, hret, ?_, ?_, ?_⟩
    · intro hdue
      rw [if_pos hdue] at hseg hsn hbt
      exact ⟨hseg, hsn, hbt⟩
    · intro hnd
      rw [if_neg hnd] at hseg hsn
      exact ⟨hseg, hsn⟩
    · intro hcf
      rw [if_neg (not_config_not_due w b hcf)] at hseg hsn
      exact ⟨hseg, hsn⟩
  · intro hsize hwait hnow
    obtain ⟨w3, hret, hcount, hseg, hsn⟩ :=
      rotation_count_armed bs w p hud hpool hsize hwait hnow
    refine ⟨w3, hret, hcount, ?_⟩
    intro hany
    rw [if_pos hany] at hseg hsn
    exact ⟨hseg, hsn⟩

/-- C18 at an armed split followed by two codec-header buffers: one rotation. -/
theorem rotation_trigger_witness :
    ∃ w3, encoder_buffer_callbacks wrap_world [(config_buffer, true), (config_buffer, true)] =
        Except.ok w3 ∧
      rotation_count wrap_world [(config_buffer, true), (config_buffer, true)] = 1 ∧
      w3.state.segmentNumber = 1 ∧ w3.state.splitNow = 0 := by
  obtain ⟨w3, hret, hcount, hrest⟩ :=
    (rotation_trigger wrap_world config_buffer true
      [(config_buffer, true), (config_buffer, true)] { queue := [] } rfl rfl).2
      rfl (by decide) (by decide)
  obtain ⟨hseg, hsn⟩ := hrest (by decide)
  exact ⟨w3, hret, hcount, hseg, hsn⟩

/-! ### The still callback: accumulation and reset -/

/-- The test of line 2760 in terms of the two flags. -/
theorem has_flag_completes (b : MMAL_BUFFER_HEADER_T) :
    has_flag b.flags
      (MMAL_BUFFER_HEADER_FLAG_FRAME_END ||| MMAL_BUFFER_HEADER_FLAG_TRANSMISSION_FAILED) =
      completes b := by
  unfold completes
  by_cases h1 : has_flag b.flags MMAL_BUFFER_HEADER_FLAG_FRAME_END = true
  · rw [frame_end_completes b.flags h1, h1]; rfl
  · by_cases h2 : has_flag b.flags MMAL_BUFFER_HEADER_FLAG_TRANSMISSION_FAILED = true
    · have h3 : has_flag b.flags
          (MMAL_BUFFER_HEADER_FLAG_FRAME_END ||| MMAL_BUFFER_HEADER_FLAG_TRANSMISSION_FAILED) =
          true := by
        simp only [has_flag, bne_iff_ne, ne_eq] at h2 ⊢
        intro h0
        apply h2
        have h4 : MMAL_BUFFER_HEADER_FLAG_TRANSMISSION_FAILED =
            (MMAL_BUFFER_HEADER_FLAG_FRAME_END |||
              MMAL_BUFFER_HEADER_FLAG_TRANSMISSION_FAILED) &&&
              MMAL_BUFFER_HEADER_FLAG_TRANSMISSION_FAILED := by decide
        rw [h4, ← Nat.and_assoc, h0]
        simp
      rw [h3, h2]; simp
    · simp only [Bool.not_eq_true] at h1 h2
      rw [h1, h2]
      simp only [has_flag, bne_eq_false_iff_eq, Bool.or_false] at h1 h2 ⊢
      rw [Nat.and_or_distrib_left, h1, h2]
      rfl

/-- What `still_accumulate` leaves: the accumulator grown by the bytes of the
buffer, and whether the buffer completes the capture. -/
theorem still_accumulate_eq (state : CAM_STATE) (b : MMAL_BUFFER_HEADER_T)
    (hz : state.work_image_data = none → state.work_image_data_length = 0) :
    (still_accumulate state b).2 = completes b ∧
    (still_accumulate state b).1.work_image_data.getD [] =
      state.work_image_data.getD [] ++ still_payload b ∧
    (still_accumulate state b).1.work_image_data_length =
      state.work_image_data_length + b.length ∧
    ((still_accumulate state b).1.work_image_data = none →
      (still_accumulate state b).1.work_image_data_length = 0) ∧
    (still_accumulate state b).1.has_still_cb = state.has_still_cb ∧
    (still_accumulate state b).1.encoder_pool = state.encoder_pool ∧
    (still_accumulate state b).1.image_data = state.image_data ∧
    (still_accumulate state b).1.image_data_length = state.image_data_length := by
  refine ⟨?_, ?_⟩
  · simp only [still_accumulate, bytes_written_eq, ne_eq, not_true_eq_false, decide_False,
      Bool.false_or]
    exact has_flag_completes b
  · by_cases h0 : b.length = 0
    · have hp : still_payload b = [] := by unfold still_payload; rw [h0]; rfl
      simp only [still_accumulate, h0, ne_eq, not_true_eq_false, if_false, hp, List.append_nil,
        Nat.add_zero, true_and, and_true]
      exact hz
    · cases hw : state.work_image_data with
      | none =>
        have hl := hz hw
        simp [still_accumulate, h0, hw, hl, still_payload]
      | some acc =>
        simp [still_accumulate, h0, hw, still_payload, Nat.add_comm]

theorem still_delivered_append (a b : List Event) :
    still_delivered (a ++ b) = still_delivered a ++ still_delivered b := by
  induction a with
  | nil => rfl
  | cons e t ih => cases e <;> simp [still_delivered, ih]

theorem semaphore_post_count_append (a b : List Event) :
    semaphore_post_count (a ++ b) = semaphore_post_count a + semaphore_post_count b := by
  unfold semaphore_post_count
  exact List.count_append _ _ _

/-- The still callback up to the completion step: it returns, and before the
completion step the world differs from the one it met in the accumulated state,
the recycled pool and port, and at most an error line in the trace. -/
theorem still_callback_view (w : World) (b : MMAL_BUFFER_HEADER_T) (accept : Bool)
    (p : MMAL_POOL_T) (hud : w.still_port.userdata = true)
    (hpool : w.state.encoder_pool = some p) :
    ∃ p2 port2 t2,
      still_encoder_buffer_callback w b accept =
        Except.ok
          (if (still_accumulate w.state b).2 = true then
            still_complete { w with
              state := { (still_accumulate w.state b).1 with encoder_pool := some p2 }
              still_port := port2
              trace := t2 }
           else { w with
              state := { (still_accumulate w.state b).1 with encoder_pool := some p2 }
              still_port := port2
              trace := t2 }) ∧
      port2.userdata = true ∧
      (t2 = w.trace ∨ t2 = w.trace ++ [Event.log_unable_to_return_buffer]) := by
  have fp := still_accumulate_pool w.state b
  rw [hpool] at fp
  obtain ⟨p2, port2, trace2, hres, hu, _, ht⟩ :=
    resubmit_some { queue := p.queue ++ [b.id] } w.still_port accept w.trace hud
  refine ⟨p2, port2, trace2, ?_, hu, ht⟩
  simp only [still_encoder_buffer_callback, hud, if_true]
  rw [fp]
  simp only [pool_release, Option.map]
  rw [hres]

theorem still_delivered_tail (t t2 : List Event)
    (h : t2 = t ∨ t2 = t ++ [Event.log_unable_to_return_buffer]) :
    still_delivered t2 = still_delivered t ∧
    semaphore_post_count t2 = semaphore_post_count t := by
  rcases h with h | h
  · rw [h]; exact ⟨rfl, rfl⟩
  · rw [h, still_delivered_append, semaphore_post_count_append]
    exact ⟨by simp [still_delivered], by simp [semaphore_post_count]⟩

/-- One run of the still callback on a ready world. -/
theorem still_step (w : World) (b : MMAL_BUFFER_HEADER_T) (accept : Bool)
    (h : still_ready w) :
    ∃ w2, still_encoder_buffer_callback w b accept = Except.ok w2 ∧ still_ready w2 ∧
      (completes b = true →
        w2.state.work_image_data = none ∧ w2.state.work_image_data_length = 0 ∧
        (∃ d, still_delivered w2.trace = still_delivered w.trace ++
              [(d, w.state.work_image_data_length + b.length)] ∧
            d.getD [] = w.state.work_image_data.getD [] ++ still_payload b ∧
            w2.state.image_data =
              some ((d.getD []).take (w.state.work_image_data_length + b.length))) ∧
        w2.state.image_data_length = w.state.work_image_data_length + b.length ∧
        w2.semaphore = w.semaphore + 1 ∧
        semaphore_post_count w2.trace = semaphore_post_count w.trace + 1) ∧
      (completes b = false →
        still_delivered w2.trace = still_delivered w.trace ∧
        w2.state.work_image_data.getD [] =
          w.state.work_image_data.getD [] ++ still_payload b ∧
        w2.state.work_image_data_length = w.state.work_image_data_length + b.length ∧
        w2.semaphore = w.semaphore ∧
        semaphore_post_count w2.trace = semaphore_post_count w.trace) := by
  obtain ⟨hud, ⟨p, hpool⟩, hcb, hz⟩ := h
  obtain ⟨p2, port2, t2, hret, hu2, ht2⟩ := still_callback_view w b accept p hud hpool
  obtain ⟨a1, a2, a3, a4, a5, _, _, _⟩ := still_accumulate_eq w.state b hz
  obtain ⟨hd, hc⟩ := still_delivered_tail w.trace t2 ht2
  rw [a1] at hret
  cases hcomp : completes b with
  | true =>
    rw [hcomp] at hret
    simp only [if_true] at hret
    have hcb2 : (still_accumulate w.state b).1.has_still_cb = true := by rw [a5]; exact hcb
    refine ⟨_, hret, ⟨?_, ?_, ?_, ?_⟩, ?_, ?_⟩
    · simp only [still_complete, hcb2, if_true]; exact hu2
    · simp only [still_complete, hcb2, if_true]; exact ⟨p2, rfl⟩
    · simp only [still_complete, hcb2, if_true]
    · simp only [still_complete, hcb2, if_true, implies_true]
    · intro _
      simp only [still_complete, hcb2, if_true, true_and]
      refine ⟨⟨(still_accumulate w.state b).1.work_image_data, ?_, a2, ?_⟩, a3, ?_⟩
      · rw [still_delivered_append, hd, a3]; rfl
      · rw [a3]
        cases (still_accumulate w.state b).1.work_image_data <;> simp
      · rw [semaphore_post_count_append, hc]
        simp [semaphore_post_count]
    · intro hf; exact Bool.noConfusion hf
  | false =>
    rw [hcomp] at hret
    simp only [Bool.false_eq_true, if_false] at hret
    refine ⟨_, hret, ⟨hu2, ⟨p2, rfl⟩, by rw [← hcb]; exact a5, a4⟩, ?_, ?_⟩
    · intro hf; exact Bool.noConfusion hf
    · intro _
      exact ⟨hd, a2, a3, rfl, hc⟩

/-- Buffers that do not complete the capture only grow the accumulator. -/
theorem still_pre_run (pre : List (MMAL_BUFFER_HEADER_T × Bool)) :
    ∀ w : World, still_ready w → (∀ x ∈ pre, completes x.1 = false) →
      ∃ w1, still_encoder_buffer_callbacks w pre = Except.ok w1 ∧ still_ready w1 ∧
        still_delivered w1.trace = still_delivered w.trace ∧
        w1.state.work_image_data.getD [] =
          w.state.work_image_data.getD [] ++ (pre.map (fun x => still_payload x.1)).flatten ∧
        w1.state.work_image_data_length =
          w.state.work_image_data_length + (pre.map (fun x => x.1.length)).sum ∧
        w1.semaphore = w.semaphore := by
  induction pre with
  | nil => intro w h _; exact ⟨w, rfl, h, rfl, by simp, by simp, rfl⟩
  | cons x t ih =>
    intro w h hpre
    obtain ⟨b, a⟩ := x
    obtain ⟨w1, hret, hr1, _, hno⟩ := still_step w b a h
    obtain ⟨hd1, hacc1, hlen1, hsem1, _⟩ := hno (hpre (b, a) (List.mem_cons_self _ _))
    obtain ⟨w2, hret2, hr2, hd2, hacc2, hlen2, hsem2⟩ :=
      ih w1 hr1 (fun y hy => hpre y (List.mem_cons_of_mem _ hy))
    refine ⟨w2, by simp only [still_encoder_buffer_callbacks, hret]; exact hret2, hr2,
      by rw [hd2, hd1], ?_, ?_, by rw [hsem2, hsem1]⟩
    · rw [hacc2, hacc1]; simp
    · rw [hlen2, hlen1]; simp; omega

theorem still_encoder_buffer_callbacks_append (xs ys : List (MMAL_BUFFER_HEADER_T × Bool)) :
    ∀ w : World, still_encoder_buffer_callbacks w (xs ++ ys) =
      match still_encoder_buffer_callbacks w xs with
      | Except.error e => Except.error e
      | Except.ok w1 => still_encoder_buffer_callbacks w1 ys := by
  induction xs with
  | nil => intro w; rfl
  | cons x t ih =>
    intro w
    obtain ⟨b, a⟩ := x
    simp only [List.cons_append, still_encoder_buffer_callbacks]
    cases still_encoder_buffer_callback w b a with
    | error e => rfl
    | ok w1 => exact ih w1

/-- Over any run from a ready world the images handed to the consumer are the
ones the buffers make up, starting from the accumulator the run meets. -/
theorem still_run (bs : List (MMAL_BUFFER_HEADER_T × Bool)) :
    ∀ w : World, still_ready w →
      ∃ w2 extra, still_encoder_buffer_callbacks w bs = Except.ok w2 ∧ still_ready w2 ∧
        still_delivered w2.trace = still_delivered w.trace ++ extra ∧
        extra.map (fun d => (d.1.getD [], d.2)) =
          images (w.state.work_image_data.getD []) w.state.work_image_data_length
            (bs.map (fun x => x.1)) := by
  induction bs with
  | nil => intro w h; exact ⟨w, [], rfl, h, by simp, rfl⟩
  | cons x t ih =>
    intro w h
    obtain ⟨b, a⟩ := x
    obtain ⟨w1, hret, hr1, hyes, hno⟩ := still_step w b a h
    obtain ⟨w2, extra, hret2, hr2, hd2, hex⟩ := ih w1 hr1
    have hrun : still_encoder_buffer_callbacks w ((b, a) :: t) = Except.ok w2 := by
      simp only [still_encoder_buffer_callbacks, hret]; exact hret2
    cases hcomp : completes b with
    | true =>
      obtain ⟨hnone, hzero, ⟨d, hd1, hdd, _⟩, _⟩ := hyes hcomp
      refine ⟨w2, (d, w.state.work_image_data_length + b.length) :: extra, hrun, hr2, ?_, ?_⟩
      · rw [hd2, hd1]; simp
      · rw [hnone, hzero] at hex
        simp only [List.map_cons, images, hcomp, if_true, hdd]
        rw [hex]; rfl
    | false =>
      obtain ⟨hd1, hacc1, hlen1, _⟩ := hno hcomp
      refine ⟨w2, extra, hrun, hr2, by rw [hd2, hd1], ?_⟩
      rw [hacc1, hlen1] at hex
      simp only [List.map_cons, images, hcomp, Bool.false_eq_true, if_false]
      exact hex

/-- C14: from an empty accumulator, with userdata, pool and a registered still
consumer, for buffers b1..bn of which bn is the first to carry the frame-end or
the transmission-failed flag: no prefix of b1..b(n-1) invokes the consumer, and
the callback on bn invokes it exactly once, with the concatenation of the
payloads of b1..bn in arrival order and the sum of their lengths. -/
theorem still_accumulation (w : World) (pre : List (MMAL_BUFFER_HEADER_T × Bool))
    (b : MMAL_BUFFER_HEADER_T) (accept : Bool) (hready : still_ready w)
    (hempty : w.state.work_image_data = none)
    (hpre : ∀ x ∈ pre, completes x.1 = false) (hb : completes b = true) :
    (∀ k, ∃ wk, still_encoder_buffer_callbacks w (pre.take k) = Except.ok wk ∧
      still_delivered wk.trace = still_delivered w.trace) ∧
    ∃ w1 w2, still_encoder_buffer_callbacks w pre = Except.ok w1 ∧
      still_encoder_buffer_callback w1 b accept = Except.ok w2 ∧
      still_encoder_buffer_callbacks w (pre ++ [(b, accept)]) = Except.ok w2 ∧
      ∃ d, still_delivered w2.trace = still_delivered w.trace ++
          [(d, (pre.map (fun x => x.1.length)).sum + b.length)] ∧
        d.getD [] = (pre.map (fun x => still_payload x.1)).flatten ++ still_payload b := by
  have hlen0 : w.state.work_image_data_length = 0 := hready.2.2.2 hempty
  refine ⟨?_, ?_⟩
  · intro k
    obtain ⟨wk, hret, _, hd, _⟩ := still_pre_run (pre.take k) w hready
      (fun x hx => hpre x (List.mem_of_mem_take hx))
    exact ⟨wk, hret, hd⟩
  · obtain ⟨w1, hret1, hr1, hd1, hacc1, hlen1, _⟩ := still_pre_run pre w hready hpre
    obtain ⟨w2, hret2, _, hyes, _⟩ := still_step w1 b accept hr1
    obtain ⟨_, _, ⟨d, hd2, hdd, _⟩, _⟩ := hyes hb
    refine ⟨w1, w2, hret1, hret2, ?_, d, ?_, ?_⟩
    · rw [still_encoder_buffer_callbacks_append, hret1]
      simp only [still_encoder_buffer_callbacks, hret2]
    · rw [hd2, hd1, hlen1, hlen0, Nat.zero_add]
    · rw [hdd, hacc1, hempty]; rfl

theorem still_world_ready : still_ready still_world :=
  ⟨rfl, ⟨_, rfl⟩, rfl, fun _ => rfl⟩

/-- C14 at a capture of two buffers. -/
theorem still_accumulation_witness :
    ∃ w2, still_encoder_buffer_callbacks still_world
        ([(data_buffer 0 0 [1, 2], true)] ++
          [(data_buffer MMAL_BUFFER_HEADER_FLAG_FRAME_END 0 [3], true)]) = Except.ok w2 ∧
      ∃ d, still_delivered w2.trace = still_delivered still_world.trace ++ [(d, 2 + 1)] ∧
        d.getD [] = [1, 2, 3] := by
  obtain ⟨_, _, w2, _, _, hrun, d, hd, hdd⟩ := still_accumulation still_world
    [(data_buffer 0 0 [1, 2], true)] (data_buffer MMAL_BUFFER_HEADER_FLAG_FRAME_END 0 [3]) true
    still_world_ready rfl (by decide) (by decide)
  exact ⟨w2, hrun, d, hd, hdd⟩

/-- The branch of the completion block that has a still consumer callback
(cam.c 2790-2798): whenever `still_encoder_buffer_callback` completes a capture
(frame-end or transmission-failed buffer) there, on return the working
accumulator is null with length 0, the stable output buffer holds exactly the
bytes handed to the consumer, and the semaphore was posted exactly once; so over
any run of captures from an empty accumulator the images delivered are, in
order, the concatenations of the buffers of each capture. -/
theorem still_reset (w : World) (b : MMAL_BUFFER_HEADER_T) (accept : Bool)
    (bs : List (MMAL_BUFFER_HEADER_T × Bool)) (hready : still_ready w) :
    (completes b = true →
      ∃ w2, still_encoder_buffer_callback w b accept = Except.ok w2 ∧
        w2.state.work_image_data = none ∧ w2.state.work_image_data_length = 0 ∧
        (∃ d n, still_delivered w2.trace = still_delivered w.trace ++ [(d, n)] ∧
          w2.state.image_data = some ((d.getD []).take n) ∧
          w2.state.image_data_length = n) ∧
        w2.semaphore = w.semaphore + 1 ∧
        semaphore_post_count w2.trace = semaphore_post_count w.trace + 1) ∧
    (w.state.work_image_data = none →
      ∃ w3 extra, still_encoder_buffer_callbacks w bs = Except.ok w3 ∧
        still_delivered w3.trace = still_delivered w.trace ++ extra ∧
        extra.map (fun d => (d.1.getD [], d.2)) = images [] 0 (bs.map (fun x => x.1))) := by
  refine ⟨?_, ?_⟩
  · intro hb
    obtain ⟨w2, hret, _, hyes, _⟩ := still_step w b accept hready
    obtain ⟨h1, h2, ⟨d, hd, _, himg⟩, hlen, hsem, hpost⟩ := hyes hb
    exact ⟨w2, hret, h1, h2, ⟨d, _, hd, himg, hlen⟩, hsem, hpost⟩
  · intro hempty
    obtain ⟨w3, extra, hret, _, hd, hex⟩ := still_run bs w hready
    rw [hempty, hready.2.2.2 hempty] at hex
    exact ⟨w3, extra, hret, hd, hex⟩

/-- Two captures with a consumer, the first one cut short by a transmission
failure. -/
theorem still_reset_witness :
    ∃ w3 extra, still_encoder_buffer_callbacks still_world
        [(data_buffer 0 0 [1, 2], true),
         (data_buffer MMAL_BUFFER_HEADER_FLAG_TRANSMISSION_FAILED 0 [3], true),
         (data_buffer MMAL_BUFFER_HEADER_FLAG_FRAME_END 0 [4, 5], true)] = Except.ok w3 ∧
      still_delivered w3.trace = still_delivered still_world.trace ++ extra ∧
      extra.map (fun d => (d.1.getD [], d.2)) = [([1, 2, 3], 3), ([4, 5], 2)] :=
  (still_reset still_world (data_buffer 0 0 []) true
    [(data_buffer 0 0 [1, 2], true),
     (data_buffer MMAL_BUFFER_HEADER_FLAG_TRANSMISSION_FAILED 0 [3], true),
     (data_buffer MMAL_BUFFER_HEADER_FLAG_FRAME_END 0 [4, 5], true)] still_world_ready).2 rfl

/-- C15 fails on the code: with no consumer callback registered (`still_cb` is
NULL, the branch of cam.c 2799-2801), a frame-end buffer completes the capture
(the semaphore is posted) but the accumulator is not reset and keeps the bytes
[1, 2] with length 2, where the branch with a callback (cam.c 2796-2798) frees
and resets it; once `capture_still` has registered a callback, the image
delivered for the next capture, whose only buffer is [3], is [1, 2, 3]: it
contains bytes of the capture before. -/
theorem still_reset_fails_without_consumer :
    (prefilled_world 3).state.has_still_cb = false ∧
    completes (data_buffer MMAL_BUFFER_HEADER_FLAG_FRAME_END 0 [1, 2]) = true ∧
    ∃ w2, still_encoder_buffer_callback (prefilled_world 3)
        (data_buffer MMAL_BUFFER_HEADER_FLAG_FRAME_END 0 [1, 2]) true = Except.ok w2 ∧
      w2.semaphore = 1 ∧ w2.state.work_image_data = some [1, 2] ∧
      w2.state.work_image_data_length = 2 ∧
      ∃ w3, still_encoder_buffer_callback
          { w2 with state := { w2.state with has_still_cb := true } }
          (data_buffer MMAL_BUFFER_HEADER_FLAG_FRAME_END 0 [3]) true = Except.ok w3 ∧
        still_delivered w3.trace = [(some [1, 2, 3], 3)] := by
  refine ⟨rfl, by decide, ⟨_, rfl, rfl, rfl, rfl, ⟨_, rfl, rfl⟩⟩⟩

/-! ### The single still capture: the buffers of one capture -/

/-- A buffer with neither the frame-end nor the transmission-failed flag does
not complete the capture. -/
theorem still_accumulate_continue (state : CAM_STATE) (buffer : MMAL_BUFFER_HEADER_T)
    (h1 : has_flag buffer.flags MMAL_BUFFER_HEADER_FLAG_FRAME_END = false)
    (h2 : has_flag buffer.flags MMAL_BUFFER_HEADER_FLAG_TRANSMISSION_FAILED = false) :
    (still_accumulate state buffer).2 = false ∧
    (still_accumulate state buffer).1.has_still_cb = state.has_still_cb := by
  constructor
  · simp only [still_accumulate, bytes_written_eq, ne_eq, not_true_eq_false, decide_False,
      Bool.false_or]
    rw [has_flag_completes]
    unfold completes
    rw [h1, h2]
    rfl
  · simp only [still_accumulate]
    split_ifs
    · cases state.work_image_data <;> rfl
    · rfl

/-- A data buffer completed on the enabled still port, all other buffers of the
pool in flight: the callback accumulates it and sends it back; the consumer is
not invoked and the semaphore not posted.  The port holds one buffer less when
it rejects the buffer sent back. -/
theorem still_data_completion (v : World) (d : Completion) (k : Nat)
    (hen : v.still_port.is_enabled = true) (hud : v.still_port.userdata = true)
    (hpool : v.state.encoder_pool = some { queue := [] })
    (hk : k + rejections [d] < v.still_port.held.length)
    (h1 : has_flag d.flags MMAL_BUFFER_HEADER_FLAG_FRAME_END = false)
    (h2 : has_flag d.flags MMAL_BUFFER_HEADER_FLAG_TRANSMISSION_FAILED = false) :
    ∃ v2, still_completion v d = Except.ok v2 ∧
      v2.still_port.is_enabled = true ∧ v2.still_port.userdata = true ∧
      v2.state.encoder_pool = some { queue := [] } ∧ k < v2.still_port.held.length ∧
      v2.state.has_still_cb = v.state.has_still_cb ∧ v2.semaphore = v.semaphore ∧
      still_counts v2.trace = still_counts v.trace := by
  have hne : v.still_port.held ≠ [] := by
    intro h
    rw [h] at hk
    simp at hk
  obtain ⟨b, hb, hflags⟩ := completion_buffer_some d _ hne
  have hmem := completion_buffer_mem d _ b hb
  have hlen := erase_length_succ _ _ hmem
  obtain ⟨a1, a2⟩ := still_accumulate_continue v.state b (hflags ▸ h1) (hflags ▸ h2)
  have a3 := still_accumulate_pool v.state b
  rw [hpool] at a3
  cases ha : d.accept with
  | true =>
    have hk2 : k < v.still_port.held.length := by omega
    simp only [still_completion, hb, still_encoder_buffer_callback, hud, if_true, a1, a3,
      pool_release, Option.map, resubmit, hen, List.nil_append, ha, Bool.false_eq_true,
      if_false]
    refine ⟨_, rfl, rfl, rfl, rfl, ?_, a2, rfl, rfl⟩
    simp only [List.length_append, List.length_singleton]
    omega
  | false =>
    have hr : rejections [d] = 1 := by simp [rejections, ha]
    rw [hr] at hk
    simp only [still_completion, hb, still_encoder_buffer_callback, hud, if_true, a1, a3,
      pool_release, Option.map, resubmit, hen, List.nil_append, ha, Bool.false_eq_true,
      if_false]
    refine ⟨_, rfl, rfl, rfl, rfl, ?_, a2, rfl, ?_⟩
    · show k < (v.still_port.held.erase b.id).length
      omega
    · simp only [still_counts_append]
      simp [still_counts, trigger_count, semaphore_wait_count, still_cb_count]

theorem rejections_cons (d : Completion) (cs : List Completion) :
    rejections (d :: cs) = rejections [d] + rejections cs := by
  unfold rejections
  cases h : d.accept
  · simp [List.filter, h]
    omega
  · simp [List.filter, h]

/-- The data buffers of a capture, while the port rejects fewer of the buffers
sent back than it holds: every one of them is accumulated and recycled, the
port still holds a buffer afterwards, and neither the consumer nor the semaphore
has been touched. -/
theorem still_data_completions (cs : List Completion) (tl : List Completion) :
    ∀ v : World, v.still_port.is_enabled = true → v.still_port.userdata = true →
      v.state.encoder_pool = some { queue := [] } →
      rejections cs < v.still_port.held.length →
      (∀ d ∈ cs, has_flag d.flags MMAL_BUFFER_HEADER_FLAG_FRAME_END = false ∧
        has_flag d.flags MMAL_BUFFER_HEADER_FLAG_TRANSMISSION_FAILED = false) →
      ∃ v2, still_completions v (cs ++ tl) = still_completions v2 tl ∧
        v2.still_port.userdata = true ∧ v2.state.encoder_pool = some { queue := [] } ∧
        v2.still_port.held ≠ [] ∧ v2.state.has_still_cb = v.state.has_still_cb ∧
        v2.semaphore = v.semaphore ∧ still_counts v2.trace = still_counts v.trace := by
  induction cs with
  | nil =>
    intro v _ hud hpool hk _
    refine ⟨v, rfl, hud, hpool, ?_, rfl, rfl, rfl⟩
    intro h
    rw [h] at hk
    simp at hk
  | cons d t ih =>
    intro v hen hud hpool hk hdata
    rw [rejections_cons] at hk
    obtain ⟨f1, f2⟩ := hdata d (List.mem_cons_self _ _)
    obtain ⟨v1, r1, en1, ud1, pool1, k1, cb1, sem1, cnt1⟩ :=
      still_data_completion v d (rejections t) hen hud hpool (by omega) f1 f2
    obtain ⟨v2, r2, ud2, pool2, held2, cb2, sem2, cnt2⟩ :=
      ih v1 en1 ud1 pool1 k1 (fun x hx => hdata x (List.mem_cons_of_mem _ hx))
    refine ⟨v2, ?_, ud2, pool2, held2, cb2.trans cb1, sem2.trans sem1, cnt2.trans cnt1⟩
    simp only [List.cons_append, still_completions, r1]
    exact r2

/-- The trigger block when the trigger is accepted and the encoder completes the
data buffers of the capture followed by one frame-end buffer: one trigger, one
wait, one delivery to the consumer. -/
theorem still_trigger_frame (v : World) (cs : List Completion) (c : Completion)
    (rest : List (List Completion))
    (hst : v.hw_status = []) (hfills : v.still_fills = (cs ++ [c]) :: rest)
    (hen : v.still_port.is_enabled = true) (hud : v.still_port.userdata = true)
    (hrej : rejections cs < v.still_port.held.length)
    (hpool : v.state.encoder_pool = some { queue := [] }) (hcb : v.state.has_still_cb = true)
    (hdata : ∀ d ∈ cs, has_flag d.flags MMAL_BUFFER_HEADER_FLAG_FRAME_END = false ∧
      has_flag d.flags MMAL_BUFFER_HEADER_FLAG_TRANSMISSION_FAILED = false)
    (hend : has_flag c.flags MMAL_BUFFER_HEADER_FLAG_FRAME_END = true) :
    ∃ v10, still_trigger v = Except.ok v10 ∧
      still_counts v10.trace =
        ((still_counts v.trace).1 + 1, (still_counts v.trace).2.1 + 1,
         (still_counts v.trace).2.2 + 1) := by
  obtain ⟨v8, r8, ud8, pool8, held8, cb8, sem8, cnt8⟩ := still_data_completions cs [c]
    { v with trace := v.trace ++ [Event.set_still_capture] ++ [Event.semaphore_wait],
             still_fills := v.still_fills.tail } hen hud hpool hrej hdata
  obtain ⟨b, hb, hflags⟩ := completion_buffer_some c v8.still_port.held held8
  obtain ⟨w9, h9, s9, c9⟩ := still_callback_completes
    { v8 with still_port := { v8.still_port with held := v8.still_port.held.erase b.id } }
    b c.accept { queue := [] } ud8 pool8 (cb8.trans hcb) (hflags ▸ hend)
  have hsem9 : w9.semaphore ≠ 0 := by
    rw [s9]
    simp
  have hrun : still_completions
      { v with trace := v.trace ++ [Event.set_still_capture] ++ [Event.semaphore_wait],
               still_fills := v.still_fills.tail } (cs ++ [c]) = Except.ok w9 := by
    rw [r8]
    simp only [still_completions, still_completion, hb, h9]
  simp only [still_trigger, World.pop_status, hst, hfills, List.head?_cons, Option.getD_some,
    ne_eq, not_true_eq_false, if_false]
  simp only [hfills, hst] at hrun
  rw [hrun]
  simp only [if_neg hsem9]
  refine ⟨_, rfl, ?_⟩
  rw [c9]
  simp only at cnt8 ⊢
  rw [cnt8]
  simp only [still_counts_append]
  simp [still_counts, trigger_count, semaphore_wait_count, still_cb_count]

/-- One pass of the capture block with cooperative hardware: it returns, having
triggered once, waited once and delivered once. -/
theorem capture_still_once_frame (v : World) (p : MMAL_POOL_T) (cs : List Completion)
    (c : Completion) (rest : List (List Completion))
    (henc : v.state.still_encoder_component = true) (hcam : v.state.camera_component = true)
    (hst : v.hw_status = []) (hpool : v.state.encoder_pool = some p)
    (hrej : rejections cs < p.queue.length)
    (hheld : v.still_port.held = []) (hcb : v.state.has_still_cb = true)
    (hfills : v.still_fills = (cs ++ [c]) :: rest)
    (hdata : ∀ d ∈ cs, has_flag d.flags MMAL_BUFFER_HEADER_FLAG_FRAME_END = false ∧
      has_flag d.flags MMAL_BUFFER_HEADER_FLAG_TRANSMISSION_FAILED = false)
    (hend : has_flag c.flags MMAL_BUFFER_HEADER_FLAG_FRAME_END = true) :
    ∃ v2, capture_still_once v = Except.ok v2 ∧
      still_counts v2.trace =
        ((still_counts v.trace).1 + 1, (still_counts v.trace).2.1 + 1,
         (still_counts v.trace).2.2 + 1) := by
  obtain ⟨v6, h6, en6, ud6, held6, pool6, cb6, st6, fills6, _, cnt6⟩ :=
    still_setup_ok v p henc hcam hst hpool hheld
  obtain ⟨v10, h10, cnt10⟩ := still_trigger_frame v6 cs c rest st6
    (fills6.trans hfills) en6 ud6 (held6 ▸ hrej) pool6 (cb6.trans hcb) hdata hend
  obtain ⟨v11, h11, cnt11⟩ := still_disable_ok v10
  refine ⟨v11, ?_, ?_⟩
  · simp only [capture_still_once, h6, h10, h11]
  · rw [cnt11, cnt10, cnt6]

/-- C9: a still session with frameNextMethod = Single (for every timeout, so in
particular timeout = 0), on hardware that accepts every call and answers the
trigger with the buffers of one capture, that is any number of data buffers
(carrying neither the frame-end nor the transmission-failed flag) followed by
one frame-end buffer, the port rejecting fewer of the buffers sent back than the
pool has buffers: `capture_still` returns (for any positive fuel, i.e. after a
single pass of its loop), having triggered the capture exactly once, waited on
the completion semaphore exactly once, and invoked the still consumer callback
exactly once. -/
theorem single_still (w : World) (fuel : Nat) (frame : Int) (p : MMAL_POOL_T)
    (cs : List Completion) (c : Completion) (rest : List (List Completion))
    (hm : w.state.frameNextMethod = FRAME_NEXT_SINGLE)
    (henc : w.state.still_encoder_component = true) (hcam : w.state.camera_component = true)
    (hst : w.hw_status = []) (hpool : w.state.encoder_pool = some p)
    (hrej : rejections cs < p.queue.length)
    (hheld : w.still_port.held = []) (hfills : w.still_fills = (cs ++ [c]) :: rest)
    (hdata : ∀ d ∈ cs, has_flag d.flags MMAL_BUFFER_HEADER_FLAG_FRAME_END = false ∧
      has_flag d.flags MMAL_BUFFER_HEADER_FLAG_TRANSMISSION_FAILED = false)
    (hend : has_flag c.flags MMAL_BUFFER_HEADER_FLAG_FRAME_END = true) :
    ∃ w2, capture_still (fuel + 1) w true frame = Except.ok w2 ∧
      trigger_count w2.trace = trigger_count w.trace + 1 ∧
      semaphore_wait_count w2.trace = semaphore_wait_count w.trace + 1 ∧
      still_cb_count w2.trace = still_cb_count w.trace + 1 := by
  have hwait := wait_for_next_frame_single
    { w with state := { w.state with has_still_cb := true }, semaphore := 0 } frame hm
  obtain ⟨v2, h2, cnt2⟩ := capture_still_once_frame
    (vcos_sleep { w with
        state := { w.state with has_still_cb := true }
        semaphore := 0
        frame_complete_time :=
          (if w.frame_complete_time = -1 then w.now_ms + w.state.timeout
           else w.frame_complete_time) } w.state.timeout)
    p cs c rest henc hcam hst hpool hrej hheld rfl hfills hdata hend
  refine ⟨v2, ?_, ?_⟩
  · simp only [capture_still, capture_still_loop, hwait]
    simp only [World.now_ms] at h2 ⊢
    rw [h2]
    simp
  · have hc : still_counts (vcos_sleep { w with
        state := { w.state with has_still_cb := true }
        semaphore := 0
        frame_complete_time :=
          (if w.frame_complete_time = -1 then w.now_ms + w.state.timeout
           else w.frame_complete_time) } w.state.timeout).trace = still_counts w.trace := by
      simp only [vcos_sleep, still_counts_append]
      simp [still_counts, trigger_count, semaphore_wait_count, still_cb_count]
    rw [hc] at cnt2
    simp only [still_counts, Prod.mk.injEq] at cnt2
    exact cnt2

/-- C9 at a concrete Single session whose capture arrives as two data buffers
and one frame-end buffer: one trigger, one wait, one delivery. -/
theorem single_still_witness :
    ∃ w2, capture_still (0 + 1) single_frame_world true 0 = Except.ok w2 ∧
      trigger_count w2.trace = trigger_count single_frame_world.trace + 1 ∧
      semaphore_wait_count w2.trace = semaphore_wait_count single_frame_world.trace + 1 ∧
      still_cb_count w2.trace = still_cb_count single_frame_world.trace + 1 :=
  single_still single_frame_world 0 0 { queue := [0, 1, 2] }
    [{ pick := 0, flags := 0, pts := 1000, length := 2, offset := 0,
       data := [1, 2], accept := false },
     { pick := 1, flags := 0, pts := 1000, length := 1, offset := 0,
       data := [3], accept := true }] (sample_completion true) []
    rfl rfl rfl rfl rfl (by decide) rfl rfl (by decide) (by decide)

/-! ### H264 level selection -/

theorem profile_sent_append (l l2 : List EncCall) :
    profile_sent (l ++ l2) = profile_sent l ++ profile_sent l2 := by
  induction l with
  | nil => rfl
  | cons c t ih => cases c <;> simp [profile_sent, ih]

theorem align16_ceil (n : Nat) :
    ((VCOS_ALIGN_UP n 16 / 16 : Nat) : Int) = ⌈(n : ℚ) / 16⌉ := by
  have h1 : VCOS_ALIGN_UP n 16 / 16 = (n + 15) / 16 := by
    unfold VCOS_ALIGN_UP; omega
  rw [h1]
  obtain ⟨k, hk⟩ : ∃ k, (n + 15) / 16 = k := ⟨_, rfl⟩
  rw [hk]
  have h2 : 16 * k ≤ n + 15 := by omega
  have h4 : n ≤ 16 * k := by omega
  have h2q : (16 : ℚ) * (k : ℚ) ≤ (n : ℚ) + 15 := by exact_mod_cast h2
  have h4q : (n : ℚ) ≤ 16 * (k : ℚ) := by exact_mod_cast h4
  symm
  rw [Int.ceil_eq_iff]
  simp only [Int.cast_natCast]
  constructor
  · rw [lt_div_iff₀ (by norm_num : (0 : ℚ) < 16)]
    linarith
  · rw [div_le_iff₀ (by norm_num : (0 : ℚ) < 16)]
    linarith

/-- The macroblock rate the code computes is
ceil(width/16) * ceil(height/16) * framerate modulo 2^32. -/
theorem macroblock_rate_ceil_mod (state : CAM_STATE) :
    ((macroblock_rate state : Nat) : Int) =
      spec_macroblock_rate state.width state.height state.framerate % 4294967296 := by
  unfold macroblock_rate spec_macroblock_rate
  rw [← align16_ceil, ← align16_ceil]
  push_cast
  rfl

/-- The macroblock rate the code computes is
ceil(width/16) * ceil(height/16) * framerate when that fits 32 bits. -/
theorem macroblock_rate_ceil (state : CAM_STATE)
    (h32 : spec_macroblock_rate state.width state.height state.framerate < 4294967296) :
    ((macroblock_rate state : Nat) : Int) =
      spec_macroblock_rate state.width state.height state.framerate := by
  rw [macroblock_rate_ceil_mod]
  have h0 : 0 ≤ spec_macroblock_rate state.width state.height state.framerate := by
    unfold spec_macroblock_rate
    rw [← align16_ceil, ← align16_ceil]
    positivity
  exact Int.emod_eq_of_lt h0 h32

theorem enc_create_before_profile (hw : EncoderHw) (state : CAM_STATE)
    (h : hw.accepts_setup) : (enc_create hw state).before_profile state := by
  obtain ⟨h1, h2, h3, _⟩ := h
  simp [enc_create, EncCtx.before_profile, h1, h2, h3, profile_sent]

theorem enc_format_before_profile (hw : EncoderHw) (c : EncCtx) (state : CAM_STATE)
    (h : hw.accepts_setup) (hc : c.before_profile state) :
    (enc_format hw c).before_profile state := by
  obtain ⟨_, _, _, h4, _⟩ := h
  obtain ⟨c1, c2, c3, c4, c5, c6, c7, c8, c9⟩ := hc
  simp [enc_format, EncCtx.before_profile, h4, c1, c2, c3, c4, c5, c6, c7, c8, c9,
    profile_sent_append, profile_sent]

theorem enc_intraperiod_before_profile (hw : EncoderHw) (c : EncCtx) (state : CAM_STATE)
    (h : hw.accepts_setup) (hc : c.before_profile state) :
    (enc_intraperiod hw c).before_profile state := by
  obtain ⟨_, _, _, _, h5, _⟩ := h
  obtain ⟨c1, c2, c3, c4, c5, c6, c7, c8, c9⟩ := hc
  simp only [enc_intraperiod, EncCtx.before_profile]
  split_ifs <;>
    simp_all [profile_sent_append, profile_sent]

theorem enc_slices_before_profile (hw : EncoderHw) (c : EncCtx) (state : CAM_STATE)
    (h : hw.accepts_setup) (hc : c.before_profile state) :
    (enc_slices hw c).before_profile state := by
  obtain ⟨_, _, _, _, _, h6, _⟩ := h
  obtain ⟨c1, c2, c3, c4, c5, c6, c7, c8, c9⟩ := hc
  simp only [enc_slices, EncCtx.before_profile]
  split_ifs <;>
    simp_all [profile_sent_append, profile_sent]

theorem enc_quant_before_profile (hw : EncoderHw) (c : EncCtx) (state : CAM_STATE)
    (h : hw.accepts_setup) (hc : c.before_profile state) :
    (enc_quant hw c).before_profile state := by
  obtain ⟨_, _, _, _, _, _, h7, h8, h9⟩ := h
  obtain ⟨c1, c2, c3, c4, c5, c6, c7, c8, c9⟩ := hc
  simp only [enc_quant, EncCtx.before_profile]
  split_ifs <;>
    simp_all [profile_sent_append, profile_sent]

theorem enc_prefix_before_profile (hw : EncoderHw) (state : CAM_STATE)
    (h : hw.accepts_setup) :
    (enc_quant hw (enc_slices hw (enc_intraperiod hw (enc_format hw
      (enc_create hw state))))).before_profile state :=
  enc_quant_before_profile hw _ state h
    (enc_slices_before_profile hw _ state h
      (enc_intraperiod_before_profile hw _ state h
        (enc_format_before_profile hw _ state h (enc_create_before_profile hw state h))))

/-- What the profile block does to a context that reaches it with H264. -/
theorem enc_profile_level (hw : EncoderHw) (c : EncCtx) (state : CAM_STATE)
    (h264 : state.encoding = MMAL_ENCODING_H264) (hc : c.before_profile state) :
    (macroblock_rate state ≤ 245760 →
      (enc_profile hw c).state.level = state.level ∧
      profile_sent (enc_profile hw c).calls = [(state.profile, state.level)]) ∧
    (245760 < macroblock_rate state → macroblock_rate state ≤ 522240 →
      (enc_profile hw c).state.level = MMAL_VIDEO_LEVEL_H264_42 ∧
      profile_sent (enc_profile hw c).calls = [(state.profile, MMAL_VIDEO_LEVEL_H264_42)]) ∧
    (522240 < macroblock_rate state →
      (enc_profile hw c).failed = true ∧ (enc_profile hw c).status = MMAL_EINVAL ∧
      (enc_profile hw c).encoder = true ∧ (enc_profile hw c).calls = c.calls) := by
  obtain ⟨c1, c2, c3, c4, c5, c6, c7, c8, c9⟩ := hc
  have hm : macroblock_rate c.state = macroblock_rate state := by
    unfold macroblock_rate; rw [c5, c6, c7]
  have he : c.state.encoding = MMAL_ENCODING_H264 := by rw [c4]; exact h264
  have hnf : ¬ (c.failed = true) := by rw [c1]; exact Bool.noConfusion
  refine ⟨?_, ?_, ?_⟩
  · intro hM
    have hn1 : ¬ (macroblock_rate state > 245760 ∧ ¬ macroblock_rate state ≤ 522240) := by omega
    have hn2 : ¬ (macroblock_rate state > 245760) := by omega
    simp only [enc_profile]
    rw [if_neg hnf, if_pos he]
    simp only [hm]
    rw [if_neg hn1]
    simp only [if_neg hn2]
    split_ifs <;> simp [profile_sent_append, profile_sent, c3, c8, c9]
  · intro hM1 hM2
    have hn1 : ¬ (macroblock_rate state > 245760 ∧ ¬ macroblock_rate state ≤ 522240) := by omega
    have hn2 : macroblock_rate state > 245760 := hM1
    simp only [enc_profile]
    rw [if_neg hnf, if_pos he]
    simp only [hm]
    rw [if_neg hn1]
    simp only [if_pos hn2]
    split_ifs <;> simp [profile_sent_append, profile_sent, c3, c8, c9]
  · intro hM
    have hn1 : macroblock_rate state > 245760 ∧ ¬ macroblock_rate state ≤ 522240 := by omega
    simp only [enc_profile]
    rw [if_neg hnf, if_pos he]
    simp only [hm]
    rw [if_pos hn1]
    exact ⟨rfl, rfl, c2, rfl⟩

theorem enc_flags_tail (hw : EncoderHw) (c : EncCtx) :
    profile_sent (enc_flags hw c).calls = profile_sent c.calls ∧
    (enc_flags hw c).state.level = c.state.level ∧
    (c.failed = true → enc_flags hw c = c) := by
  refine ⟨?_, ?_, ?_⟩
  · simp only [enc_flags]
    split_ifs <;> simp [profile_sent_append, profile_sent]
  · simp only [enc_flags]
    split_ifs <;> rfl
  · intro hf
    simp only [enc_flags, hf, if_true]

theorem enc_enable_tail (hw : EncoderHw) (c : EncCtx) :
    profile_sent (enc_enable hw c).calls = profile_sent c.calls ∧
    (enc_enable hw c).state.level = c.state.level ∧
    (c.failed = true → enc_enable hw c = c) := by
  refine ⟨?_, ?_, ?_⟩
  · simp only [enc_enable]
    split_ifs <;> simp [profile_sent_append, profile_sent]
  · simp only [enc_enable]
    split_ifs <;> rfl
  · intro hf
    simp only [enc_enable, hf, if_true]

theorem enc_finish_tail (hw : EncoderHw) (c : EncCtx) :
    profile_sent (enc_finish hw c).calls = profile_sent c.calls ∧
    (enc_finish hw c).state.level = c.state.level ∧
    (c.failed = true → c.encoder = true →
      (enc_finish hw c).status = c.status ∧
      (enc_finish hw c).calls = c.calls ++ [EncCall.component_destroy] ∧
      (enc_finish hw c).state.video_encoder_component = false) := by
  refine ⟨?_, ?_, ?_⟩
  · simp only [enc_finish]
    split_ifs <;> simp [profile_sent_append, profile_sent]
  · simp only [enc_finish]
    split_ifs <;> rfl
  · intro hf he
    simp only [enc_finish, hf, he, if_true]
    exact ⟨trivial, trivial, trivial⟩

/-- Level selection when the macroblock rate fits 32 bits: with H264 encoding,
when the hardware accepts everything asked before the profile block, and
M = ceil(width/16) * ceil(height/16) * framerate is below 2^32:
for M <= 245760 `create_encoder_component` keeps the requested level and sends
it; for 245760 < M <= 522240 it sets and sends Level 4.2; for M > 522240 it
returns MMAL_EINVAL without sending a profile, its last call destroys the
encoder, and the component pointer of the state is null. -/
theorem h264_level_selection (hw : EncoderHw) (state : CAM_STATE)
    (h264 : state.encoding = MMAL_ENCODING_H264) (hpre : hw.accepts_setup)
    (h32 : spec_macroblock_rate state.width state.height state.framerate < 4294967296) :
    (spec_macroblock_rate state.width state.height state.framerate ≤ 245760 →
      (create_encoder_component hw state).state.level = state.level ∧
      profile_sent (create_encoder_component hw state).calls =
        [(state.profile, state.level)]) ∧
    (245760 < spec_macroblock_rate state.width state.height state.framerate →
      spec_macroblock_rate state.width state.height state.framerate ≤ 522240 →
      (create_encoder_component hw state).state.level = MMAL_VIDEO_LEVEL_H264_42 ∧
      profile_sent (create_encoder_component hw state).calls =
        [(state.profile, MMAL_VIDEO_LEVEL_H264_42)]) ∧
    (522240 < spec_macroblock_rate state.width state.height state.framerate →
      (create_encoder_component hw state).status = MMAL_EINVAL ∧
      profile_sent (create_encoder_component hw state).calls = [] ∧
      (create_encoder_component hw state).calls.getLast? = some EncCall.component_destroy ∧
      (create_encoder_component hw state).state.video_encoder_component = false) := by
  have hM : spec_macroblock_rate state.width state.height state.framerate =
      ((macroblock_rate state : Nat) : Int) := (macroblock_rate_ceil state h32).symm
  rw [hM]
  have hbp := enc_prefix_before_profile hw state hpre
  obtain ⟨p1, p2, p3⟩ := enc_profile_level hw _ state h264 hbp
  have hsent : profile_sent (create_encoder_component hw state).calls =
      profile_sent (enc_profile hw (enc_quant hw (enc_slices hw (enc_intraperiod hw
        (enc_format hw (enc_create hw state)))))).calls := by
    unfold create_encoder_component
    rw [(enc_finish_tail hw _).1, (enc_enable_tail hw _).1, (enc_flags_tail hw _).1]
  have hlevel : (create_encoder_component hw state).state.level =
      (enc_profile hw (enc_quant hw (enc_slices hw (enc_intraperiod hw
        (enc_format hw (enc_create hw state)))))).state.level := by
    unfold create_encoder_component
    rw [(enc_finish_tail hw _).2.1, (enc_enable_tail hw _).2.1, (enc_flags_tail hw _).2.1]
  refine ⟨?_, ?_, ?_⟩
  · intro h
    obtain ⟨q1, q2⟩ := p1 (by omega)
    exact ⟨hlevel.trans q1, hsent.trans q2⟩
  · intro h1 h2
    obtain ⟨q1, q2⟩ := p2 (by omega) (by omega)
    exact ⟨hlevel.trans q1, hsent.trans q2⟩
  · intro h
    obtain ⟨q1, q2, q3, q4⟩ := p3 (by omega)
    have hfl := (enc_flags_tail hw _).2.2 q1
    have hen : enc_enable hw (enc_flags hw (enc_profile hw (enc_quant hw (enc_slices hw
        (enc_intraperiod hw (enc_format hw (enc_create hw state))))))) =
        enc_profile hw (enc_quant hw (enc_slices hw (enc_intraperiod hw
          (enc_format hw (enc_create hw state))))) := by
      rw [hfl]; exact (enc_enable_tail hw _).2.2 q1
    obtain ⟨f1, f2, f3⟩ := (enc_finish_tail hw _).2.2 q1 q3
    refine ⟨?_, ?_, ?_, ?_⟩
    · unfold create_encoder_component; rw [hen, f1, q2]
    · rw [hsent, q4]; exact hbp.2.2.1
    · unfold create_encoder_component; rw [hen, f2, List.getLast?_concat]
    · unfold create_encoder_component; rw [hen, f3]

theorem encoder_hw_ok_accepts : encoder_hw_ok.accepts_setup := by
  unfold EncoderHw.accepts_setup encoder_hw_ok
  decide

/-- Level selection at 1920x1080 and 60 frames per second (M = 489600):
Level 4.2. -/
theorem h264_level_selection_witness :
    (create_encoder_component encoder_hw_ok { default_state 0 with framerate := 60 }).state.level =
      MMAL_VIDEO_LEVEL_H264_42 ∧
    profile_sent
      (create_encoder_component encoder_hw_ok { default_state 0 with framerate := 60 }).calls =
      [(0, MMAL_VIDEO_LEVEL_H264_42)] :=
  (h264_level_selection encoder_hw_ok { default_state 0 with framerate := 60 } rfl
    encoder_hw_ok_accepts
    (by rw [spec_macroblock_rate, ← align16_ceil, ← align16_ceil]; decide)).2.1
    (by rw [spec_macroblock_rate, ← align16_ceil, ← align16_ceil]; decide)
    (by rw [spec_macroblock_rate, ← align16_ceil, ← align16_ceil]; decide)

/-- C16 fails on the code when the product wraps.  At 1920x1080 with H264 and a
frame rate of 526345 the macroblock rate is M = 120 * 68 * 526345 =
4,294,975,200, above 522,240, so the claim has creation fail with the
invalid-argument error and the encoder destroyed.  The code forms the product in
`uint32_t`, where it is 7904: creation succeeds, the requested Level 4 is kept
and sent, and the encoder component stays. -/
theorem h264_level_wraps :
    (default_state 0).encoding = MMAL_ENCODING_H264 ∧
    (default_state 0).width = 1920 ∧ (default_state 0).height = 1080 ∧
    spec_macroblock_rate 1920 1080 526345 = 4294975200 ∧
    522240 < spec_macroblock_rate 1920 1080 526345 ∧
    macroblock_rate { default_state 0 with framerate := 526345 } = 7904 ∧
    (create_encoder_component encoder_hw_ok
        { default_state 0 with framerate := 526345 }).status = MMAL_SUCCESS ∧
    (create_encoder_component encoder_hw_ok
        { default_state 0 with framerate := 526345 }).state.level = MMAL_VIDEO_LEVEL_H264_4 ∧
    profile_sent (create_encoder_component encoder_hw_ok
        { default_state 0 with framerate := 526345 }).calls = [(0, MMAL_VIDEO_LEVEL_H264_4)] ∧
    (create_encoder_component encoder_hw_ok
        { default_state 0 with framerate := 526345 }).state.video_encoder_component = true ∧
    EncCall.component_destroy ∉ (create_encoder_component encoder_hw_ok
        { default_state 0 with framerate := 526345 }).calls := by
  have hs : spec_macroblock_rate 1920 1080 526345 = 4294975200 := by
    rw [spec_macroblock_rate, ← align16_ceil, ← align16_ceil]; decide
  refine ⟨rfl, rfl, rfl, hs, ?_, by decide, by decide, by decide, by decide, by decide,
    by decide⟩
  rw [hs]; decide

/-! ### Split arming in the capture loop -/

theorem pop_status_state (w : World) :
    w.pop_status.2.state = w.state ∧ w.pop_status.2.trace = w.trace := by
  unfold World.pop_status
  cases w.hw_status <;> exact ⟨rfl, rfl⟩

theorem capture_send_all_bCapturing (n : Nat) :
    ∀ w : World, (capture_send_all n w).2.state.bCapturing = w.state.bCapturing := by
  induction n with
  | zero => intro w; rfl
  | succ k ih =>
    intro w
    simp only [capture_send_all]
    cases hp : w.state.video_encoder_pool with
    | none => rfl
    | some p =>
      obtain ⟨q⟩ := p
      cases q with
      | nil => rfl
      | cons b rest =>
        simp only
        split_ifs
        · rw [(pop_status_state _).1]
        · rw [ih, (pop_status_state _).1]

/-- C17, corrected: in the loop body of `capture` with splitWait set, a
Running to Paused change that the camera accepts sets splitNow to 1 when
`initialCapturing` is 0 and leaves splitNow alone otherwise; a Paused to Running
change never touches splitNow; after a loop body that does not return early
`initialCapturing` is 0, and `capture` enters the loop with `initialCapturing`
equal to the capture state it was called with.  So every Running to Paused
change arms the split except the first change of a `capture` that was entered in
state Running. -/
theorem split_now_arming (w : World) (ic : Int) (hsplit : w.state.splitWait ≠ 0) :
    (w.state.bCapturing ≠ 0 → w.pop_status.1 = MMAL_SUCCESS →
      (capture_toggle w ic).1 = none ∧
      (capture_toggle w ic).2.1.state.bCapturing = 0 ∧
      (capture_toggle w ic).2.1.state.splitNow = (if ic = 0 then 1 else w.state.splitNow) ∧
      (capture_toggle w ic).2.2 = 0) ∧
    (w.state.bCapturing = 0 →
      (capture_toggle w ic).2.1.state.splitNow = w.state.splitNow ∧
      ((capture_toggle w ic).1 = none →
        (capture_toggle w ic).2.1.state.bCapturing = 1 ∧ (capture_toggle w ic).2.2 = 0)) ∧
    (∀ (fuel : Nat) (p : MMAL_POOL_T), w.state.video_encoder_pool = some p →
      (capture_send_all p.queue.length w).1 = none →
      capture fuel w =
        capture_loop fuel (capture_send_all p.queue.length w).2 w.state.bCapturing) := by
  refine ⟨?_, ?_, ?_⟩
  · intro hrun hst
    have hl : lnot w.state.bCapturing = 0 := by unfold lnot; rw [if_neg hrun]
    have hst1 : (World.pop_status { w with
        state := { w.state with bCapturing := lnot w.state.bCapturing },
        trace := w.trace ++ [Event.set_video_capture (lnot w.state.bCapturing)] }).1 =
        MMAL_SUCCESS := by
      unfold World.pop_status at hst ⊢
      cases hh : w.hw_status with
      | nil => rfl
      | cons a t => rw [hh] at hst; exact hst
    obtain ⟨hs1, _⟩ := pop_status_state { w with
        state := { w.state with bCapturing := lnot w.state.bCapturing },
        trace := w.trace ++ [Event.set_video_capture (lnot w.state.bCapturing)] }
    simp only [capture_toggle]
    rw [if_neg (by rw [hst1]; exact fun h => h rfl)]
    rw [if_pos (by rw [hs1]; exact hsplit)]
    rw [if_neg (by rw [hs1]; exact fun h => h hl)]
    have hb : (World.pop_status { w with
        state := { w.state with bCapturing := lnot w.state.bCapturing },
        trace := w.trace ++ [Event.set_video_capture (lnot w.state.bCapturing)] }).2.state.bCapturing
        = 0 := by rw [hs1]; exact hl
    have hn : (World.pop_status { w with
        state := { w.state with bCapturing := lnot w.state.bCapturing },
        trace := w.trace ++ [Event.set_video_capture (lnot w.state.bCapturing)] }).2.state.splitNow
        = w.state.splitNow := by rw [hs1]
    refine ⟨rfl, ?_, ?_, rfl⟩
    · show (if ic = 0 then _ else _ : World).state.bCapturing = 0
      split_ifs
      · exact hb
      · exact hb
    · show (if ic = 0 then _ else _ : World).state.splitNow = _
      split_ifs
      · rfl
      · exact hn
  · intro hpause
    have hl : lnot w.state.bCapturing = 1 := by unfold lnot; rw [if_pos hpause]
    obtain ⟨hs1, _⟩ := pop_status_state { w with
        state := { w.state with bCapturing := lnot w.state.bCapturing },
        trace := w.trace ++ [Event.set_video_capture (lnot w.state.bCapturing)] }
    have hb1 : (World.pop_status { w with
        state := { w.state with bCapturing := lnot w.state.bCapturing },
        trace := w.trace ++ [Event.set_video_capture (lnot w.state.bCapturing)] }).2.state.bCapturing
        ≠ 0 := by
      rw [hs1]; show lnot w.state.bCapturing ≠ 0; rw [hl]; decide
    simp only [capture_toggle]
    split_ifs with h1 h2 h3
    · exact ⟨by rw [hs1], fun h => h.elim⟩
    · exact ⟨by rw [(pop_status_state _).1, hs1], fun h => h.elim⟩
    · refine ⟨by rw [(pop_status_state _).1, hs1], fun _ => ⟨?_, rfl⟩⟩
      rw [(pop_status_state _).1, hs1]; exact hl
    · exfalso; exact h2 (by rw [hs1]; exact hsplit)
  · intro fuel p hpool hsend
    simp only [capture, hpool, hsend]
    rw [capture_send_all_bCapturing]

/-- C17 at the second change of a session that started paused: the split is
armed. -/
theorem split_now_arming_witness :
    (capture_toggle { timed_world with
        state := { timed_world.state with bCapturing := 1, splitWait := 1 } } 0).2.1.state.splitNow =
      (if (0 : Int) = 0 then 1 else 0) :=
  ((split_now_arming { timed_world with
      state := { timed_world.state with bCapturing := 1, splitWait := 1 } } 0
    (by decide)).1 (by decide) rfl).2.2.1

/-- C17 as stated fails: `capture` entered in state Running with splitWait set
changes the state to Paused once (at time 0) and returns with splitNow still
0. -/
theorem split_not_armed_when_started_running :
    capturing_world.state.bCapturing = 1 ∧ capturing_world.state.splitWait ≠ 0 ∧
    ∃ w2, capture 10 capturing_world = Except.ok (none, w2) ∧
      capture_timeline 0 w2.trace = [(0, 0)] ∧ w2.state.bCapturing = 0 ∧
      w2.state.splitNow = 0 := by
  refine ⟨rfl, by decide, ⟨_, rfl, rfl, rfl, rfl⟩⟩

/-! ### Format of the camera capture port -/

/-- With a pool only where there is a component, `destroy_encoder_component`
returns: it releases the pool (if any), destroys the component (if any) and
leaves the component pointer null. -/
theorem destroy_encoder_component_ok (state : CAM_STATE) (trace : List Event)
    (hpool : state.video_encoder_pool.isSome = true → state.video_encoder_component = true) :
    ∃ s2, destroy_encoder_component state trace =
        Except.ok (s2, trace ++
          (if state.video_encoder_pool.isSome = true then
            [Event.port_pool_destroy Handle.video_encoder_pool] else []) ++
          (if state.video_encoder_component = true then
            [Event.component_destroy Handle.video_encoder_component] else [])) ∧
      s2.video_encoder_component = false ∧ s2.camera_component = state.camera_component := by
  have hnf : ¬ (state.video_encoder_pool.isSome = true ∧
      state.video_encoder_component = false) := by
    rintro ⟨h1, h2⟩
    rw [hpool h1] at h2
    exact Bool.noConfusion h2
  simp only [destroy_encoder_component]
  rw [if_neg hnf]
  by_cases hc : state.video_encoder_component = true
  · rw [if_pos hc, if_pos hc]
    refine ⟨{ state with video_encoder_component := false }, ?_, rfl, rfl⟩
    split_ifs <;> simp
  · rw [if_neg hc, if_neg hc]
    refine ⟨state, ?_, by simpa using hc, rfl⟩
    split_ifs <;> simp

theorem destroy_camera_component_eq (state : CAM_STATE) (trace : List Event) :
    (destroy_camera_component state trace).2 =
      trace ++ (if state.camera_component = true then
        [Event.component_destroy Handle.camera_component] else []) ∧
    (destroy_camera_component state trace).1.camera_component = false ∧
    (destroy_camera_component state trace).1.video_encoder_component =
      state.video_encoder_component := by
  simp only [destroy_camera_component]
  split_ifs with h
  · exact ⟨rfl, rfl, rfl⟩
  · exact ⟨by simp, by simpa using h, rfl⟩

/-- The order of a teardown that returns: in every state in which a pool implies
an encoder component (as `init` leaves it), `destroy` returns, and the hardware
operations it adds to the trace are, in this order: disable the encoder output port (only if the pointer is
non-null and the port enabled), destroy the connection (only if non-null),
disable the encoder component, disable the camera component, release the
encoder pool, destroy the encoder component, destroy the camera component
(each only if non-null); afterwards both component pointers are null. -/
theorem teardown_order (w : World)
    (hpool : w.state.video_encoder_pool.isSome = true → w.state.video_encoder_component = true) :
    ∃ w2, destroy w = Except.ok w2 ∧
      w2.trace = w.trace ++
        (if w.state.video_encoder_output_port = true ∧ w.video_port.is_enabled = true then
          [Event.port_disable Handle.video_encoder_output_port] else []) ++
        (if w.state.video_encoder_connection = true then
          [Event.connection_destroy Handle.video_encoder_connection] else []) ++
        (if w.state.video_encoder_component = true then
          [Event.component_disable Handle.video_encoder_component] else []) ++
        (if w.state.camera_component = true then
          [Event.component_disable Handle.camera_component] else []) ++
        (if w.state.video_encoder_pool.isSome = true then
          [Event.port_pool_destroy Handle.video_encoder_pool] else []) ++
        (if w.state.video_encoder_component = true then
          [Event.component_destroy Handle.video_encoder_component] else []) ++
        (if w.state.camera_component = true then
          [Event.component_destroy Handle.camera_component] else []) ∧
      w2.state.video_encoder_component = false ∧ w2.state.camera_component = false := by
  obtain ⟨s2, hs2, hcomp, hcam⟩ :=
    destroy_encoder_component_ok w.state (destroy_disable w).2 hpool
  obtain ⟨c1, c2, c3⟩ := destroy_camera_component_eq s2
    ((destroy_disable w).2 ++
      (if w.state.video_encoder_pool.isSome = true then
        [Event.port_pool_destroy Handle.video_encoder_pool] else []) ++
      (if w.state.video_encoder_component = true then
        [Event.component_destroy Handle.video_encoder_component] else []))
  simp only [destroy]
  rw [hs2]
  refine ⟨_, rfl, ?_, by rw [c3]; exact hcomp, c2⟩
  show (destroy_camera_component s2 _).2 = _
  rw [c1, hcam]
  simp only [destroy_disable, check_disable_port]
  split_ifs <;> simp

/-- The teardown of a full video session: all seven operations, in order. -/
theorem teardown_order_witness :
    ∃ w2, destroy session_world = Except.ok w2 ∧
      w2.trace =
        [Event.port_disable Handle.video_encoder_output_port,
         Event.connection_destroy Handle.video_encoder_connection,
         Event.component_disable Handle.video_encoder_component,
         Event.component_disable Handle.camera_component,
         Event.port_pool_destroy Handle.video_encoder_pool,
         Event.component_destroy Handle.video_encoder_component,
         Event.component_destroy Handle.camera_component] := by
  obtain ⟨w2, h, ht, _⟩ := teardown_order session_world (fun _ => rfl)
  exact ⟨w2, h, by rw [ht]; rfl⟩

/-- C20 fails on the code for the state a teardown leaves.  `destroy` on a full
video session returns with the component pointer null (cam.c 1787) but the pool
pointer as it was (nothing in cam.c 1780-1790 clears it); `destroy` on that
state destroys the connection once more and then, to release the pool, reads
`state->video_encoder_component->output[0]` through the null component pointer
(cam.c 1782-1783): a null dereference, where the claim has the pool released and
the teardown completed in order. -/
theorem teardown_twice_faults :
    ∃ w1, destroy session_world = Except.ok w1 ∧
      w1.state.video_encoder_pool.isSome = true ∧
      w1.state.video_encoder_component = false ∧
      w1.state.video_encoder_connection = true ∧
      destroy w1 = Except.error Fault.null_dereference :=
  ⟨_, rfl, rfl, rfl, rfl, rfl⟩

/-! ### The abort flag and the callbacks -/

theorem segment_rotation_abort (state : CAM_STATE) (flags : Nat) (ct bt : Int) :
    (segment_rotation state flags ct bt).1.abort = state.abort := by
  unfold segment_rotation
  split_ifs <;> rfl

theorem encoder_frame_abort (state : CAM_STATE) (b : MMAL_BUFFER_HEADER_T) (trace : List Event) :
    (encoder_frame state b trace).1.abort = state.abort := by
  rw [encoder_frame_eq]
  split_ifs <;> rfl

theorem still_accumulate_abort (state : CAM_STATE) (b : MMAL_BUFFER_HEADER_T) :
    (still_accumulate state b).1.abort = state.abort := by
  unfold still_accumulate
  by_cases h0 : b.length = 0
  · simp [h0]
  · cases hw : state.work_image_data <;> simp [h0, hw]

theorem still_complete_abort (w : World) :
    (still_complete w).state.abort = w.state.abort ∧
    (still_complete w).abort_time = w.abort_time := by
  unfold still_complete
  split_ifs <;> exact ⟨rfl, rfl⟩

/-- The video callback leaves the abort flag, and what the environment will do
to it, as they were. -/
theorem encoder_buffer_callback_abort (w w1 : World) (b : MMAL_BUFFER_HEADER_T) (accept : Bool)
    (h : encoder_buffer_callback w b accept = Except.ok w1) :
    w1.state.abort = w.state.abort ∧ w1.abort_time = w.abort_time := by
  unfold encoder_buffer_callback at h
  by_cases hud : w.video_port.userdata = true
  · simp only [hud, if_true] at h
    split at h
    · exact absurd h (by simp)
    · injection h with h
      subst h
      simp only [encoder_frame_abort, segment_rotation_abort, and_self]
  · simp only [hud] at h
    split at h
    · exact absurd h (by simp)
    · injection h with h
      subst h
      exact ⟨rfl, rfl⟩

/-- The still callback leaves the abort flag, and what the environment will do
to it, as they were. -/
theorem still_encoder_buffer_callback_abort (w w1 : World) (b : MMAL_BUFFER_HEADER_T)
    (accept : Bool) (h : still_encoder_buffer_callback w b accept = Except.ok w1) :
    w1.state.abort = w.state.abort ∧ w1.abort_time = w.abort_time := by
  unfold still_encoder_buffer_callback at h
  obtain ⟨acc, hacc⟩ : ∃ acc, (if w.still_port.userdata = true then still_accumulate w.state b
      else (w.state, false)) = acc := ⟨_, rfl⟩
  have ha : acc.1.abort = w.state.abort := by
    rw [← hacc]
    split_ifs
    · exact still_accumulate_abort _ _
    · rfl
  simp only [hacc] at h
  cases hr : resubmit (pool_release acc.1.encoder_pool b.id) w.still_port accept w.trace with
  | error e => rw [hr] at h; exact absurd h (by simp)
  | ok r =>
    obtain ⟨pool2, port2, trace2⟩ := r
    rw [hr] at h
    simp only at h
    injection h with h
    subst h
    split_ifs
    · obtain ⟨h1, h2⟩ := still_complete_abort
        { w with state := { acc.1 with encoder_pool := pool2 },
                 still_port := port2, trace := trace2 }
      exact ⟨h1.trans ha, h2⟩
    · exact ⟨ha, rfl⟩

theorem pause_ceil (pause : Int) : ⌈(pause : ℚ) / 100⌉ = (pause + 99) / 100 := by
  obtain ⟨k, hk⟩ : ∃ k, (pause + 99) / 100 = k := ⟨_, rfl⟩
  rw [hk]
  have h2 : 100 * k ≤ pause + 99 := by omega
  have h4 : pause ≤ 100 * k := by omega
  have h2q : (100 : ℚ) * (k : ℚ) ≤ (pause : ℚ) + 99 := by exact_mod_cast h2
  have h4q : (pause : ℚ) ≤ 100 * (k : ℚ) := by exact_mod_cast h4
  rw [Int.ceil_eq_iff]
  constructor
  · rw [lt_div_iff₀ (by norm_num : (0 : ℚ) < 100)]
    linarith
  · rw [div_le_iff₀ (by norm_num : (0 : ℚ) < 100)]
    linarith

/-- C30: neither buffer callback changes `callback_data.abort`: the value
`bytes_written` they compare with `buffer->length` always equals it, so the
video callback never takes the branch that sets the flag (and the still callback
has no such assignment).  Consequently, in the world either callback leaves
behind after starting with the flag clear (and nothing else raising it),
`pause_and_test_abort` returns 0 after sleeping ceil(pause / 100) intervals of
100 ms, for every `pause`. -/
theorem abort_never_raised (w w1 : World) (b : MMAL_BUFFER_HEADER_T) (accept : Bool)
    (pause : Int)
    (h : encoder_buffer_callback w b accept = Except.ok w1 ∨
         still_encoder_buffer_callback w b accept = Except.ok w1) :
    uint32_of_int (int_of_uint32 b.length) = b.length % 4294967296 ∧
    w1.state.abort = w.state.abort ∧
    (w.state.abort = 0 → w.abort_time = none →
      pause_and_test_abort w1 pause = (0, sleeps w1 ⌈(pause : ℚ) / 100⌉.toNat)) := by
  have hk : w1.state.abort = w.state.abort ∧ w1.abort_time = w.abort_time := by
    rcases h with h | h
    · exact encoder_buffer_callback_abort w w1 b accept h
    · exact still_encoder_buffer_callback_abort w w1 b accept h
  refine ⟨bytes_written_eq _, hk.1, fun ha ht => ?_⟩
  rw [pause_ceil]
  exact pause_and_test_abort_quiet w1 pause (hk.1.trans ha) (hk.2.trans ht)

/-- C30 at a frame-end buffer of three bytes met by the video callback, followed
by a pause of 250 ms. -/
theorem abort_never_raised_witness :
    ∃ w1, encoder_buffer_callback still_world
        (data_buffer MMAL_BUFFER_HEADER_FLAG_FRAME_END 1000 [1, 2, 3]) true = Except.ok w1 ∧
      w1.state.abort = still_world.state.abort ∧
      pause_and_test_abort w1 250 = (0, sleeps w1 ⌈((250 : Int) : ℚ) / 100⌉.toNat) := by
  obtain ⟨p2, port2, t2, h, _⟩ := encoder_buffer_callback_view still_world
    (data_buffer MMAL_BUFFER_HEADER_FLAG_FRAME_END 1000 [1, 2, 3]) true { queue := [] } rfl rfl
  have hk := abort_never_raised still_world _
    (data_buffer MMAL_BUFFER_HEADER_FLAG_FRAME_END 1000 [1, 2, 3]) true 250 (Or.inl h)
  exact ⟨_, h, hk.2.1, hk.2.2 rfl rfl⟩

/-! ### The wait method None -/

/-- With the abort flag already set `pause_and_test_abort` returns 1 after the
first interval of a non-empty pause. -/
theorem pause_and_test_abort_set (w : World) (pause : Int) (hp : 0 < pause)
    (ha : w.state.abort ≠ 0) :
    pause_and_test_abort w pause = (1, vcos_sleep w ABORT_INTERVAL) := by
  have hseen : (vcos_sleep w ABORT_INTERVAL).abort_seen = true := by
    simp [World.abort_seen, vcos_sleep, ha]
  unfold pause_and_test_abort
  rw [if_neg (by omega)]
  simp only [pause_loop, if_pos hp, hseen, if_true]

/-- C24, corrected: with `waitMethod = None`, `wait_for_next_change` always
returns 0 (end of run).  With a timeout of 0 it returns at once, without
sleeping and whatever the abort flag is.  With a timeout t > 0 and no abort it
returns after ceil(t / 100) sleeps of 100 ms, which is at least t ms; with the
abort flag set it returns after the first sleep of 100 ms. -/
theorem wait_none (fuel : Nat) (w : World) (hm : w.state.waitMethod = WAIT_METHOD_NONE) :
    (∃ w1, wait_for_next_change fuel w = Except.ok (0, w1)) ∧
    (w.state.timeout = 0 →
      wait_for_next_change fuel w =
        Except.ok (0, { w with change_complete_time :=
          if w.change_complete_time = -1 then w.now_ms + w.state.timeout
          else w.change_complete_time })) ∧
    (0 < w.state.timeout → w.state.abort = 0 → w.abort_time = none →
      wait_for_next_change fuel w =
        Except.ok (0, sleeps { w with change_complete_time :=
          if w.change_complete_time = -1 then w.now_ms + w.state.timeout
          else w.change_complete_time } ⌈(w.state.timeout : ℚ) / 100⌉.toNat) ∧
      w.state.timeout ≤ 100 * (⌈(w.state.timeout : ℚ) / 100⌉.toNat : Int)) ∧
    (0 < w.state.timeout → w.state.abort ≠ 0 →
      wait_for_next_change fuel w =
        Except.ok (0, vcos_sleep { w with change_complete_time :=
          if w.change_complete_time = -1 then w.now_ms + w.state.timeout
          else w.change_complete_time } ABORT_INTERVAL)) := by
  have hret : wait_for_next_change fuel w =
      Except.ok (0, (pause_and_test_abort { w with change_complete_time :=
          if w.change_complete_time = -1 then w.now_ms + w.state.timeout
          else w.change_complete_time } w.state.timeout).2) := by
    simp only [wait_for_next_change, hm, if_true]
  refine ⟨⟨_, hret⟩, ?_, ?_, ?_⟩
  · intro h0
    rw [hret]
    simp only [pause_and_test_abort, h0, if_true]
  · intro hp ha ht
    have h := pause_and_test_abort_quiet { w with change_complete_time :=
          if w.change_complete_time = -1 then w.now_ms + w.state.timeout
          else w.change_complete_time } w.state.timeout ha ht
    rw [hret, h, pause_ceil]
    refine ⟨rfl, ?_⟩
    have : 0 ≤ (w.state.timeout + 99) / 100 := by omega
    rw [Int.toNat_of_nonneg this]
    omega
  · intro hp ha
    have h := pause_and_test_abort_set { w with change_complete_time :=
          if w.change_complete_time = -1 then w.now_ms + w.state.timeout
          else w.change_complete_time } w.state.timeout hp ha
    rw [hret, h]

/-- C24 as amended, at a timeout of 250 ms: three sleeps of 100 ms. -/
theorem wait_none_witness :
    wait_for_next_change 0 { none_world with state := { none_world.state with timeout := 250 } } =
      Except.ok (0, sleeps { none_world with
          state := { none_world.state with timeout := 250 }
          change_complete_time := 250 } ⌈((250 : Int) : ℚ) / 100⌉.toNat) :=
  ((wait_none 0 { none_world with state := { none_world.state with timeout := 250 } }
    rfl).2.2.1 (by decide) rfl rfl).1

/-- C24 as stated fails: with `waitMethod = None`, a timeout of 0 and no abort
ever, `wait_for_next_change` reports end of run at once, and `capture` returns
after the first change of state without having slept. -/
theorem none_timeout_zero_ends_at_once :
    none_world.state.waitMethod = WAIT_METHOD_NONE ∧ none_world.state.timeout = 0 ∧
    none_world.state.abort = 0 ∧ none_world.abort_time = none ∧
    (∃ w1, wait_for_next_change 10 none_world = Except.ok (0, w1) ∧ slept w1.trace = 0) ∧
    (∃ w2, capture 10 none_world = Except.ok (none, w2) ∧
      capture_timeline 0 w2.trace = [(0, 1)] ∧ slept w2.trace = 0) :=
  ⟨rfl, rfl, rfl, rfl, ⟨_, rfl, rfl⟩, ⟨_, rfl, rfl, rfl⟩⟩

/-! ### Immediate pacing -/

/-- C26, corrected: with `frameNextMethod = Immediate`, `wait_for_next_frame`
returns, the frame index advanced by exactly 1, after one sleep of 1000 ms when
the incoming frame index is 0 and of 30 ms otherwise.  It returns non-zero
exactly when the timeout is 0 or the time on entry is before the completion time
(the entry time of the first call plus the timeout). -/
theorem immediate_pacing (w : World) (frame : Int)
    (hm : w.state.frameNextMethod = FRAME_NEXT_IMMEDIATELY) :
    ∃ keep w2, wait_for_next_frame w frame = Except.ok (keep, frame + 1, w2) ∧
      w2.trace = w.trace ++ [Event.sleep (if frame = 0 then 1000 else 30)] ∧
      w2.now_us = w.now_us + (if frame = 0 then 1000 else 30) * 1000 ∧
      (keep ≠ 0 ↔ w.state.timeout = 0 ∨
        w.now_ms < (if w.frame_complete_time = -1 then w.now_ms + w.state.timeout
                    else w.frame_complete_time)) := by
  simp only [wait_for_next_frame, hm]
  rw [if_neg (by decide), if_neg (by decide), if_neg (by decide), if_neg (by decide),
    if_pos trivial]
  refine ⟨_, _, rfl, ?_, ?_, ?_⟩
  · by_cases hf : frame = 0 <;> simp [hf, vcos_sleep, CAMERA_SETTLE_TIME, uint32_of_int]
  · by_cases hf : frame = 0 <;> simp [hf, vcos_sleep, CAMERA_SETTLE_TIME, uint32_of_int]
  · by_cases h0 : w.state.timeout = 0
    · simp [h0]
    · simp only [h0, ne_eq, not_false_eq_true, and_true, false_or, ge_iff_le]
      split_ifs with h1 <;> simp at h1 ⊢ <;> omega

/-- C26 as amended, at the first frame of a session with a timeout of 500 ms. -/
theorem immediate_pacing_witness :
    ∃ keep w2, wait_for_next_frame immediate_world 0 = Except.ok (keep, 0 + 1, w2) ∧
      w2.trace = immediate_world.trace ++ [Event.sleep (if (0 : Int) = 0 then 1000 else 30)] := by
  obtain ⟨keep, w2, h, ht, _⟩ := immediate_pacing immediate_world 0 rfl
  exact ⟨keep, w2, h, ht⟩

/-- C26 as stated fails: in Immediate mode with a timeout of 500 ms the first
call returns 1 after sleeping 1000 ms, and the second call, made after the
timeout has elapsed, returns 0. -/
theorem immediate_stops_after_timeout :
    immediate_world.state.frameNextMethod = FRAME_NEXT_IMMEDIATELY ∧
    ∃ w1 w2, wait_for_next_frame immediate_world 0 = Except.ok (1, 1, w1) ∧
      wait_for_next_frame w1 1 = Except.ok (0, 2, w2) ∧
      w2.trace = [Event.sleep 1000, Event.sleep 30] :=
  ⟨rfl, _, _, rfl, rfl, rfl⟩

/-! ### Timelapse schedule -/

theorem now_ms_vcos_sleep (w : World) (ms : Int) :
    (vcos_sleep w ms).now_ms = w.now_ms + (uint32_of_int ms : Int) := by
  unfold World.now_ms vcos_sleep
  simp only
  rw [Nat.add_mul_div_right _ _ (by norm_num : 0 < 1000)]
  push_cast
  rfl

theorem uint32_of_int_small (i : Int) (h0 : 0 ≤ i) (h1 : i < 4294967296) :
    (uint32_of_int i : Int) = i := by
  unfold uint32_of_int
  omega

/-- The three branches of the Timelapse case once the schedule is set: what
`wait_for_next_frame` returns, the new schedule, the sleep and the wake-up
time. -/
theorem wait_for_next_frame_slightly_late (w : World) (frame : Int)
    (hm : w.state.frameNextMethod = FRAME_NEXT_TIMELAPSE)
    (hnf : w.next_frame_ms ≠ -1) (hlate : w.next_frame_ms - w.now_ms < 0)
    (hhalf : -(w.next_frame_ms - w.now_ms) < Int.tdiv w.state.timelapse 2) :
    ∃ keep w2,
      wait_for_next_frame w frame = Except.ok (keep, frame + 1, w2) ∧
      w2.next_frame_ms = w.next_frame_ms + w.state.timelapse := by
  simp only [wait_for_next_frame, hm]
  rw [if_neg (by decide), if_neg (by decide), if_pos trivial]
  simp only [timelapse_wait, if_neg hnf, if_pos hlate, if_pos hhalf]
  exact ⟨_, _, rfl, rfl⟩

theorem wait_for_next_frame_on_time (w : World) (frame : Int)
    (hm : w.state.frameNextMethod = FRAME_NEXT_TIMELAPSE)
    (hnf : w.next_frame_ms ≠ -1) (hlate : ¬ w.next_frame_ms - w.now_ms < 0) :
    ∃ keep w2,
      wait_for_next_frame w frame = Except.ok (keep, frame + 1, w2) ∧
      w2.next_frame_ms = w.next_frame_ms + w.state.timelapse := by
  simp only [wait_for_next_frame, hm]
  rw [if_neg (by decide), if_neg (by decide), if_pos trivial]
  simp only [timelapse_wait, if_neg hnf, if_neg hlate, vcos_sleep]
  exact ⟨_, _, rfl, rfl⟩

theorem wait_for_next_frame_catch_up (w : World) (frame : Int)
    (hm : w.state.frameNextMethod = FRAME_NEXT_TIMELAPSE)
    (hnf : w.next_frame_ms ≠ -1) (hlate : w.next_frame_ms - w.now_ms < 0)
    (hhalf : ¬ (-(w.next_frame_ms - w.now_ms) < Int.tdiv w.state.timelapse 2)) :
    ∃ keep w2,
      wait_for_next_frame w frame =
        Except.ok (keep,
          frame + 1 + timelapse_nskip (w.next_frame_ms - w.now_ms) w.state.timelapse, w2) ∧
      w2.next_frame_ms = w.next_frame_ms +
        (timelapse_nskip (w.next_frame_ms - w.now_ms) w.state.timelapse + 1) * w.state.timelapse ∧
      w2.trace = w.trace ++
        [Event.sleep (uint32_of_int (w.next_frame_ms - w.now_ms +
          timelapse_nskip (w.next_frame_ms - w.now_ms) w.state.timelapse * w.state.timelapse))] ∧
      w2.now_ms = w.now_ms + (uint32_of_int (w.next_frame_ms - w.now_ms +
          timelapse_nskip (w.next_frame_ms - w.now_ms) w.state.timelapse * w.state.timelapse) :
            Int) := by
  simp only [wait_for_next_frame, hm]
  rw [if_neg (by decide), if_neg (by decide), if_pos trivial]
  simp only [timelapse_wait, if_neg hnf, if_pos hlate, if_neg hhalf]
  refine ⟨_, _, rfl, rfl, rfl, ?_⟩
  exact now_ms_vcos_sleep _ _

/-- C28: in Timelapse mode with interval T > 0 (an `int`) and a schedule already
set, `wait_for_next_frame` returns with the scheduled next-frame time moved
forward by a positive whole multiple of T, in every branch.  When the lateness
L (entry time minus scheduled time) is positive and at least floor(T / 2), the
call sleeps exactly T - (L mod T) ms, a value in (0, T], and the new scheduled
time is the wake-up time plus T. -/
theorem timelapse_schedule (w : World) (frame : Int)
    (hm : w.state.frameNextMethod = FRAME_NEXT_TIMELAPSE)
    (hT : 0 < w.state.timelapse) (hTi : w.state.timelapse < 2147483648)
    (hnf : w.next_frame_ms ≠ -1) :
    ∃ keep frame2 w2,
      wait_for_next_frame w frame = Except.ok (keep, frame2, w2) ∧
      (∃ k : Int, 0 < k ∧ w2.next_frame_ms = w.next_frame_ms + k * w.state.timelapse) ∧
      (0 < w.now_ms - w.next_frame_ms →
        w.state.timelapse / 2 ≤ w.now_ms - w.next_frame_ms →
        0 < w.state.timelapse - (w.now_ms - w.next_frame_ms) % w.state.timelapse ∧
        w.state.timelapse - (w.now_ms - w.next_frame_ms) % w.state.timelapse ≤
          w.state.timelapse ∧
        w2.trace = w.trace ++ [Event.sleep
          (w.state.timelapse - (w.now_ms - w.next_frame_ms) % w.state.timelapse).toNat] ∧
        w2.now_ms = w.now_ms +
          (w.state.timelapse - (w.now_ms - w.next_frame_ms) % w.state.timelapse) ∧
        w2.next_frame_ms = w2.now_ms + w.state.timelapse) := by
  obtain ⟨T, hTd⟩ : ∃ T, w.state.timelapse = T := ⟨_, rfl⟩
  obtain ⟨L, hLd⟩ : ∃ L, w.now_ms - w.next_frame_ms = L := ⟨_, rfl⟩
  have hdelay : w.next_frame_ms - w.now_ms = -L := by omega
  by_cases hlate : w.next_frame_ms - w.now_ms < 0
  · by_cases hhalf : -(w.next_frame_ms - w.now_ms) < Int.tdiv w.state.timelapse 2
    · obtain ⟨keep, w2, hret, hsched⟩ :=
        wait_for_next_frame_slightly_late w frame hm hnf hlate hhalf
      refine ⟨keep, frame + 1, w2, hret, ⟨1, by norm_num, by rw [hsched]; ring⟩, ?_⟩
      intro _ h2
      exfalso
      rw [hTd] at hT hhalf h2
      rw [hdelay, Int.tdiv_eq_ediv (by omega) (by omega)] at hhalf
      omega
    · obtain ⟨keep, w2, hret, hsched, htrace, hnow⟩ :=
        wait_for_next_frame_catch_up w frame hm hnf hlate hhalf
      rw [hTd] at hT hTi
      have hL0 : 0 < L := by omega
      have hns : timelapse_nskip (w.next_frame_ms - w.now_ms) w.state.timelapse = 1 + L / T := by
        unfold timelapse_nskip
        rw [hdelay, hTd, neg_neg, Int.tdiv_eq_ediv (by omega) (by omega)]
      have hmod := Int.emod_add_ediv L T
      have hlt := Int.emod_lt_of_pos L hT
      have hnn := Int.emod_nonneg L (by omega : T ≠ 0)
      have hq : 0 ≤ L / T := Int.ediv_nonneg (by omega) (by omega)
      have hmul : (1 + L / T) * T = T + T * (L / T) := by ring
      have hmul2 : (1 + L / T + 1) * T = 2 * T + T * (L / T) := by ring
      have harg : w.next_frame_ms - w.now_ms +
          timelapse_nskip (w.next_frame_ms - w.now_ms) w.state.timelapse * w.state.timelapse =
          T - L % T := by
        rw [hns, hdelay, hTd, hmul]
        omega
      rw [hns, hTd, hmul2] at hsched
      rw [harg] at htrace hnow
      rw [uint32_of_int_small _ (by omega) (by omega)] at hnow
      refine ⟨keep, _, w2, hret, ⟨2 + L / T, by omega, by rw [hsched, hTd]; ring⟩, ?_⟩
      intro _ _
      rw [hTd, hLd]
      refine ⟨by omega, by omega, ?_, hnow, ?_⟩
      · rw [htrace]
        have : uint32_of_int (T - L % T) = (T - L % T).toNat := by
          unfold uint32_of_int
          omega
        rw [this]
      · rw [hsched, hnow]
        omega
  · obtain ⟨keep, w2, hret, hsched⟩ := wait_for_next_frame_on_time w frame hm hnf hlate
    refine ⟨keep, frame + 1, w2, hret, ⟨1, by norm_num, by rw [hsched]; ring⟩, ?_⟩
    intro h1 _
    omega

/-- C28 at interval 1000 and lateness 2500: the call sleeps 500 ms and the next
frame is scheduled 1000 ms after the wake-up. -/
theorem timelapse_schedule_witness :
    ∃ keep frame2 w2,
      wait_for_next_frame late_world 7 = Except.ok (keep, frame2, w2) ∧
      w2.trace = late_world.trace ++ [Event.sleep ((1000 : Int) - 2500 % 1000).toNat] ∧
      w2.next_frame_ms = w2.now_ms + 1000 := by
  obtain ⟨keep, frame2, w2, hret, _, h⟩ :=
    timelapse_schedule late_world 7 rfl (by decide) (by decide) (by decide)
  obtain ⟨_, _, ht, _, hn⟩ := h (by decide) (by decide)
  exact ⟨keep, frame2, w2, hret, ht, hn⟩

/-! ### Zoom -/

/-- C29 fails on the code: from the full-frame crop (0, 0, 65536, 65536), which
is centred and square, an accepted ZOOM_OUT leaves the crop
(-3276, -3276, 72089, 72089): the width exceeds 65536 and the corner is
negative.  The test `increased_size < crop.rect.width` only detects a wrap of
the 32-bit sum. -/
theorem zoom_out_leaves_sensor :
    full_frame_world.crop = { x := 0, y := 0, width := 65536, height := 65536 } ∧
    ∃ w2, zoom_in_zoom_out full_frame_world ZOOM_COMMAND_T.ZOOM_OUT = Except.ok (0, w2) ∧
      w2.crop = { x := -3276, y := -3276, width := 72089, height := 72089 } ∧
      w2.trace = [Event.set_input_crop (-3276) (-3276) 72089 72089] :=
  ⟨rfl, _, rfl, rfl, rfl⟩

/-! ### The result of creating the encoder -/

theorem enc_create_consistent (hw : EncoderHw) (state : CAM_STATE) :
    (enc_create hw state).consistent := by
  unfold enc_create EncCtx.consistent
  by_cases h1 : hw.component_create = MMAL_SUCCESS
  · by_cases h2 : hw.input_num = 0 ∨ hw.output_num = 0
    · simp [h1, h2]
    · simp [h1, h2]
  · simp [h1]

theorem enc_format_consistent (hw : EncoderHw) (c : EncCtx) (h : c.consistent) :
    (enc_format hw c).consistent := by
  unfold enc_format
  by_cases hf : c.failed = true
  · rw [if_pos hf]; exact h
  · have hs := h.2 (by simpa using hf)
    unfold EncCtx.consistent
    by_cases h1 : hw.format_commit = MMAL_SUCCESS
    · simp [hf, h1, hs.2]
    · simp [hf, h1]

theorem enc_intraperiod_consistent (hw : EncoderHw) (c : EncCtx) (h : c.consistent) :
    (enc_intraperiod hw c).consistent := by
  unfold enc_intraperiod
  by_cases hf : c.failed = true
  · rw [if_pos hf]; exact h
  · have hs := h.2 (by simpa using hf)
    rw [if_neg hf]
    split_ifs with h0 h1
    · unfold EncCtx.consistent; simp [h1]
    · unfold EncCtx.consistent
      have h1s : hw.set_intraperiod = MMAL_SUCCESS := by simpa using h1
      simp [hf, h1s, hs.2]
    · exact h

theorem enc_slices_consistent (hw : EncoderHw) (c : EncCtx) (h : c.consistent) :
    (enc_slices hw c).consistent := by
  unfold enc_slices
  by_cases hf : c.failed = true
  · rw [if_pos hf]; exact h
  · have hs := h.2 (by simpa using hf)
    rw [if_neg hf]
    split_ifs with h0 h1
    · unfold EncCtx.consistent; simp [h1]
    · unfold EncCtx.consistent
      have h1s : hw.set_mb_rows_per_slice = MMAL_SUCCESS := by simpa using h1
      simp [hf, h1s, hs.2]
    · exact h

theorem enc_quant_consistent (hw : EncoderHw) (c : EncCtx) (h : c.consistent) :
    (enc_quant hw c).consistent := by
  unfold enc_quant
  by_cases hf : c.failed = true
  · rw [if_pos hf]; exact h
  · have hs := h.2 (by simpa using hf)
    rw [if_neg hf]
    split_ifs with h0 h1 h2 h3
    · unfold EncCtx.consistent; simp [h1]
    · unfold EncCtx.consistent; simp [h2]
    · unfold EncCtx.consistent; simp [h3]
    · unfold EncCtx.consistent
      have h3s : hw.set_max_quant = MMAL_SUCCESS := by simpa using h3
      simp [hf, h3s, hs.2]
    · exact h

theorem enc_profile_consistent (hw : EncoderHw) (c : EncCtx) (h : c.consistent) :
    (enc_profile hw c).consistent := by
  unfold enc_profile
  by_cases hf : c.failed = true
  · rw [if_pos hf]; exact h
  · have hs := h.2 (by simpa using hf)
    rw [if_neg hf]
    by_cases h0 : c.state.encoding = MMAL_ENCODING_H264
    · rw [if_pos h0]
      by_cases hm : macroblock_rate c.state > 245760 ∧ ¬ (macroblock_rate c.state ≤ 522240)
      · rw [if_pos hm]
        unfold EncCtx.consistent; simp
      · rw [if_neg hm]
        unfold EncCtx.consistent
        by_cases h2 : hw.set_profile = MMAL_SUCCESS
        · simp [hf, h2, hs.2]
        · simp [h2]
    · rw [if_neg h0]; exact h

theorem enc_flags_consistent (hw : EncoderHw) (c : EncCtx) (h : c.consistent) :
    (enc_flags hw c).consistent := by
  unfold enc_flags
  by_cases hf : c.failed = true
  · rw [if_pos hf]; exact h
  · have hs := h.2 (by simpa using hf)
    rw [if_neg hf]
    unfold EncCtx.consistent
    by_cases h0 : c.state.encoding = MMAL_ENCODING_H264
    · by_cases h1 : c.state.intra_refresh_type = -1
      · simp [hf, h0, h1, hs.1, hs.2]
      · by_cases h2 : hw.set_intra_refresh = MMAL_SUCCESS
        · simp [hf, h0, h1, h2, hs.2]
        · simp [h0, h1, h2]
    · simp [hf, h0, hs.1, hs.2]

theorem enc_enable_consistent (hw : EncoderHw) (c : EncCtx) (h : c.consistent) :
    (enc_enable hw c).consistent := by
  unfold enc_enable
  by_cases hf : c.failed = true
  · rw [if_pos hf]; exact h
  · have hs := h.2 (by simpa using hf)
    unfold EncCtx.consistent
    by_cases h1 : hw.component_enable = MMAL_SUCCESS
    · simp [hf, h1, hs.2]
    · simp [hf, h1]

/-- What `create_encoder_component` returns: after a jump to `error` a
non-success status, a null `video_encoder_component`, and the encoder, if it was
created, destroyed by the last call; otherwise `MMAL_SUCCESS`, the component
published, and as pool whatever `mmal_port_pool_create` returned, null
included. -/
theorem create_encoder_component_result (hw : EncoderHw) (state : CAM_STATE) :
    ((create_encoder_component hw state).failed = true →
      (create_encoder_component hw state).status ≠ MMAL_SUCCESS ∧
      (create_encoder_component hw state).state.video_encoder_component = false ∧
      ((create_encoder_component hw state).encoder = true →
        (create_encoder_component hw state).calls.getLast? = some EncCall.component_destroy)) ∧
    ((create_encoder_component hw state).failed = false →
      (create_encoder_component hw state).status = MMAL_SUCCESS ∧
      (create_encoder_component hw state).state.video_encoder_component = true ∧
      EncCall.component_destroy ∉ (create_encoder_component hw state).calls.getLast? ∧
      (hw.pool_create = false →
        (create_encoder_component hw state).state.video_encoder_pool = none)) := by
  have hc := enc_enable_consistent hw _ (enc_flags_consistent hw _ (enc_profile_consistent hw _
    (enc_quant_consistent hw _ (enc_slices_consistent hw _ (enc_intraperiod_consistent hw _
    (enc_format_consistent hw _ (enc_create_consistent hw state)))))))
  unfold create_encoder_component
  obtain ⟨c, hcd⟩ : ∃ c, enc_enable hw (enc_flags hw (enc_profile hw (enc_quant hw
    (enc_slices hw (enc_intraperiod hw (enc_format hw (enc_create hw state))))))) = c := ⟨_, rfl⟩
  rw [hcd] at hc ⊢
  by_cases hf : c.failed = true
  · have e : enc_finish hw c =
        { c with state := { c.state with video_encoder_component := false },
                 calls := if c.encoder then c.calls ++ [EncCall.component_destroy]
                          else c.calls } := by
      unfold enc_finish; rw [if_pos hf]
    rw [e]
    refine ⟨fun _ => ⟨hc.1 hf, rfl, fun he => ?_⟩, fun h => ?_⟩
    · have he2 : c.encoder = true := he
      simp [he2]
    · have h2 : c.failed = false := h
      rw [hf] at h2
      exact absurd h2 (by decide)
  · have hff : c.failed = false := by simpa using hf
    have e : enc_finish hw c =
        { c with
          state := { c.state with
            video_encoder_pool := new_pool hw.pool_create
              (match c.output with
               | some o => o.buffer_num
               | none => 0)
            video_encoder_component := true },
          calls := c.calls ++ [EncCall.port_pool_create
              (match c.output with
               | some o => o.buffer_num
               | none => 0)
              (match c.output with
               | some o => o.buffer_size
               | none => 0)] } := by
      unfold enc_finish
      rw [if_neg hf]
    rw [e]
    refine ⟨fun h => absurd (show c.failed = true from h) hf,
      fun _ => ⟨(hc.2 hff).1, rfl, ?_, fun hp => ?_⟩⟩
    · simp
    · simp [new_pool, hp]

/-- C23 fails on the code: with an encoder for which every call succeeds but
`mmal_port_pool_create` returns NULL, `create_encoder_component` returns
`MMAL_SUCCESS` with `video_encoder_pool` null; the component is enabled,
published in `video_encoder_component`, and not destroyed. -/
theorem encoder_success_without_pool :
    (create_encoder_component encoder_hw_no_pool (default_state 0)).status = MMAL_SUCCESS ∧
    (create_encoder_component encoder_hw_no_pool (default_state 0)).state.video_encoder_pool =
      none ∧
    (create_encoder_component encoder_hw_no_pool
      (default_state 0)).state.video_encoder_component = true ∧
    EncCall.component_enable ∈
      (create_encoder_component encoder_hw_no_pool (default_state 0)).calls ∧
    EncCall.component_destroy ∉
      (create_encoder_component encoder_hw_no_pool (default_state 0)).calls := by
  refine ⟨rfl, rfl, rfl, by decide, by decide⟩

/-! ### Keyboard commands in the capture loop -/

theorem switches_append (a b : List Event) : switches (a ++ b) = switches a ++ switches b := by
  induction a with
  | nil => rfl
  | cons e t ih => cases e <;> simp [switches, ih]

theorem capture_loop_resume (fuel : Nat) (w : World) (ic : Int)
    (h : (capture_toggle w ic).1 = none) :
    capture_loop (fuel + 1) w ic =
      capture_resume fuel (capture_toggle w ic).2.1 (capture_toggle w ic).2.2 := by
  unfold capture_resume
  simp only [capture_loop, h]

/-- In a keyboard session the toggle block does not return early; it flips the
capture state, tells the camera, and leaves input and session untouched. -/
theorem capture_toggle_keypress (w : World) (ic : Int) (h : keypress_session w) :
    (capture_toggle w ic).1 = none ∧
    keypress_session (capture_toggle w ic).2.1 ∧
    (capture_toggle w ic).2.1.state.bCapturing = lnot w.state.bCapturing ∧
    (capture_toggle w ic).2.1.stdin = w.stdin ∧
    switches (capture_toggle w ic).2.1.trace =
      switches w.trace ++ [lnot w.state.bCapturing] := by
  obtain ⟨hm, hto, hst, hcam⟩ := h
  simp only [capture_toggle, World.pop_status, hst, keypress_session]
  split_ifs <;>
    first
    | exact ⟨rfl, ⟨hm, hto, rfl, hcam⟩, rfl, rfl, by simp [switches_append, switches]⟩
    | (exfalso; simp_all)

/-- In a keyboard session a zoom command is accepted and touches neither the
capture state nor the input. -/
theorem zoom_keypress (w : World) (cmd : ZOOM_COMMAND_T) (h : keypress_session w) :
    ∃ z, zoom_in_zoom_out w cmd = Except.ok (0, z) ∧ keypress_session z ∧
      z.state.bCapturing = w.state.bCapturing ∧ z.stdin = w.stdin ∧
      switches z.trace = switches w.trace := by
  obtain ⟨hm, hto, hst, hcam⟩ := h
  simp only [zoom_in_zoom_out, World.pop_status, hst, hcam, keypress_session, ne_eq,
    not_true_eq_false, if_false, if_true, Bool.true_eq_false]
  refine ⟨_, rfl, ⟨hm, hto, rfl, rfl⟩, rfl, rfl, ?_⟩
  simp [switches_append, switches]

/-- In a keyboard session `wait_for_next_change` reads one character; it
returns 0 for `x` and `X` and 1 for every other character, and touches neither
the capture state nor what the camera video port was told. -/
theorem wait_for_next_change_keypress (fuel : Nat) (w : World) (c : Int) (rest : List Int)
    (h : keypress_session w) (hin : w.stdin = c :: rest) :
    ∃ w1, wait_for_next_change fuel w =
        Except.ok ((if c = 120 ∨ c = 88 then 0 else 1), w1) ∧
      keypress_session w1 ∧ w1.state.bCapturing = w.state.bCapturing ∧ w1.stdin = rest ∧
      switches w1.trace = switches w.trace := by
  have hg : keypress_session { w with
      change_complete_time :=
        if w.change_complete_time = -1 then w.now_ms + w.state.timeout
        else w.change_complete_time
      stdin := rest } := h
  obtain ⟨hm, hto, hst, hcam⟩ := h
  have hk : ∀ (p : Prop) [Decidable p],
      (if p ∧ w.state.timeout ≠ 0 then (0 : Int) else 1) = 1 := by
    intro p _
    simp [hto]
  simp only [wait_for_next_change, hm, World.getchar, hin, hk]
  rw [if_neg (by decide), if_neg (by decide), if_neg (by decide), if_pos trivial]
  generalize (if w.change_complete_time = -1 then w.now_ms + w.state.timeout
    else w.change_complete_time) = ct at hg ⊢
  have hxe : ((if c = -1 then (255 : Int) else c) = 120 ∨
      (if c = -1 then (255 : Int) else c) = 88) ↔ (c = 120 ∨ c = 88) := by
    by_cases hc : c = -1
    · simp [hc]
    · simp [hc]
  generalize (if c = -1 then (255 : Int) else c) = ch at hxe ⊢
  by_cases hx : c = 120 ∨ c = 88
  · rw [if_pos (hxe.2 hx), if_pos hx]
    exact ⟨_, rfl, hg, rfl, rfl, rfl⟩
  · rw [if_neg (fun h => hx (hxe.1 h)), if_neg hx]
    obtain ⟨z1, hz1, hs1, hb1, hi1, ht1⟩ := zoom_keypress _ ZOOM_COMMAND_T.ZOOM_IN hg
    obtain ⟨z2, hz2, hs2, hb2, hi2, ht2⟩ := zoom_keypress _ ZOOM_COMMAND_T.ZOOM_OUT hg
    obtain ⟨z3, hz3, hs3, hb3, hi3, ht3⟩ := zoom_keypress _ ZOOM_COMMAND_T.ZOOM_RESET hg
    split_ifs
    · rw [hz1]; exact ⟨_, rfl, hs1, hb1, hi1, ht1⟩
    · rw [hz2]; exact ⟨_, rfl, hs2, hb2, hi2, ht2⟩
    · rw [hz3]; exact ⟨_, rfl, hs3, hb3, hi3, ht3⟩
    · exact ⟨_, rfl, hg, rfl, rfl, rfl⟩

/-- In a keyboard session every character other than `x` and `X` makes the
capture loop go round once more: the capture state is toggled once. -/
theorem capture_resume_char (fuel : Nat) (w : World) (ic : Int) (c : Int) (rest : List Int)
    (h : keypress_session w) (hin : w.stdin = c :: rest) (hx : ¬ (c = 120 ∨ c = 88)) :
    ∃ w2 ic2, capture_resume (fuel + 1) w ic = capture_resume fuel w2 ic2 ∧
      keypress_session w2 ∧ w2.stdin = rest ∧
      w2.state.bCapturing = lnot w.state.bCapturing ∧
      switches w2.trace = switches w.trace ++ [lnot w.state.bCapturing] := by
  obtain ⟨w1, hw, hs1, hb1, hi1, ht1⟩ := wait_for_next_change_keypress (fuel + 1) w c rest h hin
  rw [if_neg hx] at hw
  obtain ⟨hnone, hs2, hb2, hi2, ht2⟩ := capture_toggle_keypress w1 ic hs1
  refine ⟨(capture_toggle w1 ic).2.1, (capture_toggle w1 ic).2.2, ?_, hs2, ?_, ?_, ?_⟩
  · rw [← capture_loop_resume fuel w1 ic hnone]
    unfold capture_resume
    rw [hw]
    simp
  · rw [hi2, hi1]
  · rw [hb2, hb1]
  · rw [ht2, ht1, hb1]

theorem lnot_lnot (b : Int) (h : b = 0 ∨ b = 1) : lnot (lnot b) = b := by
  rcases h with h | h <;> subst h <;> rfl

/-- C25, corrected: in a video session with `waitMethod = Keypress`, a timeout
of 0 and a camera that accepts every call, the capture loop waiting for input
toggles `bCapturing` once for every character it reads other than `x` and `X`,
zoom characters included.  A zoom command entered as a line (the letter followed
by Enter) therefore switches the capture state twice and leaves `bCapturing` at
its value before the line; a plain Enter switches it once; `x` or `X` ends the
loop without a further switch. -/
theorem keypress_commands (fuel : Nat) (w : World) (ic : Int) (rest : List Int)
    (h : keypress_session w) :
    (∀ c, ¬ exit_key c → w.stdin = c :: rest →
      ∃ w2 ic2, capture_resume (fuel + 1) w ic = capture_resume fuel w2 ic2 ∧
        keypress_session w2 ∧ w2.stdin = rest ∧
        w2.state.bCapturing = lnot w.state.bCapturing ∧
        switches w2.trace = switches w.trace ++ [lnot w.state.bCapturing]) ∧
    (∀ z, zoom_key z → w.stdin = z :: 10 :: rest →
      (w.state.bCapturing = 0 ∨ w.state.bCapturing = 1) →
      ∃ w2 ic2, capture_resume (fuel + 2) w ic = capture_resume fuel w2 ic2 ∧
        keypress_session w2 ∧ w2.stdin = rest ∧
        w2.state.bCapturing = w.state.bCapturing ∧
        switches w2.trace =
          switches w.trace ++ [lnot w.state.bCapturing, w.state.bCapturing]) ∧
    (w.stdin = 10 :: rest →
      ∃ w2 ic2, capture_resume (fuel + 1) w ic = capture_resume fuel w2 ic2 ∧
        keypress_session w2 ∧ w2.stdin = rest ∧
        w2.state.bCapturing = lnot w.state.bCapturing) ∧
    (∀ c, exit_key c → w.stdin = c :: rest →
      ∃ w2, capture_resume fuel w ic = Except.ok (none, w2) ∧ w2.stdin = rest ∧
        w2.state.bCapturing = w.state.bCapturing ∧
        switches w2.trace = switches w.trace) := by
  refine ⟨fun c hx hin => capture_resume_char fuel w ic c rest h hin hx, ?_, ?_, ?_⟩
  · intro z hz hin hb
    have hzx : ¬ (z = 120 ∨ z = 88) := by
      unfold zoom_key at hz
      omega
    obtain ⟨w1, ic1, e1, s1, i1, b1, t1⟩ :=
      capture_resume_char (fuel + 1) w ic z (10 :: rest) h hin hzx
    obtain ⟨w2, ic2, e2, s2, i2, b2, t2⟩ :=
      capture_resume_char fuel w1 ic1 10 rest s1 i1 (by decide)
    refine ⟨w2, ic2, by rw [← e2, ← e1], s2, i2, ?_, ?_⟩
    · rw [b2, b1, lnot_lnot _ hb]
    · rw [t2, t1, b1, lnot_lnot _ hb]
      simp
  · intro hin
    obtain ⟨w2, ic2, e, s, i, b, _⟩ := capture_resume_char fuel w ic 10 rest h hin (by decide)
    exact ⟨w2, ic2, e, s, i, b⟩
  · intro c hx hin
    obtain ⟨w1, hw, _, hb1, hi1, ht1⟩ := wait_for_next_change_keypress fuel w c rest h hin
    rw [if_pos (show c = 120 ∨ c = 88 from hx)] at hw
    refine ⟨w1, ?_, hi1, hb1, ht1⟩
    unfold capture_resume
    rw [hw]
    simp

/-- C25 as amended, at the input `i`, Enter, `x` met in state Running: after the
line `i` Enter the loop waits again in state Running, having switched the
capture off and on. -/
theorem keypress_commands_witness :
    ∃ w2 ic2, capture_resume (0 + 2) keypress_world 0 = capture_resume 0 w2 ic2 ∧
      w2.stdin = [120] ∧ w2.state.bCapturing = keypress_world.state.bCapturing ∧
      switches w2.trace = switches keypress_world.trace ++
        [lnot keypress_world.state.bCapturing, keypress_world.state.bCapturing] := by
  obtain ⟨w2, ic2, e, _, i, b, t⟩ :=
    (keypress_commands 0 keypress_world 0 [120] ⟨rfl, rfl, rfl, rfl⟩).2.1 105
      (Or.inl rfl) rfl (Or.inr rfl)
  exact ⟨w2, ic2, e, i, b, t⟩

/-- C25 as stated fails: in a keyboard session waiting in state Running, the
zoom character `i` alone makes the loop switch the capture off (the Enter behind
it is still unread); over the input `i`, Enter, `x` the capture is switched
twice, off and on, although a single Enter was typed. -/
theorem zoom_key_toggles_capture :
    keypress_world.state.bCapturing = 1 ∧ keypress_world.stdin = [105, 10, 120] ∧
    (∃ w1, wait_for_next_change 10 keypress_world = Except.ok (1, w1) ∧
      w1.stdin = [10, 120] ∧ w1.crop.width = 58983 ∧
      (capture_toggle w1 0).2.1.state.bCapturing = 0 ∧
      switches (capture_toggle w1 0).2.1.trace = [0]) ∧
    (∃ w2, capture_resume 10 keypress_world 0 = Except.ok (none, w2) ∧
      switches w2.trace = [0, 1] ∧ w2.state.bCapturing = 1) :=
  ⟨rfl, rfl, ⟨_, rfl, rfl, rfl, rfl, rfl⟩, ⟨_, rfl, rfl, rfl⟩⟩

/-! ### The aggregated result of the parameter setters -/

/-- Without a camera `set_all_parameters` does not return: after fourteen setters
that return 1, `set_rotation` dereferences the null `camera`. -/
theorem set_all_parameters_null (hw : CameraParam → MMAL_STATUS_T) (params : CAM_PARAMETERS) :
    set_all_parameters hw false params = Except.error Fault.null_dereference := by
  simp [set_all_parameters, setter_calls, accumulate, set_saturation, set_sharpness,
    set_contrast, set_brightness, set_ISO, set_video_stabilisation, set_exposure_compensation,
    set_exposure_mode, set_flicker_avoid_mode, set_metering_mode, set_awb_mode, set_awb_gains,
    set_imageFX, set_colourFX, set_checked, set_rotation_call]

/-- C21 fails on the code: on the session `init_still` builds when every
hardware call succeeds (camera, preview, still encoder with its pool, two
connections), `destroy_still` returns having destroyed both connections, the
preview and the camera, and nothing else: the still encoder component is neither
disabled nor destroyed and its buffer pool is not released.  The function tests
`encoder_component`, which is never assigned, and calls
`destroy_encoder_component`, which handles the video encoder. -/
theorem destroy_still_leaves_encoder :
    (init_still still_init_hw_ok still_start_state).status = none ∧
    built_still_world.state.camera_component = true ∧
    built_still_world.state.preview_component = true ∧
    built_still_world.state.still_encoder_component = true ∧
    built_still_world.state.encoder_pool = some { queue := [0] } ∧
    built_still_world.state.encoder_component = false ∧
    ∃ w2 port,
      destroy_still built_still_world { is_enabled := false, userdata := false, held := [] } =
        Except.ok (w2, port) ∧
      w2.trace =
        [Event.connection_destroy Handle.preview_connection,
         Event.connection_destroy Handle.encoder_connection,
         Event.component_disable Handle.preview_component,
         Event.component_disable Handle.camera_component,
         Event.component_destroy Handle.preview_component,
         Event.component_destroy Handle.camera_component] ∧
      w2.state.still_encoder_component = true ∧
      w2.state.encoder_pool = some { queue := [0] } :=
  ⟨rfl, rfl, rfl, rfl, rfl, rfl, _, _, rfl, rfl, rfl, rfl⟩

/-- C22 fails on the code: when the camera is set up and the video encoder
component cannot be created, `init` returns the error (1, `MMAL_ENOMEM`) with
the camera component created, enabled, published in the state and not
destroyed; and when in `init_still` the connection from the camera to the JPEG
encoder cannot be created, the function returns the error with camera, preview
and JPEG encoder (with its pool) all still in place and the first connection
still up.  No component or connection is destroyed in either run. -/
theorem setup_failure_leaves_components :
    (init init_hw_no_encoder (default_state 0)).status = some 1 ∧
    (init init_hw_no_encoder (default_state 0)).state.camera_component = true ∧
    (init init_hw_no_encoder (default_state 0)).calls.filter SetupCall.lifecycle =
      [SetupCall.camera CameraCall.component_create,
       SetupCall.camera CameraCall.component_enable,
       SetupCall.encoder EncCall.component_create] ∧
    (init_still still_init_hw_no_connection still_start_state).status = some 1 ∧
    (init_still still_init_hw_no_connection still_start_state).state.camera_component = true ∧
    (init_still still_init_hw_no_connection still_start_state).state.preview_component = true ∧
    (init_still still_init_hw_no_connection
      still_start_state).state.still_encoder_component = true ∧
    (init_still still_init_hw_no_connection still_start_state).calls.filter
        SetupCall.lifecycle =
      [SetupCall.camera CameraCall.component_create,
       SetupCall.camera CameraCall.component_enable,
       SetupCall.preview (PreviewCall.component_create false),
       SetupCall.preview PreviewCall.component_enable,
       SetupCall.still_encoder StillEncCall.component_create,
       SetupCall.still_encoder StillEncCall.component_enable,
       SetupCall.still_encoder (StillEncCall.port_pool_create 1 65536),
       SetupCall.connection_create Handle.preview_connection,
       SetupCall.connection_enable Handle.preview_connection,
       SetupCall.connection_create Handle.encoder_connection] :=
  ⟨rfl, rfl, rfl, rfl, rfl, rfl, rfl, rfl⟩

/-! ### What the zoom and the set-up do keep -/

/-- The parts of the zoom contract the code keeps, for a camera that accepts
every call: ZOOM_RESET yields the full frame (0, 0, 65536, 65536); from a square
crop with width in [0, 65536] ZOOM_IN yields a centred square crop with width in
[9830, 65536]; and so does ZOOM_OUT as long as the width before it is at most
58983 and at least 3277. -/
theorem zoom_within_sensor (w : World) (hst : w.hw_status = [])
    (hcam : w.state.camera_component = true) :
    (∃ z, zoom_in_zoom_out w ZOOM_COMMAND_T.ZOOM_RESET = Except.ok (0, z) ∧
      z.crop = { x := 0, y := 0, width := 65536, height := 65536 }) ∧
    (0 ≤ w.crop.width → w.crop.width ≤ 65536 → w.crop.height = w.crop.width →
      ∃ z, zoom_in_zoom_out w ZOOM_COMMAND_T.ZOOM_IN = Except.ok (0, z) ∧
        9830 ≤ z.crop.width ∧ z.crop.width ≤ 65536 ∧ z.crop.height = z.crop.width ∧
        z.crop.x = (65536 - z.crop.width) / 2 ∧ z.crop.y = z.crop.x ∧ 0 ≤ z.crop.x) ∧
    (3277 ≤ w.crop.width → w.crop.width ≤ 58983 →
      ∃ z, zoom_in_zoom_out w ZOOM_COMMAND_T.ZOOM_OUT = Except.ok (0, z) ∧
        9830 ≤ z.crop.width ∧ z.crop.width ≤ 65536 ∧ z.crop.height = z.crop.width ∧
        z.crop.x = (65536 - z.crop.width) / 2 ∧ z.crop.y = z.crop.x ∧ 0 ≤ z.crop.x) := by
  refine ⟨?_, ?_, ?_⟩
  · simp only [zoom_in_zoom_out, World.pop_status, hst, hcam, ne_eq, not_true_eq_false,
      if_false, if_true, Bool.true_eq_false]
    exact ⟨_, rfl, rfl⟩
  · intro h0 h1 hh
    simp only [zoom_in_zoom_out, World.pop_status, hst, hcam, ne_eq, not_true_eq_false,
      if_false, if_true, Bool.true_eq_false, reduceCtorEq]
    refine ⟨_, rfl, ?_⟩
    simp only [zoom_full_16P16, zoom_increment_16P16]
    by_cases hsmall : uint32_of_int w.crop.width ≤ 9830 + 6553
    · rw [if_pos hsmall]
      simp only [uint32_of_int, int_of_uint32]
      refine ⟨by decide, by decide, ?_, by decide, ?_, by decide⟩ <;> first | rfl | trivial
    · rw [if_neg hsmall]
      have hw : 16383 < w.crop.width := by
        unfold uint32_of_int at hsmall
        omega
      have e1 : int_of_uint32 (uint32_of_int (w.crop.width - (6553 : Nat))) =
          w.crop.width - 6553 := by
        unfold int_of_uint32 uint32_of_int
        split_ifs <;> omega
      simp only [hh, e1]
      have e2 : int_of_uint32 (uint32_of_int (Int.tdiv (65536 - (w.crop.width - 6553)) 2)) =
          (65536 - (w.crop.width - 6553)) / 2 := by
        rw [Int.tdiv_eq_ediv (by omega) (by omega)]
        unfold int_of_uint32 uint32_of_int
        split_ifs <;> omega
      rw [e2]
      refine ⟨by omega, by omega, ?_, ?_, ?_, by omega⟩ <;> first | rfl | trivial
  · intro h0 h1
    simp only [zoom_in_zoom_out, World.pop_status, hst, hcam, ne_eq, not_true_eq_false,
      if_false, if_true, Bool.true_eq_false, reduceCtorEq]
    refine ⟨_, rfl, ?_⟩
    simp only [zoom_increment_16P16]
    have hu : uint32_of_int w.crop.width = w.crop.width.toNat := by
      unfold uint32_of_int
      omega
    have hlt : ¬ ((uint32_of_int w.crop.width + 6553) % 4294967296 <
        uint32_of_int w.crop.width) := by
      rw [hu]; omega
    rw [if_neg hlt]
    have e1 : int_of_uint32 ((uint32_of_int w.crop.width + 6553) % 4294967296) =
        w.crop.width + 6553 := by
      rw [hu]
      unfold int_of_uint32
      split_ifs <;> omega
    simp only [e1]
    have e2 : int_of_uint32 (uint32_of_int (Int.tdiv (65536 - (w.crop.width + 6553)) 2)) =
        (65536 - (w.crop.width + 6553)) / 2 := by
      rw [Int.tdiv_eq_ediv (by omega) (by omega)]
      unfold int_of_uint32 uint32_of_int
      split_ifs <;> omega
    rw [e2]
    refine ⟨by omega, by omega, ?_, ?_, ?_, by omega⟩ <;> first | rfl | trivial

/-- The rollback `init_still` does perform: when the preview cannot be created
the camera is destroyed, and when the JPEG encoder cannot be enabled the
encoder, the preview and the camera are destroyed, before the error is
returned. -/
theorem init_still_rolls_back_creation :
    (init_still still_init_hw_no_preview still_start_state).status = some 1 ∧
    (init_still still_init_hw_no_preview still_start_state).state.camera_component = false ∧
    (init_still still_init_hw_no_preview still_start_state).calls.filter
        SetupCall.lifecycle =
      [SetupCall.camera CameraCall.component_create,
       SetupCall.camera CameraCall.component_enable,
       SetupCall.preview (PreviewCall.component_create false),
       SetupCall.teardown (Event.component_destroy Handle.camera_component)] ∧
    (init_still still_init_hw_no_encoder still_start_state).status = some 1 ∧
    (init_still still_init_hw_no_encoder still_start_state).state.camera_component = false ∧
    (init_still still_init_hw_no_encoder still_start_state).state.preview_component = false ∧
    (init_still still_init_hw_no_encoder still_start_state).calls.filter
        SetupCall.lifecycle =
      [SetupCall.camera CameraCall.component_create,
       SetupCall.camera CameraCall.component_enable,
       SetupCall.preview (PreviewCall.component_create false),
       SetupCall.preview PreviewCall.component_enable,
       SetupCall.still_encoder StillEncCall.component_create,
       SetupCall.still_encoder StillEncCall.component_enable,
       SetupCall.still_encoder StillEncCall.component_destroy,
       SetupCall.teardown (Event.component_destroy Handle.preview_component),
       SetupCall.teardown (Event.component_destroy Handle.camera_component)] :=
  ⟨rfl, rfl, rfl, rfl, rfl, rfl, rfl⟩

end Cam
